import Mathlib

/-!
# Time-entry lifecycle of `graywrk/timetracker`

Shallow embedding of `backend/internal/models/time_entry.go`,
`backend/pkg/timetracker/service.go`, the ownership checks of
`backend/pkg/categories/service.go`, `GetUserStats` and `FormatDuration` of
`backend/pkg/statistics/service.go`, the period query of
`backend/pkg/database/postgres.go` and `Authenticate` of
`backend/cmd/server/middleware/auth.go`.

* `time.Time` is an instant counted in nanoseconds from Go's zero time
  (January 1, year 1, 00:00:00 UTC); `IsZero` is `ns = 0`.
* `time.Duration` is an `int64` count of nanoseconds; `Time.Sub` saturates at the
  `int64` bounds as the Go library documents.
* `float64` values are the rationals they denote; every float64 operation rounds its
  exact result to the nearest binary64 value, ties to even (`roundFloat64`).  All values
  that occur are zero or lie in the normal range, so neither overflow nor subnormals
  are modelled.
* `int64` arithmetic wraps modulo `2 ^ 64` (`wrapInt64`).
* `database.Repository` is an interface; it is embedded as the in-memory repository
  of `service_test.go` (rows keyed by an ID the store assigns), with no injected
  store failure.  The package clock `timeNow` is passed as the argument `now`.
* In the statistics the day format `Format("2006-01-02")` and the date condition of the
  SQL query are parameters; a Go map is a list of key-value pairs with distinct keys.
* Concurrent `StartWork` calls are interleavings of their store calls: each call is a
  step function that performs one store call per step.
* A Go runtime error of a slice expression is an outcome of its own (`sliceOutOfRange`).
-/

namespace TimeTracker

/-! ## Go numeric primitives -/

/-- Smallest `int64`. -/
def minInt64 : Int := -9223372036854775808

/-- Largest `int64`. -/
def maxInt64 : Int := 9223372036854775807

/-- Two's-complement wrap-around of an integer into the `int64` range. -/
def wrapInt64 (x : Int) : Int :=
  (x + 9223372036854775808) % 18446744073709551616 - 9223372036854775808

/-- Round a rational to the nearest integer, ties to the even neighbour. -/
def roundNearestEven (q : ℚ) : ℤ :=
  let f := ⌊q⌋
  if q - f < 1 / 2 then f
  else if 1 / 2 < q - f then f + 1
  else if f % 2 = 0 then f else f + 1

/-- Exponent of the unit in the last place of the binary64 binade that holds `q`:
`2 ^ (ulpExp q + 52) ≤ |q| < 2 ^ (ulpExp q + 53)`. -/
def ulpExp (q : ℚ) : ℤ := Int.log 2 |q| - 52

/-- The binary64 value nearest to `q` (sign and magnitude, 53-bit significand,
round-to-nearest, ties-to-even). -/
def roundFloat64 (q : ℚ) : ℚ :=
  if q = 0 then 0
  else if q < 0 then -((roundNearestEven (-q / 2 ^ ulpExp q) : ℤ) * 2 ^ ulpExp q)
  else (roundNearestEven (q / 2 ^ ulpExp q) : ℤ) * 2 ^ ulpExp q

/-- Go conversion `float64(n)` of an integer. -/
def float64OfInt (n : Int) : ℚ := roundFloat64 n

/-- Go `a + b` on `float64`. -/
def float64Add (a b : ℚ) : ℚ := roundFloat64 (a + b)

/-- Go `a / b` on `float64` (`b` non-zero). -/
def float64Div (a b : ℚ) : ℚ := roundFloat64 (a / b)

/-- Go conversion `int64(f)` of a `float64`: the fraction is discarded (truncation
toward zero). -/
def float64ToInt64 (q : ℚ) : Int := if 0 ≤ q then ⌊q⌋ else ⌈q⌉

/-! ## `time.Time` and `time.Duration` -/

/-- An instant, in nanoseconds since Go's zero time. -/
structure Time where
  ns : Int
  deriving DecidableEq, Repr

/-- Nanosecond count, an `int64`. -/
abbrev Duration := Int

/-- The zero value `time.Time{}`. -/
def Time.zero : Time := ⟨0⟩

/-- Go `t.IsZero()`. -/
def Time.IsZero (t : Time) : Bool := t.ns == 0

/-- Go `t.Sub(u)`: the difference `t - u`, saturated to the `int64` range. -/
def Time.Sub (t u : Time) : Duration :=
  if maxInt64 < t.ns - u.ns then maxInt64
  else if t.ns - u.ns < minInt64 then minInt64
  else t.ns - u.ns

/-- Go `d.Seconds()`:
`sec := d / Second; nsec := d % Second; return float64(sec) + float64(nsec)/1e9`. -/
def Duration.Seconds (d : Duration) : ℚ :=
  let sec := Int.tdiv d 1000000000
  let nsec := Int.tmod d 1000000000
  float64Add (float64OfInt sec) (float64Div (float64OfInt nsec) 1000000000)

/-! ## `models` -/

/-- Go `type Status string`. -/
abbrev Status := String

def StatusActive : Status := "active"
def StatusPaused : Status := "paused"
def StatusCompleted : Status := "completed"

/-- Go `models.Category`. -/
structure Category where
  ID : Nat
  UserID : Nat
  Name : String
  Color : String
  CreatedAt : Time
  UpdatedAt : Time
  deriving DecidableEq, Repr

/-- Go `models.TimeEntry`; `uint` identifiers are naturals, a nil `*uint` is `none`. -/
structure TimeEntry where
  ID : Nat
  UserID : Nat
  StartTime : Time
  EndTime : Time
  PausedAt : Time
  ResumedAt : Time
  TotalPaused : Int
  Status : Status
  CategoryID : Option Nat
  Category : Option Category
  CreatedAt : Time
  UpdatedAt : Time
  deriving DecidableEq, Repr

/-- The Go zero value `models.TimeEntry{}`. -/
def TimeEntry.zero : TimeEntry :=
  { ID := 0, UserID := 0, StartTime := Time.zero, EndTime := Time.zero, PausedAt := Time.zero,
    ResumedAt := Time.zero, TotalPaused := 0, Status := "", CategoryID := none, Category := none,
    CreatedAt := Time.zero, UpdatedAt := Time.zero }

/-- Go `(*TimeEntry).CalculateDuration`, with the clock reading `timeNow()` passed as `now`. -/
def TimeEntry.CalculateDuration (t : TimeEntry) (now : Time) : Int :=
  let endTime :=
    if t.EndTime.IsZero then
      if t.Status == StatusPaused then t.PausedAt else now
    else t.EndTime
  let totalDuration := Duration.Seconds (endTime.Sub t.StartTime)
  wrapInt64 (float64ToInt64 totalDuration - t.TotalPaused)

/-! ## `database.Repository` -/

/-- Errors of the service: the four sentinel values of `service.go`, and every other
error (`errors.New`, `fmt.Errorf`) with its message. -/
inductive Error where
  | ErrActiveEntryExists
  | ErrNoActiveEntry
  | ErrEntryAlreadyPaused
  | ErrEntryNotPaused
  | other (msg : String)
  deriving DecidableEq, Repr

/-- State of the repository: the stored time entries in the order the store returns
them, the stored categories, and the next identifier the store hands out. -/
structure Repository where
  entries : List TimeEntry
  categories : List Category
  nextID : Nat
  deriving DecidableEq, Repr

/-- A repository without time entries, as `NewMockRepository` builds it. -/
def Repository.empty (categories : List Category) : Repository :=
  { entries := [], categories := categories, nextID := 1 }

/-- Store `CreateTimeEntry`: assigns the next identifier and stores the entry. -/
def Repository.CreateTimeEntry (r : Repository) (entry : TimeEntry) : TimeEntry × Repository :=
  let entry := { entry with ID := r.nextID }
  (entry, { r with entries := r.entries ++ [entry], nextID := r.nextID + 1 })

/-- Store `GetTimeEntryByID`: the entry or a not-found error. -/
def Repository.GetTimeEntryByID (r : Repository) (id : Nat) : Except Error TimeEntry :=
  match r.entries.find? (fun e => e.ID == id) with
  | some e => .ok e
  | none => .error (.other "запись не найдена")

/-- Store `GetTimeEntriesByUserID`: all entries of the user. -/
def Repository.GetTimeEntriesByUserID (r : Repository) (userID : Nat) : List TimeEntry :=
  r.entries.filter (fun e => e.UserID == userID)

/-- The repository with the row of the entry's identifier replaced by the entry. -/
def Repository.withEntry (r : Repository) (entry : TimeEntry) : Repository :=
  { r with entries := r.entries.map (fun e => if e.ID == entry.ID then entry else e) }

/-- Store `UpdateTimeEntry`: replaces the row with the entry's identifier; an unknown
identifier is an error. -/
def Repository.UpdateTimeEntry (r : Repository) (entry : TimeEntry) : Except Error Repository :=
  if r.entries.any (fun e => e.ID == entry.ID) then .ok (r.withEntry entry)
  else .error (.other "запись не найдена")

/-- Store `DeleteTimeEntry`: removes the row with the identifier. -/
def Repository.DeleteTimeEntry (r : Repository) (id : Nat) : Repository :=
  { r with entries := r.entries.filter (fun e => !(e.ID == id)) }

/-- Store `GetCategoryByID`: the category or a not-found error. -/
def Repository.GetCategoryByID (r : Repository) (id : Nat) : Except Error Category :=
  match r.categories.find? (fun c => c.ID == id) with
  | some c => .ok c
  | none => .error (.other "категория не найдена")

/-! ## `timetracker.Service` -/

/-- Go `Service.GetActiveTimeEntry`: the first entry of the user whose status is not
completed. -/
def GetActiveTimeEntry (r : Repository) (userID : Nat) : Option TimeEntry :=
  (r.GetTimeEntriesByUserID userID).find? (fun e => e.Status != StatusCompleted)

/-- Go `Service.StartWork`. -/
def StartWork (r : Repository) (now : Time) (userID : Nat) : Except Error TimeEntry × Repository :=
  match GetActiveTimeEntry r userID with
  | some _ => (.error .ErrActiveEntryExists, r)
  | none =>
    let entry := { TimeEntry.zero with UserID := userID, StartTime := now, Status := StatusActive }
    let (entry, r) := r.CreateTimeEntry entry
    (.ok entry, r)

/-- Go `Service.StartWorkWithCategory`. -/
def StartWorkWithCategory (r : Repository) (now : Time) (userID categoryID : Nat) :
    Except Error TimeEntry × Repository :=
  match GetActiveTimeEntry r userID with
  | some _ => (.error .ErrActiveEntryExists, r)
  | none =>
    match r.GetCategoryByID categoryID with
    | .error err => (.error err, r)
    | .ok category =>
      if category.UserID != userID then
        (.error (.other "категория не принадлежит пользователю"), r)
      else
        let entry := { TimeEntry.zero with
          UserID := userID, StartTime := now, Status := StatusActive, CategoryID := some categoryID }
        let (entry, r) := r.CreateTimeEntry entry
        match r.GetTimeEntryByID entry.ID with
        | .error err => (.error err, r)
        | .ok fullEntry => (.ok fullEntry, r)

/-- Go `Service.PauseWork`. -/
def PauseWork (r : Repository) (now : Time) (userID : Nat) : Except Error TimeEntry × Repository :=
  match (r.GetTimeEntriesByUserID userID).find? (fun e => e.Status == StatusActive) with
  | none => (.error .ErrNoActiveEntry, r)
  | some activeEntry =>
    if activeEntry.Status == StatusPaused then (.error .ErrEntryAlreadyPaused, r)
    else
      let activeEntry := { activeEntry with PausedAt := now, Status := StatusPaused }
      match r.UpdateTimeEntry activeEntry with
      | .error err => (.error err, r)
      | .ok r => (.ok activeEntry, r)

/-- Go `Service.ResumeWork`. -/
def ResumeWork (r : Repository) (now : Time) (userID : Nat) : Except Error TimeEntry × Repository :=
  match (r.GetTimeEntriesByUserID userID).find? (fun e => e.Status == StatusPaused) with
  | none => (.error .ErrNoActiveEntry, r)
  | some pausedEntry =>
    if pausedEntry.Status != StatusPaused then (.error .ErrEntryNotPaused, r)
    else
      let pauseDuration := Duration.Seconds (now.Sub pausedEntry.PausedAt)
      let pausedEntry := { pausedEntry with
        TotalPaused := wrapInt64 (pausedEntry.TotalPaused + float64ToInt64 pauseDuration),
        ResumedAt := now, PausedAt := Time.zero, Status := StatusActive }
      match r.UpdateTimeEntry pausedEntry with
      | .error err => (.error err, r)
      | .ok r => (.ok pausedEntry, r)

/-- Go `Service.StopWork`. -/
def StopWork (r : Repository) (now : Time) (userID : Nat) : Except Error TimeEntry × Repository :=
  match (r.GetTimeEntriesByUserID userID).find? (fun e => e.Status != StatusCompleted) with
  | none => (.error .ErrNoActiveEntry, r)
  | some activeEntry =>
    let activeEntry :=
      if activeEntry.Status == StatusPaused then
        let pauseDuration := Duration.Seconds (now.Sub activeEntry.PausedAt)
        { activeEntry with
          TotalPaused := wrapInt64 (activeEntry.TotalPaused + float64ToInt64 pauseDuration),
          PausedAt := Time.zero }
      else activeEntry
    let activeEntry := { activeEntry with EndTime := now, Status := StatusCompleted }
    match r.UpdateTimeEntry activeEntry with
    | .error err => (.error err, r)
    | .ok r => (.ok activeEntry, r)

/-- Go `Service.DeleteTimeEntry`. -/
def DeleteTimeEntry (r : Repository) (entryID userID : Nat) : Option Error × Repository :=
  match r.GetTimeEntryByID entryID with
  | .error err => (some err, r)
  | .ok entry =>
    if entry.UserID != userID then (some (.other "у вас нет прав на удаление этой записи"), r)
    else (none, r.DeleteTimeEntry entryID)


/-! ## Call sequences -/

/-- One call of the service, with the clock reading it observes. -/
inductive Call where
  | startWork (userID : Nat) (now : Time)
  | startWorkWithCategory (userID categoryID : Nat) (now : Time)
  | pauseWork (userID : Nat) (now : Time)
  | resumeWork (userID : Nat) (now : Time)
  | stopWork (userID : Nat) (now : Time)
  | deleteTimeEntry (entryID userID : Nat)
  deriving DecidableEq, Repr

/-- The error a call returns (`none` on success). -/
def errorOf (res : Except Error TimeEntry) : Option Error :=
  match res with
  | .ok _ => none
  | .error err => some err

/-- Run one call against the repository: its error, if any, and the repository after it. -/
def Call.exec (r : Repository) : Call → Option Error × Repository
  | .startWork userID now => let res := TimeTracker.StartWork r now userID; (errorOf res.1, res.2)
  | .startWorkWithCategory userID categoryID now =>
    let res := TimeTracker.StartWorkWithCategory r now userID categoryID; (errorOf res.1, res.2)
  | .pauseWork userID now => let res := TimeTracker.PauseWork r now userID; (errorOf res.1, res.2)
  | .resumeWork userID now => let res := TimeTracker.ResumeWork r now userID; (errorOf res.1, res.2)
  | .stopWork userID now => let res := TimeTracker.StopWork r now userID; (errorOf res.1, res.2)
  | .deleteTimeEntry entryID userID => TimeTracker.DeleteTimeEntry r entryID userID

/-- Run calls one after the other: the error of each call and the final repository. -/
def execAll (r : Repository) : List Call → List (Option Error) × Repository
  | [] => ([], r)
  | c :: cs =>
    let res := c.exec r
    let rest := execAll res.2 cs
    (res.1 :: rest.1, rest.2)

/-- Number of stored entries of the user whose status is not completed. -/
def Repository.openCount (r : Repository) (userID : Nat) : Nat :=
  ((r.GetTimeEntriesByUserID userID).filter (fun e => e.Status != StatusCompleted)).length

/-- Well-formed repository: identifiers are unique and below the next identifier. -/
def Repository.WF (r : Repository) : Prop :=
  (∀ e ∈ r.entries, e.ID < r.nextID) ∧ (r.entries.map TimeEntry.ID).Nodup

instance (r : Repository) : Decidable r.WF := by
  unfold Repository.WF
  infer_instance

/-! ## `categories.Service` -/

/-- Go `err.message()`: the message of an error. -/
def Error.message : Error → String
  | .ErrActiveEntryExists => "у вас уже есть активная запись времени"
  | .ErrNoActiveEntry => "у вас нет активной записи времени"
  | .ErrEntryAlreadyPaused => "запись уже приостановлена"
  | .ErrEntryNotPaused => "запись не приостановлена"
  | .other msg => msg

/-- Go `fmt.Errorf(prefix + ": %w", err)`. -/
def Error.wrap (pre : String) (err : Error) : Error :=
  .other (pre ++ ": " ++ err.message)

/-- Store `UpdateCategory` (in-memory repository of `categories/service_test.go`):
replaces the category with the identifier, stamped with the store's clock reading; an
unknown identifier is an error. -/
def Repository.UpdateCategory (r : Repository) (now : Time) (category : Category) :
    Except Error Repository :=
  if r.categories.any (fun c => c.ID == category.ID) then
    let category := { category with UpdatedAt := now }
    .ok { r with
      categories := r.categories.map (fun c => if c.ID == category.ID then category else c) }
  else .error (.other "категория не найдена")

/-- Store `DeleteCategory`: removes the category with the identifier; an unknown
identifier is an error. -/
def Repository.DeleteCategory (r : Repository) (id : Nat) : Except Error Repository :=
  if r.categories.any (fun c => c.ID == id) then
    .ok { r with categories := r.categories.filter (fun c => !(c.ID == id)) }
  else .error (.other "категория не найдена")

/-- Go `categories.Service.UpdateCategory`; `now` is the clock reading of the store. -/
def UpdateCategory (r : Repository) (now : Time) (id userID : Nat) (name color : String) :
    Except Error Category × Repository :=
  match r.GetCategoryByID id with
  | .error err => (.error (err.wrap "ошибка при получении категории"), r)
  | .ok existingCategory =>
    if existingCategory.UserID != userID then
      (.error (.other "у пользователя нет прав на редактирование этой категории"), r)
    else if name == "" then
      (.error (.other "название категории не может быть пустым"), r)
    else
      let color := if color == "" then existingCategory.Color else color
      let category : Category :=
        { ID := id, UserID := userID, Name := name, Color := color,
          CreatedAt := Time.zero, UpdatedAt := Time.zero }
      match r.UpdateCategory now category with
      | .error err => (.error (err.wrap "ошибка при обновлении категории"), r)
      | .ok r => (.ok { category with UpdatedAt := now }, r)

/-- Go `categories.Service.DeleteCategory`. -/
def DeleteCategory (r : Repository) (id userID : Nat) : Option Error × Repository :=
  match r.GetCategoryByID id with
  | .error err => (some (err.wrap "ошибка при получении категории"), r)
  | .ok existingCategory =>
    if existingCategory.UserID != userID then
      (some (.other "у пользователя нет прав на удаление этой категории"), r)
    else
      match r.DeleteCategory id with
      | .error err => (some (err.wrap "ошибка при удалении категории"), r)
      | .ok r => (none, r)

/-! ## `statistics.Service` -/

/-- Go `statistics.TimeStats`; the map `DailyStats` is a list of key-value pairs with
distinct keys, the `float64` field is the rational it denotes. -/
structure TimeStats where
  TotalDuration : Int
  DailyStats : List (String × Int)
  AverageDailyHours : ℚ
  LongestSessionDate : String
  LongestSession : Int
  Entries : List TimeEntry
  ActiveEntry : Option TimeEntry

/-- Go map read `m[k]` on `map[string]int64`: the value, or `0` for a missing key. -/
def mapGet (m : List (String × Int)) (k : String) : Int :=
  match m.find? (fun p => p.1 == k) with
  | some p => p.2
  | none => 0

/-- Go `m[k] += d` on `map[string]int64`. -/
def mapAdd : List (String × Int) → String → Int → List (String × Int)
  | [], k, d => [(k, wrapInt64 (0 + d))]
  | p :: rest, k, d =>
    if p.1 == k then (p.1, wrapInt64 (p.2 + d)) :: rest else p :: mapAdd rest k d

/-- The two methods of the interface `database.Repository` that
`statistics.Service` calls. -/
structure StatsRepository where
  GetUserStatsByPeriod : Nat → String → String → List TimeEntry
  GetActiveTimeEntryForUser : Nat → Option TimeEntry

/-- Body of the loop of `GetUserStats` (lines 88-109) for one entry; `now` is the clock
reading `CalculateDuration` sees, `formatDate t` is `t.Format("2006-01-02")`.  The
locals `totalDuration`, `longestSession`, `longestSessionDate` are kept in the fields
they are assigned to after the loop. -/
def Statistics.addEntry (formatDate : Time → String) (stats : TimeStats) (entry : TimeEntry)
    (now : Time) : TimeStats :=
  let duration := entry.CalculateDuration now
  let stats := { stats with TotalDuration := wrapInt64 (stats.TotalDuration + duration) }
  let day := formatDate entry.StartTime
  let stats := { stats with DailyStats := mapAdd stats.DailyStats day duration }
  if duration > stats.LongestSession then
    { stats with LongestSession := duration, LongestSessionDate := day }
  else stats

/-- The loop of `GetUserStats` over the entries; `clock i` is the clock reading at the
entry of index `i`. -/
def Statistics.processEntries (formatDate : Time → String) (clock : Nat → Time) :
    List TimeEntry → Nat → TimeStats → TimeStats
  | [], _, stats => stats
  | entry :: rest, i, stats =>
    Statistics.processEntries formatDate clock rest (i + 1)
      (Statistics.addEntry formatDate stats entry (clock i))

/-- Go `statistics.Service.GetUserStats` against a repository without failures. -/
def Statistics.GetUserStats (formatDate : Time → String) (clock : Nat → Time)
    (repo : StatsRepository) (userID : Nat) (startDate endDate : String) : TimeStats :=
  let entries := repo.GetUserStatsByPeriod userID startDate endDate
  let activeEntry := repo.GetActiveTimeEntryForUser userID
  let stats : TimeStats :=
    { TotalDuration := 0, DailyStats := [], AverageDailyHours := 0, LongestSessionDate := "",
      LongestSession := 0, Entries := entries, ActiveEntry := activeEntry }
  if entries.length == 0 then stats
  else
    let stats := Statistics.processEntries formatDate clock entries 0 stats
    if stats.DailyStats.length > 0 then
      let totalHours := float64Div (float64OfInt stats.TotalDuration) 3600
      { stats with
        AverageDailyHours := float64Div totalHours (float64OfInt stats.DailyStats.length) }
    else stats

/-- Store `GetUserStatsByPeriod` as the SQL of `postgres.go` states it: the completed
entries of the user whose start date lies in the range, latest start first, with the
selected columns only; `inRange startTime startDate endDate` is the date condition
`DATE(start_time) >= DATE($2) AND DATE(start_time) <= DATE($3)`. -/
def Repository.GetUserStatsByPeriod (inRange : Time → String → String → Bool) (r : Repository)
    (userID : Nat) (startDate endDate : String) : List TimeEntry :=
  ((r.entries.filter (fun e =>
      e.UserID == userID && inRange e.StartTime startDate endDate
        && e.Status == StatusCompleted)).insertionSort
    (fun a b => b.StartTime.ns ≤ a.StartTime.ns)).map
    (fun e => { TimeEntry.zero with
      ID := e.ID, UserID := e.UserID, StartTime := e.StartTime, EndTime := e.EndTime,
      Status := e.Status, TotalPaused := e.TotalPaused })

/-- Store `GetActiveTimeEntryForUser`: the most recently stored entry of the user whose
status is not completed. -/
def Repository.GetActiveTimeEntryForUser (r : Repository) (userID : Nat) : Option TimeEntry :=
  r.entries.reverse.find? (fun e => e.UserID == userID && e.Status != StatusCompleted)

/-- The repository as `statistics.Service` sees it. -/
def Repository.statsRepository (inRange : Time → String → String → Bool) (r : Repository) :
    StatsRepository :=
  { GetUserStatsByPeriod := r.GetUserStatsByPeriod inRange
    GetActiveTimeEntryForUser := r.GetActiveTimeEntryForUser }

/-- What the loop of `GetUserStats` sees of each entry from index `i` on: the day of its
start and its duration at the clock reading of its index. -/
def Statistics.observations (formatDate : Time → String) (clock : Nat → Time) :
    List TimeEntry → Nat → List (String × Int)
  | [], _ => []
  | entry :: rest, i =>
    (formatDate entry.StartTime, entry.CalculateDuration (clock i))
      :: Statistics.observations formatDate clock rest (i + 1)

/-- The statistics before the loop of `GetUserStats`, without the repository results:
Go zero values and an empty map. -/
def TimeStats.zero : TimeStats :=
  { TotalDuration := 0, DailyStats := [], AverageDailyHours := 0, LongestSessionDate := "",
    LongestSession := 0, Entries := [], ActiveEntry := none }

/-- The mock repository of `statistics/service_test.go` with no error set: it returns the
entries and the active entry it was given, whatever the user and the range. -/
def MockRepository (entries : List TimeEntry) (activeEntry : Option TimeEntry) :
    StatsRepository :=
  { GetUserStatsByPeriod := fun _ _ _ => entries
    GetActiveTimeEntryForUser := fun _ => activeEntry }

/-- The three entries of `TestGetUserStats_CustomPeriod`: 15 January 2025 10:00-12:00,
10 February 14:00-18:00, 5 March 9:00-17:00 with one hour paused (UTC). -/
def customPeriodEntries : List TimeEntry :=
  [{ TimeEntry.zero with
      ID := 1, UserID := 1, StartTime := ⟨63872532000000000000⟩,
      EndTime := ⟨63872539200000000000⟩, Status := "completed", TotalPaused := 0 },
   { TimeEntry.zero with
      ID := 2, UserID := 1, StartTime := ⟨63874792800000000000⟩,
      EndTime := ⟨63874807200000000000⟩, Status := "completed", TotalPaused := 0 },
   { TimeEntry.zero with
      ID := 3, UserID := 1, StartTime := ⟨63876762000000000000⟩,
      EndTime := ⟨63876790800000000000⟩, Status := "completed", TotalPaused := 3600 }]

/-- The value of `t.Format("2006-01-02")` on the start times of `customPeriodEntries`. -/
def customPeriodDay (t : Time) : String :=
  if t.ns = 63872532000000000000 then "2025-01-15"
  else if t.ns = 63874792800000000000 then "2025-02-10"
  else "2025-03-05"

/-! ## Clock readings of calls -/

/-- The clock reading a call observes, if it reads the clock. -/
def Call.clock : Call → Option Time
  | .startWork _ now => some now
  | .startWorkWithCategory _ _ now => some now
  | .pauseWork _ now => some now
  | .resumeWork _ now => some now
  | .stopWork _ now => some now
  | .deleteTimeEntry _ _ => none

/-! ## `statistics.FormatDuration` -/

/-- Go `t.Add(d)`. -/
def Time.Add (t : Time) (d : Duration) : Time := ⟨t.ns + d⟩

/-- Go `appendInt(b, x, 2)` of package `time` for `0 ≤ x < 100`: two decimal digits. -/
def appendInt2 (x : Nat) : String :=
  String.mk [Nat.digitChar (x / 10), Nat.digitChar (x % 10)]

/-- Go `t.Format("15:04:05")` in UTC: hour of the day, minute, second, two digits each. -/
def Time.FormatClock (t : Time) : String :=
  let secondsOfDay := ((t.ns / 1000000000) % 86400).toNat
  appendInt2 (secondsOfDay / 3600) ++ ":" ++ appendInt2 (secondsOfDay % 3600 / 60) ++ ":"
    ++ appendInt2 (secondsOfDay % 60)

/-- Go `statistics.FormatDuration`:
`time.Time{}.Add(time.Duration(seconds) * time.Second).Format("15:04:05")`. -/
def FormatDuration (seconds : Int) : String :=
  (Time.zero.Add (wrapInt64 (seconds * 1000000000))).FormatClock

/-- A number in decimal, zero-padded to at least two digits. -/
def zeroPad2 (n : Nat) : String :=
  if n < 10 then "0" ++ toString n else toString n

/-- The text `HH:MM:SS` as the specification words it: `HH = s / 3600`,
`MM = (s mod 3600) / 60`, `SS = s mod 60`, each zero-padded to at least two digits. -/
def specFormatDuration (s : Nat) : String :=
  zeroPad2 (s / 3600) ++ ":" ++ zeroPad2 (s % 3600 / 60) ++ ":" ++ zeroPad2 (s % 60)

/-! ## Concurrent `StartWork` calls -/

/-- Progress of one `StartWork` call between its two store calls: before
`GetActiveTimeEntry`; after it found no open entry and before `CreateTimeEntry`;
returned. -/
inductive StartCall where
  | pending (userID : Nat) (now : Time)
  | checked (userID : Nat) (now : Time)
  | returned (res : Except Error TimeEntry)

/-- The next store call of a `StartWork` call, run atomically against the repository. -/
def StartCall.step (r : Repository) : StartCall → StartCall × Repository
  | .pending userID now =>
    match GetActiveTimeEntry r userID with
    | some _ => (.returned (.error .ErrActiveEntryExists), r)
    | none => (.checked userID now, r)
  | .checked userID now =>
    let entry := { TimeEntry.zero with UserID := userID, StartTime := now, Status := StatusActive }
    let (entry, r) := r.CreateTimeEntry entry
    (.returned (.ok entry), r)
  | .returned res => (.returned res, r)

/-- Run an interleaving: each element of the schedule names the call that performs its
next store call. -/
def runSchedule (r : Repository) (calls : List StartCall) : List Nat → List StartCall × Repository
  | [] => (calls, r)
  | i :: rest =>
    match calls.get? i with
    | none => runSchedule r calls rest
    | some c =>
      let res := c.step r
      runSchedule res.2 (calls.set i res.1) rest

/-- The schedule in which `n` calls, numbered from `k`, run one after the other: both
store calls of a call before the next call begins. -/
def sequentialSchedule (k : Nat) : Nat → List Nat
  | 0 => []
  | n + 1 => k :: k :: sequentialSchedule (k + 1) n

/-! ## `middleware.AuthMiddleware` -/

/-- How `Authenticate` ends: a 401 answer with its message, the call of the next handler
with the user identifier, or the runtime error of a slice expression out of range. -/
inductive AuthResult where
  | unauthorized (message : String)
  | next (userID : Nat)
  | sliceOutOfRange
  deriving DecidableEq, Repr

/-- Go `strings.Split(s, " ")` on the characters of `s`; the space is character 32. -/
def splitOnSpace : List Char → List (List Char)
  | [] => [[]]
  | c :: cs =>
    if c == Char.ofNat 32 then [] :: splitOnSpace cs
    else
      match splitOnSpace cs with
      | [] => [[c]]
      | w :: ws => (c :: w) :: ws

/-- Go `AuthMiddleware.Authenticate` on the value of the `Authorization` header;
`validateToken` is `authService.ValidateToken`, the slice expression `tokenString[:20]`
is out of range when the token has fewer than 20 bytes. -/
def Authenticate (validateToken : String → Except String Nat) (authHeader : String) :
    AuthResult :=
  if authHeader == "" then .unauthorized "Заголовок Authorization отсутствует"
  else
    let parts := (splitOnSpace authHeader.data).map String.mk
    if parts.length != 2 || parts.getD 0 "" != "Bearer" then
      .unauthorized "Неверный формат заголовка Authorization"
    else
      let tokenString := parts.getD 1 ""
      if tokenString.utf8ByteSize < 20 then .sliceOutOfRange
      else
        match validateToken tokenString with
        | .error err => .unauthorized ("Недействительный токен: " ++ err)
        | .ok userID => .next userID

/-! ## Lemmas on float64 rounding and `Duration.Seconds` -/

theorem roundNearestEven_le {q : ℚ} {n : ℤ} (h : q ≤ n) : roundNearestEven q ≤ n := by
  unfold roundNearestEven
  have hf : ⌊q⌋ ≤ n := by
    have := Int.floor_le q
    exact_mod_cast (Int.floor_le q).trans h
  have hfl := Int.floor_le q
  have hlt := Int.lt_floor_add_one q
  simp only
  split_ifs with h1 h2 h3
  · exact hf
  · rcases lt_or_eq_of_le hf with h4 | h4
    · omega
    · exfalso
      rw [h4] at h2
      linarith
  · exact hf
  · rcases lt_or_eq_of_le hf with h4 | h4
    · omega
    · exfalso
      rw [h4] at h1
      linarith

theorem le_roundNearestEven {q : ℚ} {n : ℤ} (h : (n : ℚ) ≤ q) : n ≤ roundNearestEven q := by
  unfold roundNearestEven
  have hf : n ≤ ⌊q⌋ := Int.le_floor.mpr h
  simp only
  split_ifs <;> omega

theorem roundNearestEven_lt {q : ℚ} {n : ℤ} (h : q < n - 1 / 2) : roundNearestEven q < n := by
  unfold roundNearestEven
  have hfl := Int.floor_le q
  have hf : ⌊q⌋ < n := by
    have : (⌊q⌋ : ℚ) < n := by linarith
    exact_mod_cast this
  simp only
  split_ifs with h1 h2 h3
  · exact hf
  · rcases lt_or_eq_of_le (Int.add_one_le_iff.mpr hf) with h4 | h4
    · exact h4
    · exfalso
      have : (⌊q⌋ : ℚ) + 1 = n := by exact_mod_cast h4
      linarith
  · exact hf
  · rcases lt_or_eq_of_le (Int.add_one_le_iff.mpr hf) with h4 | h4
    · exact h4
    · exfalso
      have : (⌊q⌋ : ℚ) + 1 = n := by exact_mod_cast h4
      linarith

theorem roundNearestEven_ge {q : ℚ} {n : ℤ} (h : (n : ℚ) - 1 / 2 < q) : n ≤ roundNearestEven q := by
  unfold roundNearestEven
  have hlt := Int.lt_floor_add_one q
  have hf : n - 1 ≤ ⌊q⌋ := by
    have : ((n - 1 : ℤ) : ℚ) < (⌊q⌋ : ℚ) + 1 := by push_cast; linarith
    have : n - 1 < ⌊q⌋ + 1 := by exact_mod_cast this
    omega
  simp only
  split_ifs with h1 h2 h3
  · rcases eq_or_lt_of_le hf with h4 | h4
    · exfalso
      have : (⌊q⌋ : ℚ) = n - 1 := by rw [← h4]; push_cast; ring
      linarith
    · omega
  · omega
  · rcases eq_or_lt_of_le hf with h4 | h4
    · exfalso
      have : (⌊q⌋ : ℚ) = n - 1 := by rw [← h4]; push_cast; ring
      linarith
    · omega
  · omega

theorem ulpExp_neg (q : ℚ) : ulpExp (-q) = ulpExp q := by
  simp [ulpExp]

theorem roundFloat64_neg (q : ℚ) : roundFloat64 (-q) = -roundFloat64 q := by
  unfold roundFloat64
  rcases lt_trichotomy q 0 with h | h | h
  · have h1 : ¬ (-q = 0) := by intro h0; linarith [neg_eq_zero.mp h0]
    have h2 : ¬ (-q < 0) := by linarith
    have h3 : ¬ (q = 0) := ne_of_lt h
    simp only [h1, h2, h3, h, if_true, if_false, ulpExp_neg, neg_neg]
  · subst h; simp
  · have h1 : ¬ (-q = 0) := by intro h0; linarith [neg_eq_zero.mp h0]
    have h2 : (-q < 0) := by linarith
    have h3 : ¬ (q = 0) := ne_of_gt h
    have h4 : ¬ (q < 0) := not_lt.mpr h.le
    simp only [h1, h2, h3, h4, if_true, if_false, ulpExp_neg, neg_neg]

theorem roundFloat64_pos {q : ℚ} (h : 0 < q) :
    roundFloat64 q = (roundNearestEven (q / 2 ^ ulpExp q) : ℤ) * 2 ^ ulpExp q := by
  unfold roundFloat64
  rw [if_neg (ne_of_gt h), if_neg (not_lt.mpr h.le)]

/-- A multiple of `2 ^ k` is an integer multiple of the unit in the last place `2 ^ e`, `e ≤ k`. -/
theorem grid_div (N : ℤ) {e k : ℤ} (h : e ≤ k) :
    (N : ℚ) * 2 ^ k / 2 ^ e = ((N * 2 ^ (k - e).toNat : ℤ) : ℚ) := by
  have h2 : (2 : ℚ) ≠ 0 := by norm_num
  have hk : k = e + ((k - e).toNat : ℤ) := by
    rw [Int.toNat_of_nonneg (by omega)]; ring
  conv_lhs => rw [hk]
  rw [zpow_add₀ h2, zpow_natCast]
  push_cast
  field_simp
  ring

theorem roundFloat64_le_grid {q : ℚ} (hq : 0 < q) {N k : ℤ} (hk : ulpExp q ≤ k)
    (h : q ≤ N * 2 ^ k) : roundFloat64 q ≤ N * 2 ^ k := by
  rw [roundFloat64_pos hq]
  have hpos : (0 : ℚ) < 2 ^ ulpExp q := zpow_pos (by norm_num) _
  have h1 : q / 2 ^ ulpExp q ≤ ((N * 2 ^ (k - ulpExp q).toNat : ℤ) : ℚ) := by
    rw [← grid_div N hk]
    exact div_le_div_of_nonneg_right h hpos.le
  have h2 := roundNearestEven_le h1
  have h3 : ((roundNearestEven (q / 2 ^ ulpExp q) : ℤ) : ℚ) ≤ ((N * 2 ^ (k - ulpExp q).toNat : ℤ) : ℚ) := by
    exact_mod_cast h2
  rw [← grid_div N hk] at h3
  rwa [le_div_iff₀ hpos] at h3

theorem le_roundFloat64_grid {q : ℚ} (hq : 0 < q) {N k : ℤ} (hk : ulpExp q ≤ k)
    (h : (N : ℚ) * 2 ^ k ≤ q) : (N : ℚ) * 2 ^ k ≤ roundFloat64 q := by
  rw [roundFloat64_pos hq]
  have hpos : (0 : ℚ) < 2 ^ ulpExp q := zpow_pos (by norm_num) _
  have h1 : ((N * 2 ^ (k - ulpExp q).toNat : ℤ) : ℚ) ≤ q / 2 ^ ulpExp q := by
    rw [← grid_div N hk]
    exact div_le_div_of_nonneg_right h hpos.le
  have h2 := le_roundNearestEven h1
  have h3 : ((N * 2 ^ (k - ulpExp q).toNat : ℤ) : ℚ) ≤ ((roundNearestEven (q / 2 ^ ulpExp q) : ℤ) : ℚ) := by
    exact_mod_cast h2
  rw [← grid_div N hk] at h3
  rwa [div_le_iff₀ hpos] at h3

theorem roundFloat64_lt_grid {q : ℚ} (hq : 0 < q) {N k : ℤ} (hk : ulpExp q ≤ k)
    (h : q < N * 2 ^ k - 2 ^ ulpExp q / 2) : roundFloat64 q < N * 2 ^ k := by
  rw [roundFloat64_pos hq]
  have hpos : (0 : ℚ) < 2 ^ ulpExp q := zpow_pos (by norm_num) _
  have h1 : q / 2 ^ ulpExp q < ((N * 2 ^ (k - ulpExp q).toNat : ℤ) : ℚ) - 1 / 2 := by
    rw [← grid_div N hk, div_lt_iff₀ hpos, sub_mul, div_mul_cancel₀ _ hpos.ne']
    linarith
  have h2 := roundNearestEven_lt h1
  have h3 : ((roundNearestEven (q / 2 ^ ulpExp q) : ℤ) : ℚ) < ((N * 2 ^ (k - ulpExp q).toNat : ℤ) : ℚ) := by
    exact_mod_cast h2
  rw [← grid_div N hk] at h3
  rwa [lt_div_iff₀ hpos] at h3

theorem le_roundFloat64_half {q : ℚ} (hq : 0 < q) {N k : ℤ} (hk : ulpExp q ≤ k)
    (h : (N : ℚ) * 2 ^ k - 2 ^ ulpExp q / 2 < q) : (N : ℚ) * 2 ^ k ≤ roundFloat64 q := by
  rw [roundFloat64_pos hq]
  have hpos : (0 : ℚ) < 2 ^ ulpExp q := zpow_pos (by norm_num) _
  have h1 : ((N * 2 ^ (k - ulpExp q).toNat : ℤ) : ℚ) - 1 / 2 < q / 2 ^ ulpExp q := by
    rw [← grid_div N hk, lt_div_iff₀ hpos, sub_mul, div_mul_cancel₀ _ hpos.ne']
    linarith
  have h2 := roundNearestEven_ge h1
  have h3 : ((N * 2 ^ (k - ulpExp q).toNat : ℤ) : ℚ)
      ≤ ((roundNearestEven (q / 2 ^ ulpExp q) : ℤ) : ℚ) := by
    exact_mod_cast h2
  rw [← grid_div N hk] at h3
  rwa [div_le_iff₀ hpos] at h3

theorem ulpExp_le_of_lt {q : ℚ} (hq : 0 < q) {j : ℤ} (h : q < 2 ^ j) : ulpExp q ≤ j - 53 := by
  have h1 : Int.log 2 |q| < j := by
    rw [abs_of_pos hq]
    have := (Int.lt_zpow_iff_log_lt (R := ℚ) (b := 2) (by norm_num) hq (x := j)).mp (by exact_mod_cast h)
    exact this
  unfold ulpExp
  omega

theorem ulpExp_ge_of_le {q : ℚ} (hq : 0 < q) {j : ℤ} (h : 2 ^ j ≤ q) : j - 52 ≤ ulpExp q := by
  have h1 : j ≤ Int.log 2 |q| := by
    rw [abs_of_pos hq]
    exact (Int.zpow_le_iff_le_log (R := ℚ) (b := 2) (by norm_num) hq (x := j)).mp
      (by exact_mod_cast h)
  unfold ulpExp
  omega

/-- Values `m * 2 ^ k` with a mantissa below `2 ^ 53` are represented exactly. -/
theorem roundFloat64_exact {m k : ℤ} (hm : |m| < 2 ^ 53) : roundFloat64 ((m : ℚ) * 2 ^ k) = m * 2 ^ k := by
  have key : ∀ n : ℤ, 0 < n → n < 2 ^ 53 → roundFloat64 ((n : ℚ) * 2 ^ k) = n * 2 ^ k := by
    intro n hn hn'
    have hpos : (0 : ℚ) < 2 ^ k := zpow_pos (by norm_num) _
    have hq : (0 : ℚ) < n * 2 ^ k := mul_pos (by exact_mod_cast hn) hpos
    have hlt : (n : ℚ) * 2 ^ k < 2 ^ (53 + k) := by
      rw [zpow_add₀ (by norm_num : (2 : ℚ) ≠ 0)]
      have : (n : ℚ) < 2 ^ (53 : ℤ) := by exact_mod_cast hn'
      exact mul_lt_mul_of_pos_right this hpos
    have he : ulpExp ((n : ℚ) * 2 ^ k) ≤ k := by
      have := ulpExp_le_of_lt hq hlt
      omega
    exact le_antisymm (roundFloat64_le_grid hq he le_rfl) (le_roundFloat64_grid hq he le_rfl)
  rcases lt_trichotomy m 0 with h | h | h
  · have h1 : 0 < -m := by omega
    have h2 : -m < 2 ^ 53 := by
      have := abs_lt.mp hm
      omega
    have := key (-m) h1 h2
    have e : ((m : ℚ) * 2 ^ k) = -(((-m : ℤ) : ℚ) * 2 ^ k) := by push_cast; ring
    rw [e, roundFloat64_neg, this]
  · subst h; simp [roundFloat64]
  · exact key m h (abs_lt.mp hm).2

theorem roundFloat64_intCast {n : ℤ} (hn : |n| < 2 ^ 53) : roundFloat64 (n : ℚ) = n := by
  have := roundFloat64_exact (m := n) (k := 0) hn
  simpa using this

theorem float64ToInt64_neg (q : ℚ) : float64ToInt64 (-q) = -float64ToInt64 q := by
  unfold float64ToInt64
  rcases lt_trichotomy q 0 with h | h | h
  · rw [if_pos (by linarith), if_neg (by linarith), Int.floor_neg]
  · subst h; simp
  · rw [if_neg (by linarith), if_pos (by linarith), Int.ceil_neg]

theorem float64ToInt64_intCast (n : Int) : float64ToInt64 (n : ℚ) = n := by
  unfold float64ToInt64
  split_ifs <;> simp

theorem neg_tmod (a b : Int) : Int.tmod (-a) b = -Int.tmod a b := by
  rw [Int.tmod_def, Int.tmod_def, Int.neg_tdiv]
  ring

theorem Duration.Seconds_neg (d : Int) : Duration.Seconds (-d) = -Duration.Seconds d := by
  unfold Duration.Seconds float64Add float64Div float64OfInt
  simp only [Int.neg_tdiv, neg_tmod, Int.cast_neg, roundFloat64_neg, neg_div, ← neg_add]

/-- The float64 sum `float64(s) + float64(n)/1e9` truncates back to `s` below `2 ^ 24` seconds. -/
theorem seconds_core (s n : ℤ) (hs0 : 0 ≤ s) (hs1 : s < 16777216) (hn0 : 0 ≤ n)
    (hn1 : n < 1000000000) :
    float64ToInt64 (roundFloat64 (roundFloat64 (s : ℚ) + roundFloat64 (roundFloat64 (n : ℚ) / 1000000000)))
      = s := by
  rw [roundFloat64_intCast (n := s) (by rw [abs_of_nonneg hs0]; omega),
    roundFloat64_intCast (n := n) (by rw [abs_of_nonneg hn0]; omega)]
  -- the fractional part rounds into [0, 1 - 17 / 2 ^ 34]
  have hfrac : 0 ≤ roundFloat64 ((n : ℚ) / 1000000000) ∧
      roundFloat64 ((n : ℚ) / 1000000000) ≤ 17179869167 * 2 ^ (-34 : ℤ) := by
    rcases eq_or_lt_of_le hn0 with hz | hp
    · rw [← hz]
      simp only [Int.cast_zero, zero_div, roundFloat64, if_true, le_refl, true_and]
      positivity
    · have hq : (0 : ℚ) < (n : ℚ) / 1000000000 := by
        have : (0 : ℚ) < n := by exact_mod_cast hp
        positivity
      have hle : (n : ℚ) ≤ 999999999 := by exact_mod_cast (by omega : n ≤ 999999999)
      have hlt1 : (n : ℚ) / 1000000000 < 2 ^ (0 : ℤ) := by
        rw [zpow_zero, div_lt_one (by norm_num)]
        linarith
      have he := ulpExp_le_of_lt hq hlt1
      constructor
      · have := le_roundFloat64_grid (N := 0) (k := 0) hq (by omega) (by simpa using hq.le)
        simpa using this
      · have := roundFloat64_le_grid (N := 17179869167) (k := -34) hq (by omega) (by
          rw [div_le_iff₀ (by norm_num)]
          have : ((17179869167 : ℤ) : ℚ) * 2 ^ (-34 : ℤ) * 1000000000 ≥ 999999999 := by norm_num
          linarith)
        simpa using this
  generalize roundFloat64 ((n : ℚ) / 1000000000) = f at hfrac
  obtain ⟨hf0, hf1⟩ := hfrac
  have hsq0 : (0 : ℚ) ≤ s := by exact_mod_cast hs0
  have hx0 : (0 : ℚ) ≤ (s : ℚ) + f := by linarith
  rcases eq_or_lt_of_le hx0 with hz | hp
  · rw [← hz]
    have : (s : ℚ) = 0 := by linarith
    have : s = 0 := by exact_mod_cast this
    simp [roundFloat64, float64ToInt64, this]
  · have hsq : (s : ℚ) ≤ 16777215 := by exact_mod_cast (by omega : s ≤ 16777215)
    have hc : (17179869167 : ℚ) * 2 ^ (-34 : ℤ) < 1 := by norm_num
    have hlt : (s : ℚ) + f < 2 ^ (24 : ℤ) := by norm_num; linarith
    have he := ulpExp_le_of_lt hp hlt
    have hlo := le_roundFloat64_grid (N := s) (k := 0) hp (by omega) (by simpa using hf0)
    have hulp : (2 : ℚ) ^ ulpExp ((s : ℚ) + f) ≤ 2 ^ (-29 : ℤ) :=
      zpow_le_zpow_right₀ (by norm_num) (by omega)
    have h34 : (2 : ℚ) ^ (-34 : ℤ) = 1 / 17179869184 := by norm_num
    have h29 : (2 : ℚ) ^ (-29 : ℤ) = 1 / 536870912 := by norm_num
    rw [h34] at hf1
    rw [h29] at hulp
    have hhi := roundFloat64_lt_grid (N := s + 1) (k := 0) hp (by omega) (by
      push_cast
      rw [zpow_zero, mul_one]
      linarith)
    simp only [zpow_zero, mul_one] at hlo hhi
    unfold float64ToInt64
    have hnn : (0 : ℚ) ≤ roundFloat64 ((s : ℚ) + f) := by linarith
    rw [if_pos hnn, Int.floor_eq_iff]
    exact ⟨hlo, by push_cast at hhi; exact hhi⟩

theorem Duration.Seconds_trunc_nonneg {d : Int} (h0 : 0 ≤ d) (h : d < 16777216000000000) :
    float64ToInt64 (Duration.Seconds d) = Int.tdiv d 1000000000 := by
  have hdiv : Int.tdiv d 1000000000 = d / 1000000000 := Int.tdiv_eq_ediv h0 (by norm_num)
  have hmod : Int.tmod d 1000000000 = d % 1000000000 := Int.tmod_eq_emod h0 (by norm_num)
  unfold Duration.Seconds float64Add float64Div float64OfInt
  simp only [hdiv, hmod]
  exact seconds_core (d / 1000000000) (d % 1000000000) (by omega) (by omega) (by omega) (by omega)

theorem Duration.Seconds_trunc {d : Int} (h0 : -16777216000000000 < d) (h : d < 16777216000000000) :
    float64ToInt64 (Duration.Seconds d) = Int.tdiv d 1000000000 := by
  rcases le_or_lt 0 d with hd | hd
  · exact Duration.Seconds_trunc_nonneg hd h
  · have := Duration.Seconds_trunc_nonneg (d := -d) (by omega) (by omega)
    rw [Duration.Seconds_neg, float64ToInt64_neg, Int.neg_tdiv] at this
    omega

theorem Duration.Seconds_whole {s : Int} (h : |s| < 2 ^ 53) :
    Duration.Seconds (s * 1000000000) = s := by
  unfold Duration.Seconds float64Add float64Div float64OfInt
  have h1 : Int.tdiv (s * 1000000000) 1000000000 = s := Int.mul_tdiv_cancel _ (by norm_num)
  have h2 : Int.tmod (s * 1000000000) 1000000000 = 0 := Int.mul_tmod_left _ _
  simp only [h1, h2]
  rw [roundFloat64_intCast h]
  have hz : roundFloat64 (((0 : ℤ) : ℚ)) = 0 := by simp [roundFloat64]
  rw [hz]
  have hz2 : roundFloat64 ((0 : ℚ) / 1000000000) = 0 := by simp [roundFloat64]
  rw [hz2, add_zero]
  exact roundFloat64_intCast h

/-- The fractional part `float64(n) / 1e9` of `Seconds` lies in `[0, 1]`. -/
theorem frac_bounds (n : ℤ) (hn0 : 0 ≤ n) (hn1 : n < 1000000000) :
    0 ≤ roundFloat64 (roundFloat64 (n : ℚ) / 1000000000)
    ∧ roundFloat64 (roundFloat64 (n : ℚ) / 1000000000) ≤ 1 := by
  rw [roundFloat64_intCast (n := n) (by rw [abs_of_nonneg hn0]; omega)]
  rcases eq_or_lt_of_le hn0 with hz | hp
  · rw [← hz]
    simp [roundFloat64]
  · have hq : (0 : ℚ) < (n : ℚ) / 1000000000 := by
      have : (0 : ℚ) < n := by exact_mod_cast hp
      positivity
    have hle : (n : ℚ) ≤ 999999999 := by exact_mod_cast (by omega : n ≤ 999999999)
    have hlt1 : (n : ℚ) / 1000000000 < 2 ^ (0 : ℤ) := by
      rw [zpow_zero, div_lt_one (by norm_num)]
      linarith
    have he := ulpExp_le_of_lt hq hlt1
    constructor
    · have := le_roundFloat64_grid (N := 0) (k := 0) hq (by omega) (by simpa using hq.le)
      simpa using this
    · have := roundFloat64_le_grid (N := 1) (k := 0) hq (by omega) (by simpa using hlt1.le)
      simpa using this

/-- For a non-negative duration the whole seconds the code computes are the exact whole
seconds or one more. -/
theorem seconds_bounds {d : Int} (h0 : 0 ≤ d) (h1 : d ≤ 9223372036854775807) :
    Int.tdiv d 1000000000 ≤ float64ToInt64 (Duration.Seconds d)
    ∧ float64ToInt64 (Duration.Seconds d) ≤ Int.tdiv d 1000000000 + 1 := by
  have hdiv : Int.tdiv d 1000000000 = d / 1000000000 := Int.tdiv_eq_ediv h0 (by norm_num)
  have hmod : Int.tmod d 1000000000 = d % 1000000000 := Int.tmod_eq_emod h0 (by norm_num)
  unfold Duration.Seconds float64Add float64Div float64OfInt
  simp only [hdiv, hmod]
  have hs0 : 0 ≤ d / 1000000000 := by omega
  have hs1 : d / 1000000000 < 9223372037 := by omega
  obtain ⟨hf0, hf1⟩ := frac_bounds (d % 1000000000) (by omega) (by omega)
  generalize roundFloat64 (roundFloat64 ((d % 1000000000 : ℤ) : ℚ) / 1000000000) = f at hf0 hf1
  generalize d / 1000000000 = s at hs0 hs1
  rw [roundFloat64_intCast (n := s) (by rw [abs_of_nonneg hs0]; omega)]
  have hsq0 : (0 : ℚ) ≤ s := by exact_mod_cast hs0
  have hsq1 : (s : ℚ) ≤ 9223372036 := by exact_mod_cast (by omega : s ≤ 9223372036)
  have hx0 : (0 : ℚ) ≤ (s : ℚ) + f := by linarith
  rcases eq_or_lt_of_le hx0 with hz | hp
  · rw [← hz]
    have : (s : ℚ) = 0 := by linarith
    have : s = 0 := by exact_mod_cast this
    simp [roundFloat64, float64ToInt64, this]
  · have hlt : (s : ℚ) + f < 2 ^ (53 : ℤ) := by norm_num; linarith
    have he := ulpExp_le_of_lt hp hlt
    have hlo := le_roundFloat64_grid (N := s) (k := 0) hp (by omega) (by simpa using hf0)
    have hhi := roundFloat64_le_grid (N := s + 1) (k := 0) hp (by omega) (by
      push_cast
      rw [zpow_zero, mul_one]
      linarith)
    simp only [zpow_zero, mul_one] at hlo hhi
    unfold float64ToInt64
    have hnn : (0 : ℚ) ≤ roundFloat64 ((s : ℚ) + f) := by linarith
    rw [if_pos hnn]
    constructor
    · exact Int.le_floor.mpr hlo
    · have : (⌊roundFloat64 ((s : ℚ) + f)⌋ : ℚ) ≤ ((s + 1 : ℤ) : ℚ) :=
        (Int.floor_le _).trans hhi
      exact_mod_cast this

/-- At `2 ^ 24` seconds the float64 sum rounds a fraction of `0.999999999` up to the next
whole second. -/
theorem seconds_rounds_up : float64ToInt64 (Duration.Seconds 16777216999999999) = 16777217 := by
  have hdiv : Int.tdiv 16777216999999999 1000000000 = 16777216 := by decide
  have hmod : Int.tmod 16777216999999999 1000000000 = 999999999 := by decide
  unfold Duration.Seconds float64Add float64Div float64OfInt
  simp only [hdiv, hmod]
  rw [roundFloat64_intCast (n := 16777216) (by norm_num),
    roundFloat64_intCast (n := 999999999) (by norm_num)]
  have hq : (0 : ℚ) < ((999999999 : ℤ) : ℚ) / 1000000000 := by norm_num
  have he := ulpExp_le_of_lt (j := 0) hq (by norm_num)
  have hf0 := le_roundFloat64_grid (N := 17179869166) (k := -34) hq (by omega) (by norm_num)
  have hf1 := roundFloat64_le_grid (N := 1) (k := 0) hq (by omega) (by norm_num)
  generalize roundFloat64 (((999999999 : ℤ) : ℚ) / 1000000000) = f at hf0 hf1
  have h34 : (2 : ℚ) ^ (-34 : ℤ) = 1 / 17179869184 := by norm_num
  rw [h34] at hf0
  simp only [zpow_zero, mul_one, Int.cast_one] at hf1
  push_cast at hf0 ⊢
  have hp : (0 : ℚ) < 16777216 + f := by linarith
  have he1 := ulpExp_le_of_lt (j := 25) hp (by norm_num; linarith)
  have he2 := ulpExp_ge_of_le (j := 24) hp (by norm_num; linarith)
  have hulp : (2 : ℚ) ^ ulpExp (16777216 + f) = 1 / 268435456 := by
    have : ulpExp (16777216 + f) = -28 := by omega
    rw [this]
    norm_num
  have hhi := roundFloat64_le_grid (N := 16777217) (k := 0) hp (by omega) (by
    norm_num; linarith)
  have hlo := le_roundFloat64_half (N := 16777217) (k := 0) hp (by omega) (by
    rw [hulp]; norm_num; linarith)
  simp only [zpow_zero, mul_one] at hlo hhi
  have : roundFloat64 (16777216 + f) = 16777217 := le_antisymm (by exact_mod_cast hhi) (by exact_mod_cast hlo)
  rw [this]
  unfold float64ToInt64
  norm_num

/-! ## Lemmas on time differences and `CalculateDuration` -/

theorem wrapInt64_of_range {x : Int} (h0 : minInt64 ≤ x) (h1 : x ≤ maxInt64) : wrapInt64 x = x := by
  unfold minInt64 at h0
  unfold maxInt64 at h1
  unfold wrapInt64
  omega

theorem Time.Sub_of_range {t u : Time} (h0 : minInt64 ≤ t.ns - u.ns) (h1 : t.ns - u.ns ≤ maxInt64) :
    t.Sub u = t.ns - u.ns := by
  unfold Time.Sub
  rw [if_neg (not_lt.mpr h1), if_neg (not_lt.mpr h0)]

/-- Whole seconds of a time difference below `2 ^ 24` seconds, as the code computes them. -/
theorem seconds_sub_trunc {t u : Time} (h0 : -16777216000000000 < t.ns - u.ns)
    (h1 : t.ns - u.ns < 16777216000000000) :
    float64ToInt64 (Duration.Seconds (t.Sub u)) = Int.tdiv (t.ns - u.ns) 1000000000 := by
  rw [Time.Sub_of_range (by unfold minInt64; omega) (by unfold maxInt64; omega)]
  exact Duration.Seconds_trunc h0 h1

/-- Whole seconds of a whole-second time difference that fits a `Duration`. -/
theorem seconds_sub_whole (a b : Int) (h0 : -9223372036 ≤ a - b) (h1 : a - b ≤ 9223372036) :
    float64ToInt64 (Duration.Seconds ((⟨a * 1000000000⟩ : Time).Sub ⟨b * 1000000000⟩)) = a - b := by
  rw [Time.Sub_of_range (by unfold minInt64; simp only; omega) (by unfold maxInt64; simp only; omega)]
  have : a * 1000000000 - b * 1000000000 = (a - b) * 1000000000 := by ring
  simp only [this]
  rw [Duration.Seconds_whole (by rw [abs_lt]; constructor <;> omega), float64ToInt64_intCast]

theorem Time.isZero_iff (t : Time) : t.IsZero = true ↔ t = Time.zero := by
  cases t with
  | mk n => simp [Time.IsZero, Time.zero]

theorem time_ne_zero {n : Int} (h : n ≠ 0) : (⟨n⟩ : Time) ≠ Time.zero := by
  intro hc
  exact h (congrArg Time.ns hc)

/-- The instant `CalculateDuration` measures up to, spelled with propositions. -/
theorem basis_eq (e : TimeEntry) (now : Time) :
    (if e.EndTime.IsZero then (if e.Status == StatusPaused then e.PausedAt else now)
      else e.EndTime)
    = if e.EndTime ≠ Time.zero then e.EndTime
      else if e.Status = StatusPaused then e.PausedAt else now := by
  by_cases hz : e.EndTime = Time.zero
  · have h1 : e.EndTime.IsZero = true := (Time.isZero_iff _).mpr hz
    rw [if_pos h1, if_neg (not_not.mpr hz)]
    by_cases hp : e.Status = StatusPaused
    · rw [if_pos hp, if_pos (by simpa using hp)]
    · rw [if_neg hp, if_neg (by simpa using hp)]
  · have h1 : ¬ (e.EndTime.IsZero = true) := fun h => hz ((Time.isZero_iff _).mp h)
    rw [if_neg h1, if_pos hz]

/-- Below `2 ^ 24` seconds `CalculateDuration` is the truncated difference minus the
accumulated pause, wrapped into `int64`. -/
theorem calculateDuration_trunc (e : TimeEntry) (now basis : Time)
    (hbasis : basis = if e.EndTime ≠ Time.zero then e.EndTime
      else if e.Status = StatusPaused then e.PausedAt else now)
    (hlo : -16777216000000000 < basis.ns - e.StartTime.ns)
    (hhi : basis.ns - e.StartTime.ns < 16777216000000000) :
    e.CalculateDuration now
      = wrapInt64 (Int.tdiv (basis.ns - e.StartTime.ns) 1000000000 - e.TotalPaused) := by
  unfold TimeEntry.CalculateDuration
  simp only [basis_eq, ← hbasis]
  rw [seconds_sub_trunc hlo hhi]

/-- Duration of an entry whose end time is set. -/
theorem calculateDuration_ended (e : TimeEntry) (now : Time) (h : e.EndTime ≠ Time.zero) :
    e.CalculateDuration now
      = wrapInt64 (float64ToInt64 (Duration.Seconds (e.EndTime.Sub e.StartTime)) - e.TotalPaused) := by
  unfold TimeEntry.CalculateDuration
  simp only [basis_eq]
  rw [if_pos h]

/-! ## Lemmas on the repository and the service -/

theorem active_ne_completed : StatusActive ≠ StatusCompleted := by decide

theorem paused_ne_completed : StatusPaused ≠ StatusCompleted := by decide

theorem active_ne_paused : StatusActive ≠ StatusPaused := by decide

theorem getActive_eq_find (r : Repository) (u : Nat) :
    GetActiveTimeEntry r u
      = r.entries.find? (fun e => e.UserID == u && e.Status != StatusCompleted) := by
  unfold GetActiveTimeEntry Repository.GetTimeEntriesByUserID
  rw [List.find?_filter]
  congr 1
  funext a
  by_cases h1 : a.UserID = u <;> by_cases h2 : a.Status = StatusCompleted <;> simp [h1, h2]

/-- A search that succeeds also succeeds, with the same result, for a stronger test
the result passes. -/
theorem find_refine {α : Type} (P Q : α → Bool) (l : List α) (e : α)
    (h : l.find? P = some e) (hQ : Q e = true) (hPQ : ∀ x, Q x = true → P x = true) :
    l.find? Q = some e := by
  induction l with
  | nil => simp at h
  | cons x xs ih =>
    rw [List.find?_cons] at h ⊢
    by_cases hx : P x = true
    · rw [hx] at h
      simp only [Option.some.injEq] at h
      subst h
      rw [hQ]
    · have hx2 : P x = false := by simpa using hx
      rw [hx2] at h
      have hq : Q x = false := by
        by_contra hc
        exact hx (hPQ x (by simpa using hc))
      rw [hq]
      exact ih h

/-- Replacing found rows by a row that passes the test keeps the search result on it. -/
theorem find_map_update {α : Type} (P : α → Bool) (f : α → α) (l : List α) (e t : α)
    (h : l.find? P = some e) (hfe : f e = t) (hPt : P t = true)
    (hf : ∀ x, f x = x ∨ f x = t) : (l.map f).find? P = some t := by
  induction l with
  | nil => simp at h
  | cons x xs ih =>
    rw [List.map_cons, List.find?_cons]
    rw [List.find?_cons] at h
    by_cases hx : P x = true
    · rw [hx] at h
      simp only [Option.some.injEq] at h
      subst h
      rw [hfe, hPt]
    · have hx2 : P x = false := by simpa using hx
      rw [hx2] at h
      rcases hf x with h1 | h1
      · rw [h1, hx2]
        exact ih h
      · rw [h1, hPt]

theorem mem_of_getActive {r : Repository} {u : Nat} {e : TimeEntry}
    (h : GetActiveTimeEntry r u = some e) :
    e ∈ r.entries ∧ e.UserID = u ∧ e.Status ≠ StatusCompleted := by
  rw [getActive_eq_find] at h
  have h1 := List.mem_of_find?_eq_some h
  have h2 := List.find?_some h
  simp only [Bool.and_eq_true, beq_iff_eq, bne_iff_ne, ne_eq] at h2
  exact ⟨h1, h2.1, h2.2⟩

theorem updateTimeEntry_ok (r : Repository) (e t : TimeEntry) (hmem : e ∈ r.entries)
    (hid : t.ID = e.ID) :
    r.UpdateTimeEntry t = .ok (r.withEntry t) := by
  unfold Repository.UpdateTimeEntry
  have : r.entries.any (fun x => x.ID == t.ID) = true := by
    rw [List.any_eq_true]
    exact ⟨e, hmem, by simp [hid]⟩
  rw [if_pos this]

theorem updateTimeEntry_cases (r : Repository) (t : TimeEntry) :
    (∃ err, r.UpdateTimeEntry t = .error err) ∨ r.UpdateTimeEntry t = .ok (r.withEntry t) := by
  unfold Repository.UpdateTimeEntry
  split_ifs
  · right; rfl
  · left; exact ⟨_, rfl⟩

theorem mem_withEntry (r : Repository) (e t : TimeEntry) (hmem : e ∈ r.entries)
    (hid : t.ID = e.ID) : t ∈ (r.withEntry t).entries := by
  unfold Repository.withEntry
  simp only [List.mem_map]
  exact ⟨e, hmem, by simp [hid]⟩

/-- After an update that keeps the open entry open, it is still the user's open entry. -/
theorem getActive_update (r : Repository) (u : Nat) (e t : TimeEntry)
    (h : GetActiveTimeEntry r u = some e) (hid : t.ID = e.ID) (hu : t.UserID = u)
    (hs : t.Status ≠ StatusCompleted) :
    GetActiveTimeEntry (r.withEntry t) u = some t := by
  rw [getActive_eq_find] at h ⊢
  unfold Repository.withEntry
  apply find_map_update _ _ _ e t h
  · simp [hid]
  · simp [hu, hs]
  · intro x
    by_cases hx : x.ID = t.ID
    · right; simp [hx]
    · left; simp [hx]

theorem getActive_append (r : Repository) (u n : Nat) (e : TimeEntry)
    (h : GetActiveTimeEntry r u = none) (hu : e.UserID = u) (hs : e.Status ≠ StatusCompleted) :
    GetActiveTimeEntry { r with entries := r.entries ++ [e], nextID := n } u = some e := by
  rw [getActive_eq_find] at h ⊢
  have hopen : (e.UserID == u && e.Status != StatusCompleted) = true := by simp [hu, hs]
  simp only [List.find?_append, h, Option.none_or, List.find?_cons, hopen]

theorem getByID_update (r : Repository) (e t : TimeEntry) (hmem : e ∈ r.entries)
    (hid : t.ID = e.ID) :
    (r.withEntry t).GetTimeEntryByID e.ID = .ok t := by
  unfold Repository.GetTimeEntryByID Repository.withEntry
  have hcomp : ((fun x : TimeEntry => x.ID == e.ID) ∘ fun x => if x.ID == t.ID then t else x)
      = fun x : TimeEntry => x.ID == e.ID := by
    funext x
    by_cases hx : x.ID = e.ID
    · simp [hx, hid]
    · simp [hx, hid]
  simp only [List.find?_map, hcomp]
  cases hf : r.entries.find? (fun x => x.ID == e.ID) with
  | none =>
    rw [List.find?_eq_none] at hf
    exact absurd (by simp) (hf e hmem)
  | some x0 =>
    have := List.find?_some hf
    simp only [beq_iff_eq] at this
    simp [this, hid]

theorem startWork_ok (r : Repository) (now : Time) (u : Nat)
    (h : GetActiveTimeEntry r u = none) :
    StartWork r now u
      = (.ok { TimeEntry.zero with
            ID := r.nextID, UserID := u, StartTime := now, Status := StatusActive },
         { r with
            entries := r.entries ++ [{ TimeEntry.zero with
              ID := r.nextID, UserID := u, StartTime := now, Status := StatusActive }],
            nextID := r.nextID + 1 }) := by
  unfold StartWork
  rw [h]
  rfl

theorem startWork_fail (r : Repository) (now : Time) (u : Nat) (e : TimeEntry)
    (h : GetActiveTimeEntry r u = some e) :
    StartWork r now u = (.error .ErrActiveEntryExists, r) := by
  unfold StartWork
  rw [h]

theorem pauseWork_ok (r : Repository) (now : Time) (u : Nat) (e : TimeEntry)
    (h : GetActiveTimeEntry r u = some e) (hs : e.Status = StatusActive) :
    PauseWork r now u
      = (.ok { e with PausedAt := now, Status := StatusPaused },
         r.withEntry { e with PausedAt := now, Status := StatusPaused }) := by
  have hm := mem_of_getActive h
  have hfind : (r.GetTimeEntriesByUserID u).find? (fun x => x.Status == StatusActive) = some e := by
    have h0 := h
    unfold GetActiveTimeEntry at h0
    apply find_refine (fun x => x.Status != StatusCompleted) _ _ e h0
    · simp [hs]
    · intro x hx
      simp only [beq_iff_eq] at hx
      rw [hx]
      decide
  unfold PauseWork
  rw [hfind]
  have hnp : (e.Status == StatusPaused) = false := by rw [hs]; decide
  have hupd := updateTimeEntry_ok r e { e with PausedAt := now, Status := StatusPaused } hm.1 rfl
  simp only [hnp, Bool.false_eq_true, ↓reduceIte, hupd]

theorem resumeWork_ok (r : Repository) (now : Time) (u : Nat) (e : TimeEntry)
    (h : GetActiveTimeEntry r u = some e) (hs : e.Status = StatusPaused) :
    ResumeWork r now u
      = (.ok { e with
            TotalPaused := wrapInt64 (e.TotalPaused
              + float64ToInt64 (Duration.Seconds (now.Sub e.PausedAt))),
            ResumedAt := now, PausedAt := Time.zero, Status := StatusActive },
         r.withEntry { e with
            TotalPaused := wrapInt64 (e.TotalPaused
              + float64ToInt64 (Duration.Seconds (now.Sub e.PausedAt))),
            ResumedAt := now, PausedAt := Time.zero, Status := StatusActive }) := by
  have hm := mem_of_getActive h
  have hfind : (r.GetTimeEntriesByUserID u).find? (fun x => x.Status == StatusPaused) = some e := by
    have h0 := h
    unfold GetActiveTimeEntry at h0
    apply find_refine (fun x => x.Status != StatusCompleted) _ _ e h0
    · simp [hs]
    · intro x hx
      simp only [beq_iff_eq] at hx
      rw [hx]
      decide
  unfold ResumeWork
  rw [hfind]
  have hnp : (e.Status != StatusPaused) = false := by rw [hs]; decide
  have hupd := updateTimeEntry_ok r e { e with
    TotalPaused := wrapInt64 (e.TotalPaused
      + float64ToInt64 (Duration.Seconds (now.Sub e.PausedAt))),
    ResumedAt := now, PausedAt := Time.zero, Status := StatusActive } hm.1 rfl
  simp only [hnp, Bool.false_eq_true, ↓reduceIte, hupd]

theorem stopWork_active_ok (r : Repository) (now : Time) (u : Nat) (e : TimeEntry)
    (h : GetActiveTimeEntry r u = some e) (hs : e.Status ≠ StatusPaused) :
    StopWork r now u
      = (.ok { e with EndTime := now, Status := StatusCompleted },
         r.withEntry { e with EndTime := now, Status := StatusCompleted }) := by
  have hm := mem_of_getActive h
  unfold StopWork
  unfold GetActiveTimeEntry at h
  rw [h]
  have hnp : (e.Status == StatusPaused) = false := by simpa using hs
  have hupd := updateTimeEntry_ok r e { e with EndTime := now, Status := StatusCompleted } hm.1 rfl
  simp only [hnp, Bool.false_eq_true, ↓reduceIte, hupd]

theorem stopWork_paused_ok (r : Repository) (now : Time) (u : Nat) (e : TimeEntry)
    (h : GetActiveTimeEntry r u = some e) (hs : e.Status = StatusPaused) :
    StopWork r now u
      = (.ok { e with
            TotalPaused := wrapInt64 (e.TotalPaused
              + float64ToInt64 (Duration.Seconds (now.Sub e.PausedAt))),
            PausedAt := Time.zero, EndTime := now, Status := StatusCompleted },
         r.withEntry { e with
            TotalPaused := wrapInt64 (e.TotalPaused
              + float64ToInt64 (Duration.Seconds (now.Sub e.PausedAt))),
            PausedAt := Time.zero, EndTime := now, Status := StatusCompleted }) := by
  have hm := mem_of_getActive h
  unfold StopWork
  unfold GetActiveTimeEntry at h
  rw [h]
  have hnp : (e.Status == StatusPaused) = true := by simpa using hs
  have hupd := updateTimeEntry_ok r e { e with
    TotalPaused := wrapInt64 (e.TotalPaused
      + float64ToInt64 (Duration.Seconds (now.Sub e.PausedAt))),
    PausedAt := Time.zero, EndTime := now, Status := StatusCompleted } hm.1 rfl
  simp only [hnp, Bool.false_eq_true, ↓reduceIte, hupd]

/-- Shape of the entry after `StartWork`, `PauseWork`, `ResumeWork`, `StopWork` in a row. -/
theorem round_trip_shape (r : Repository) (u : Nat) (t0 t1 t2 t3 : Time)
    (h : GetActiveTimeEntry r u = none) :
    ∃ e0 r0 e1 r1 e2 r2 e3 r3,
      StartWork r t0 u = (.ok e0, r0) ∧ PauseWork r0 t1 u = (.ok e1, r1)
      ∧ ResumeWork r1 t2 u = (.ok e2, r2) ∧ StopWork r2 t3 u = (.ok e3, r3)
      ∧ r3.GetTimeEntryByID e3.ID = .ok e3
      ∧ e3 = { TimeEntry.zero with
          ID := r.nextID, UserID := u, StartTime := t0, EndTime := t3, ResumedAt := t2,
          TotalPaused := wrapInt64 (0 + float64ToInt64 (Duration.Seconds (t2.Sub t1))),
          Status := StatusCompleted } := by
  have hst := startWork_ok r t0 u h
  have ha0 := getActive_append r u (r.nextID + 1)
    { TimeEntry.zero with ID := r.nextID, UserID := u, StartTime := t0, Status := StatusActive }
    h rfl active_ne_completed
  have hpa := pauseWork_ok _ t1 u _ ha0 rfl
  have ha1 := getActive_update _ u _
    { ({ TimeEntry.zero with
          ID := r.nextID, UserID := u, StartTime := t0, Status := StatusActive } : TimeEntry) with
      PausedAt := t1, Status := StatusPaused }
    ha0 rfl rfl paused_ne_completed
  have hre := resumeWork_ok _ t2 u _ ha1 rfl
  have ha2 := getActive_update _ u _
    { TimeEntry.zero with
      ID := r.nextID, UserID := u, StartTime := t0, ResumedAt := t2,
      TotalPaused := wrapInt64 (0 + float64ToInt64 (Duration.Seconds (t2.Sub t1))),
      Status := StatusActive }
    ha1 rfl rfl active_ne_completed
  have hsp := stopWork_active_ok _ t3 u _ ha2 active_ne_paused
  have hby := getByID_update _ _
    { TimeEntry.zero with
      ID := r.nextID, UserID := u, StartTime := t0, EndTime := t3, ResumedAt := t2,
      TotalPaused := wrapInt64 (0 + float64ToInt64 (Duration.Seconds (t2.Sub t1))),
      Status := StatusCompleted }
    (mem_of_getActive ha2).1 rfl
  exact ⟨_, _, _, _, _, _, _, _, hst, hpa, hre, hsp, hby, rfl⟩

/-- While the user's entry stays open every further `StartWork` is refused and the
repository stays as it is. -/
theorem execAll_start_refused (r : Repository) (u : Nat) (e : TimeEntry)
    (h : GetActiveTimeEntry r u = some e) (nows : List Time) :
    execAll r (nows.map (Call.startWork u))
      = (nows.map (fun _ => some Error.ErrActiveEntryExists), r) := by
  induction nows with
  | nil => rfl
  | cons now rest ih =>
    simp only [List.map_cons, execAll, Call.exec, startWork_fail r now u e h, errorOf, ih]

/-! ## The single-open-entry invariant -/

theorem openCount_eq (r : Repository) (u : Nat) :
    r.openCount u
      = (r.entries.filter (fun e => e.UserID == u && e.Status != StatusCompleted)).length := by
  unfold Repository.openCount Repository.GetTimeEntriesByUserID
  rw [List.filter_filter]
  congr 2
  funext a
  exact Bool.and_comm _ _

theorem filter_map_length_le {α : Type} (p : α → Bool) (f : α → α) (l : List α)
    (h : ∀ x ∈ l, p (f x) = true → p x = true) :
    ((l.map f).filter p).length ≤ (l.filter p).length := by
  induction l with
  | nil => simp
  | cons x xs ih =>
    have ih2 := ih (fun y hy => h y (List.mem_cons_of_mem _ hy))
    have hx := h x (List.mem_cons_self _ _)
    rw [List.map_cons, List.filter_cons, List.filter_cons]
    by_cases hp : p (f x) = true
    · rw [if_pos hp, if_pos (hx hp)]
      simp only [List.length_cons]
      omega
    · rw [if_neg hp]
      split_ifs
      · simp only [List.length_cons]
        omega
      · exact ih2

theorem withEntry_ids (r : Repository) (t : TimeEntry) :
    (r.withEntry t).entries.map TimeEntry.ID = r.entries.map TimeEntry.ID := by
  unfold Repository.withEntry
  simp only [List.map_map]
  apply List.map_congr_left
  intro x _
  by_cases hx : x.ID = t.ID
  · simp [hx]
  · simp [hx]

theorem wf_withEntry (r : Repository) (t : TimeEntry) (h : r.WF) : (r.withEntry t).WF := by
  obtain ⟨h1, h2⟩ := h
  constructor
  · intro x hx
    have hmem : x.ID ∈ (r.withEntry t).entries.map TimeEntry.ID := List.mem_map_of_mem _ hx
    rw [withEntry_ids] at hmem
    obtain ⟨y, hy, hyx⟩ := List.mem_map.mp hmem
    have := h1 y hy
    have hn : (r.withEntry t).nextID = r.nextID := rfl
    rw [hn]
    omega
  · rw [withEntry_ids]
    exact h2

/-- Replacing the row of a stored entry by an entry of the same user that is open only
if the stored one was does not raise any user's number of open entries. -/
theorem openCount_withEntry_le (r : Repository) (e t : TimeEntry) (h : r.WF)
    (hmem : e ∈ r.entries) (hid : t.ID = e.ID) (hu : t.UserID = e.UserID)
    (hs : t.Status ≠ StatusCompleted → e.Status ≠ StatusCompleted) (v : Nat) :
    (r.withEntry t).openCount v ≤ r.openCount v := by
  rw [openCount_eq, openCount_eq]
  unfold Repository.withEntry
  apply filter_map_length_le
  intro x hx hp
  by_cases hxt : x.ID = t.ID
  · have hxe : x = e := List.inj_on_of_nodup_map h.2 hx hmem (by rw [hxt, hid])
    simp only [hxt, beq_self_eq_true, if_true, Bool.and_eq_true, beq_iff_eq, bne_iff_ne,
      ne_eq] at hp
    rw [hxe]
    simp only [Bool.and_eq_true, beq_iff_eq, bne_iff_ne, ne_eq]
    exact ⟨by rw [← hu]; exact hp.1, hs hp.2⟩
  · have : (x.ID == t.ID) = false := by simpa using hxt
    simpa [this] using hp

theorem wf_create (r : Repository) (e : TimeEntry) (h : r.WF) : (r.CreateTimeEntry e).2.WF := by
  obtain ⟨h1, h2⟩ := h
  unfold Repository.CreateTimeEntry
  constructor
  · intro x hx
    simp only [List.mem_append, List.mem_singleton] at hx
    rcases hx with hx | hx
    · have := h1 x hx
      simp only
      omega
    · rw [hx]
      simp
  · simp only [List.map_append, List.map_cons, List.map_nil]
    rw [List.nodup_append]
    refine ⟨h2, List.nodup_singleton _, ?_⟩
    intro a ha hb
    simp only [List.mem_singleton] at hb
    obtain ⟨y, hy, hya⟩ := List.mem_map.mp ha
    have := h1 y hy
    omega

theorem openCount_create (r : Repository) (e : TimeEntry) (u : Nat)
    (hnone : GetActiveTimeEntry r u = none) (hu : e.UserID = u) (v : Nat)
    (hv : r.openCount v ≤ 1) : (r.CreateTimeEntry e).2.openCount v ≤ 1 := by
  rw [openCount_eq] at hv ⊢
  unfold Repository.CreateTimeEntry
  simp only [List.filter_append, List.length_append]
  by_cases huv : u = v
  · subst huv
    rw [getActive_eq_find, List.find?_eq_none] at hnone
    have hnil : r.entries.filter (fun e => e.UserID == u && e.Status != StatusCompleted) = [] := by
      rw [List.filter_eq_nil_iff]
      exact hnone
    rw [hnil]
    simp only [List.length_nil, zero_add]
    exact List.length_filter_le _ _
  · have : ([{ e with ID := r.nextID }].filter
        (fun e => e.UserID == v && e.Status != StatusCompleted)) = [] := by
      rw [List.filter_eq_nil_iff]
      intro x hx
      simp only [List.mem_singleton] at hx
      rw [hx]
      simp only [Bool.and_eq_true, beq_iff_eq, not_and]
      intro hc
      exact absurd (hu.symm.trans hc) huv
    rw [this]
    simpa using hv

theorem wf_delete (r : Repository) (id : Nat) (h : r.WF) : (r.DeleteTimeEntry id).WF := by
  obtain ⟨h1, h2⟩ := h
  unfold Repository.DeleteTimeEntry
  constructor
  · intro x hx
    exact h1 x (List.mem_of_mem_filter hx)
  · exact List.Nodup.sublist (List.Sublist.map _ (List.filter_sublist _)) h2

theorem openCount_delete_le (r : Repository) (id : Nat) (v : Nat) :
    (r.DeleteTimeEntry id).openCount v ≤ r.openCount v := by
  rw [openCount_eq, openCount_eq]
  unfold Repository.DeleteTimeEntry
  exact List.Sublist.length_le (List.Sublist.filter _ (List.filter_sublist _))

theorem startWork_store (r : Repository) (now : Time) (u : Nat) :
    (StartWork r now u).2 = r
    ∨ (GetActiveTimeEntry r u = none
        ∧ ∃ e, e.UserID = u ∧ (StartWork r now u).2 = (r.CreateTimeEntry e).2) := by
  unfold StartWork
  cases h : GetActiveTimeEntry r u with
  | some a => left; rfl
  | none => right; exact ⟨rfl, _, rfl, rfl⟩

theorem startWorkWithCategory_store (r : Repository) (now : Time) (u c : Nat) :
    (StartWorkWithCategory r now u c).2 = r
    ∨ (GetActiveTimeEntry r u = none
        ∧ ∃ e, e.UserID = u ∧ (StartWorkWithCategory r now u c).2 = (r.CreateTimeEntry e).2) := by
  unfold StartWorkWithCategory
  cases h : GetActiveTimeEntry r u with
  | some a => left; rfl
  | none =>
    simp only
    cases hc : r.GetCategoryByID c with
    | error err => left; rfl
    | ok cat =>
      simp only
      split_ifs
      · left; rfl
      · right
        refine ⟨trivial, { TimeEntry.zero with
          UserID := u, StartTime := now, Status := StatusActive, CategoryID := some c }, rfl, ?_⟩
        split <;> rfl

theorem pauseWork_store (r : Repository) (now : Time) (u : Nat) :
    (PauseWork r now u).2 = r
    ∨ ∃ e t, e ∈ r.entries ∧ t.ID = e.ID ∧ t.UserID = e.UserID
        ∧ (t.Status ≠ StatusCompleted → e.Status ≠ StatusCompleted)
        ∧ (PauseWork r now u).2 = r.withEntry t := by
  unfold PauseWork
  cases hf : (r.GetTimeEntriesByUserID u).find? (fun e => e.Status == StatusActive) with
  | none => left; rfl
  | some a =>
    simp only
    split_ifs
    · left; rfl
    · rcases updateTimeEntry_cases r { a with PausedAt := now, Status := StatusPaused } with
        ⟨err, he⟩ | hok
      · left; rw [he]
      · right
        rw [hok]
        have hmem : a ∈ r.entries :=
          List.mem_of_mem_filter (List.mem_of_find?_eq_some hf)
        have hst := List.find?_some hf
        simp only [beq_iff_eq] at hst
        exact ⟨a, { a with PausedAt := now, Status := StatusPaused }, hmem, rfl, rfl,
          fun _ => by rw [hst]; exact active_ne_completed, rfl⟩

theorem resumeWork_store (r : Repository) (now : Time) (u : Nat) :
    (ResumeWork r now u).2 = r
    ∨ ∃ e t, e ∈ r.entries ∧ t.ID = e.ID ∧ t.UserID = e.UserID
        ∧ (t.Status ≠ StatusCompleted → e.Status ≠ StatusCompleted)
        ∧ (ResumeWork r now u).2 = r.withEntry t := by
  unfold ResumeWork
  cases hf : (r.GetTimeEntriesByUserID u).find? (fun e => e.Status == StatusPaused) with
  | none => left; rfl
  | some a =>
    simp only
    split_ifs
    · left; rfl
    · rcases updateTimeEntry_cases r { a with
          TotalPaused := wrapInt64 (a.TotalPaused
            + float64ToInt64 (Duration.Seconds (now.Sub a.PausedAt))),
          ResumedAt := now, PausedAt := Time.zero, Status := StatusActive } with
        ⟨err, he⟩ | hok
      · left; rw [he]
      · right
        rw [hok]
        have hmem : a ∈ r.entries :=
          List.mem_of_mem_filter (List.mem_of_find?_eq_some hf)
        have hst := List.find?_some hf
        simp only [beq_iff_eq] at hst
        exact ⟨a, { a with
            TotalPaused := wrapInt64 (a.TotalPaused
              + float64ToInt64 (Duration.Seconds (now.Sub a.PausedAt))),
            ResumedAt := now, PausedAt := Time.zero, Status := StatusActive }, hmem, rfl, rfl,
          fun _ => by rw [hst]; exact paused_ne_completed, rfl⟩

theorem stopWork_store (r : Repository) (now : Time) (u : Nat) :
    (StopWork r now u).2 = r
    ∨ ∃ e t, e ∈ r.entries ∧ t.ID = e.ID ∧ t.UserID = e.UserID
        ∧ (t.Status ≠ StatusCompleted → e.Status ≠ StatusCompleted)
        ∧ (StopWork r now u).2 = r.withEntry t := by
  unfold StopWork
  cases hf : (r.GetTimeEntriesByUserID u).find? (fun e => e.Status != StatusCompleted) with
  | none => left; rfl
  | some a =>
    simp only
    have hmem : a ∈ r.entries :=
      List.mem_of_mem_filter (List.mem_of_find?_eq_some hf)
    split_ifs
    · rcases updateTimeEntry_cases r { a with
          TotalPaused := wrapInt64 (a.TotalPaused
            + float64ToInt64 (Duration.Seconds (now.Sub a.PausedAt))),
          PausedAt := Time.zero, EndTime := now, Status := StatusCompleted } with
        ⟨err, he⟩ | hok
      · left; rw [he]
      · right
        rw [hok]
        exact ⟨a, { a with
            TotalPaused := wrapInt64 (a.TotalPaused
              + float64ToInt64 (Duration.Seconds (now.Sub a.PausedAt))),
            PausedAt := Time.zero, EndTime := now, Status := StatusCompleted }, hmem, rfl, rfl,
          fun hc => absurd rfl hc, rfl⟩
    · rcases updateTimeEntry_cases r { a with EndTime := now, Status := StatusCompleted } with
        ⟨err, he⟩ | hok
      · left; rw [he]
      · right
        rw [hok]
        exact ⟨a, { a with EndTime := now, Status := StatusCompleted }, hmem, rfl, rfl,
          fun hc => absurd rfl hc, rfl⟩

theorem deleteTimeEntry_store (r : Repository) (id u : Nat) :
    (DeleteTimeEntry r id u).2 = r ∨ (DeleteTimeEntry r id u).2 = r.DeleteTimeEntry id := by
  unfold DeleteTimeEntry
  cases r.GetTimeEntryByID id with
  | error err => left; rfl
  | ok e =>
    simp only
    split_ifs
    · left; rfl
    · right; rfl

/-- Every call keeps the repository well formed and every user at one open entry at most. -/
theorem exec_invariant (r : Repository) (c : Call) (hwf : r.WF)
    (hc : ∀ v, r.openCount v ≤ 1) :
    (c.exec r).2.WF ∧ ∀ v, (c.exec r).2.openCount v ≤ 1 := by
  have hcreate : ∀ r1 : Repository, (r1 = r ∨ (∃ u, GetActiveTimeEntry r u = none
      ∧ ∃ e, e.UserID = u ∧ r1 = (r.CreateTimeEntry e).2)) →
      r1.WF ∧ ∀ v, r1.openCount v ≤ 1 := by
    intro r1 h
    rcases h with h | ⟨u, hn, e, hu, h⟩
    · rw [h]; exact ⟨hwf, hc⟩
    · rw [h]; exact ⟨wf_create r e hwf, fun v => openCount_create r e u hn hu v (hc v)⟩
  have hupdate : ∀ r1 : Repository, (r1 = r ∨ ∃ e t, e ∈ r.entries ∧ t.ID = e.ID
      ∧ t.UserID = e.UserID ∧ (t.Status ≠ StatusCompleted → e.Status ≠ StatusCompleted)
      ∧ r1 = r.withEntry t) → r1.WF ∧ ∀ v, r1.openCount v ≤ 1 := by
    intro r1 h
    rcases h with h | ⟨e, t, hmem, hid, hu, hs, h⟩
    · rw [h]; exact ⟨hwf, hc⟩
    · rw [h]
      exact ⟨wf_withEntry r t hwf,
        fun v => (openCount_withEntry_le r e t hwf hmem hid hu hs v).trans (hc v)⟩
  cases c with
  | startWork u now =>
    apply hcreate
    rcases startWork_store r now u with h | ⟨hn, h⟩
    · left; exact h
    · right; exact ⟨u, hn, h⟩
  | startWorkWithCategory u cat now =>
    apply hcreate
    rcases startWorkWithCategory_store r now u cat with h | ⟨hn, h⟩
    · left; exact h
    · right; exact ⟨u, hn, h⟩
  | pauseWork u now => exact hupdate _ (pauseWork_store r now u)
  | resumeWork u now => exact hupdate _ (resumeWork_store r now u)
  | stopWork u now => exact hupdate _ (stopWork_store r now u)
  | deleteTimeEntry id u =>
    rcases deleteTimeEntry_store r id u with h | h
    · show (DeleteTimeEntry r id u).2.WF ∧ ∀ v, (DeleteTimeEntry r id u).2.openCount v ≤ 1
      rw [h]; exact ⟨hwf, hc⟩
    · show (DeleteTimeEntry r id u).2.WF ∧ ∀ v, (DeleteTimeEntry r id u).2.openCount v ≤ 1
      rw [h]
      exact ⟨wf_delete r id hwf, fun v => (openCount_delete_le r id v).trans (hc v)⟩

theorem execAll_invariant (calls : List Call) (r : Repository) (hwf : r.WF)
    (hc : ∀ v, r.openCount v ≤ 1) :
    (execAll r calls).2.WF ∧ ∀ v, (execAll r calls).2.openCount v ≤ 1 := by
  induction calls generalizing r with
  | nil => exact ⟨hwf, hc⟩
  | cons c cs ih =>
    have h := exec_invariant r c hwf hc
    exact ih (c.exec r).2 h.1 h.2

/-! ## Lemmas on refused calls -/

theorem pauseWork_none (r : Repository) (now : Time) (u : Nat)
    (h : (r.GetTimeEntriesByUserID u).find? (fun e => e.Status == StatusActive) = none) :
    PauseWork r now u = (.error .ErrNoActiveEntry, r) := by
  unfold PauseWork
  rw [h]

theorem resumeWork_none (r : Repository) (now : Time) (u : Nat)
    (h : (r.GetTimeEntriesByUserID u).find? (fun e => e.Status == StatusPaused) = none) :
    ResumeWork r now u = (.error .ErrNoActiveEntry, r) := by
  unfold ResumeWork
  rw [h]

theorem stopWork_none (r : Repository) (now : Time) (u : Nat)
    (h : GetActiveTimeEntry r u = none) :
    StopWork r now u = (.error .ErrNoActiveEntry, r) := by
  unfold StopWork
  unfold GetActiveTimeEntry at h
  rw [h]

/-- A search fails when a weaker test already fails on every element. -/
theorem find_none_of_weaker {α : Type} (P Q : α → Bool) (l : List α)
    (h : l.find? P = none) (hQP : ∀ x, Q x = true → P x = true) : l.find? Q = none := by
  rw [List.find?_eq_none] at h ⊢
  intro x hx hq
  exact h x hx (hQP x hq)

/-- When the user's entries hold a single open entry, every other entry of the user is
completed. -/
theorem only_open (r : Repository) (u : Nat) (e : TimeEntry)
    (h : GetActiveTimeEntry r u = some e) (hc : r.openCount u ≤ 1) :
    ∀ x ∈ r.entries, x.UserID = u → x.Status ≠ StatusCompleted → x = e := by
  intro x hx hxu hxs
  rw [openCount_eq] at hc
  have hm := mem_of_getActive h
  have he : e ∈ r.entries.filter (fun e => e.UserID == u && e.Status != StatusCompleted) := by
    rw [List.mem_filter]
    exact ⟨hm.1, by simp [hm.2.1, hm.2.2]⟩
  have hxm : x ∈ r.entries.filter (fun e => e.UserID == u && e.Status != StatusCompleted) := by
    rw [List.mem_filter]
    exact ⟨hx, by simp [hxu, hxs]⟩
  generalize r.entries.filter (fun e => e.UserID == u && e.Status != StatusCompleted) = l
    at hc he hxm
  match l, hc, he, hxm with
  | [a], _, he, hxm =>
    rw [List.mem_singleton] at he hxm
    rw [he, hxm]
  | a :: b :: rest, hc, _, _ => simp at hc

/-- With a single open entry that is paused, the user has no active entry to pause. -/
theorem pauseWork_paused (r : Repository) (now : Time) (u : Nat) (e : TimeEntry)
    (h : GetActiveTimeEntry r u = some e) (hs : e.Status = StatusPaused)
    (hc : r.openCount u ≤ 1) : PauseWork r now u = (.error .ErrNoActiveEntry, r) := by
  apply pauseWork_none
  rw [List.find?_eq_none]
  intro x hx hxa
  simp only [beq_iff_eq] at hxa
  unfold Repository.GetTimeEntriesByUserID at hx
  rw [List.mem_filter] at hx
  have hxu : x.UserID = u := by simpa using hx.2
  have := only_open r u e h hc x hx.1 hxu (by rw [hxa]; exact active_ne_completed)
  rw [this, hs] at hxa
  exact absurd hxa.symm active_ne_paused

/-- With a single open entry that is active, the user has no paused entry to resume. -/
theorem resumeWork_active (r : Repository) (now : Time) (u : Nat) (e : TimeEntry)
    (h : GetActiveTimeEntry r u = some e) (hs : e.Status = StatusActive)
    (hc : r.openCount u ≤ 1) : ResumeWork r now u = (.error .ErrNoActiveEntry, r) := by
  apply resumeWork_none
  rw [List.find?_eq_none]
  intro x hx hxa
  simp only [beq_iff_eq] at hxa
  unfold Repository.GetTimeEntriesByUserID at hx
  rw [List.mem_filter] at hx
  have hxu : x.UserID = u := by simpa using hx.2
  have := only_open r u e h hc x hx.1 hxu (by rw [hxa]; exact paused_ne_completed)
  rw [this, hs] at hxa
  exact absurd hxa active_ne_paused

/-- A successful `StopWork` completed the user's open entry and stored it. -/
theorem stopWork_ok_inv (r r1 : Repository) (now : Time) (u : Nat) (c : TimeEntry)
    (h : StopWork r now u = (.ok c, r1)) :
    ∃ e, GetActiveTimeEntry r u = some e ∧ c.ID = e.ID ∧ c.UserID = e.UserID
      ∧ c.Status = StatusCompleted ∧ r1 = r.withEntry c := by
  cases hg : GetActiveTimeEntry r u with
  | none =>
    rw [stopWork_none r now u hg] at h
    simp at h
  | some e =>
    refine ⟨e, rfl, ?_⟩
    by_cases hs : e.Status = StatusPaused
    · rw [stopWork_paused_ok r now u e hg hs] at h
      simp only [Prod.mk.injEq, Except.ok.injEq] at h
      obtain ⟨h1, h2⟩ := h
      subst h1
      exact ⟨rfl, rfl, rfl, h2.symm⟩
    · rw [stopWork_active_ok r now u e hg hs] at h
      simp only [Prod.mk.injEq, Except.ok.injEq] at h
      obtain ⟨h1, h2⟩ := h
      subst h1
      exact ⟨rfl, rfl, rfl, h2.symm⟩

/-- After the single open entry of a user is replaced by a completed entry, the user has
no open entry. -/
theorem getActive_none_after_complete (r : Repository) (u : Nat) (e c : TimeEntry)
    (h : GetActiveTimeEntry r u = some e) (hc : r.openCount u ≤ 1) (hid : c.ID = e.ID)
    (hs : c.Status = StatusCompleted) : GetActiveTimeEntry (r.withEntry c) u = none := by
  rw [getActive_eq_find, List.find?_eq_none]
  unfold Repository.withEntry
  intro y hy
  simp only [List.mem_map] at hy
  obtain ⟨x, hx, hxy⟩ := hy
  by_cases hxc : x.ID = c.ID
  · simp only [hxc, beq_self_eq_true, if_true] at hxy
    rw [← hxy]
    simp [hs]
  · have hf : (x.ID == c.ID) = false := by simpa using hxc
    simp only [hf, Bool.false_eq_true, if_false] at hxy
    rw [← hxy]
    intro hopen
    simp only [Bool.and_eq_true, beq_iff_eq, bne_iff_ne, ne_eq] at hopen
    have := only_open r u e h hc x hx hopen.1 hopen.2
    rw [this, hid] at hxc
    exact hxc rfl

/-! ## Lemmas on the accumulated pause -/

theorem tdiv_le_neg_one {d : Int} (h : d ≤ -1000000000) : Int.tdiv d 1000000000 ≤ -1 := by
  have h1 : d = -(-d) := by ring
  rw [h1, Int.neg_tdiv, Int.tdiv_eq_ediv (by omega) (by norm_num)]
  omega

/-- The whole seconds the code adds for a pause that ended at or after its start are
not negative. -/
theorem pause_seconds_nonneg (now p : Time) (h : p.ns ≤ now.ns) :
    0 ≤ float64ToInt64 (Duration.Seconds (now.Sub p)) := by
  have hd : (0 : Int) ≤ now.Sub p ∧ now.Sub p ≤ 9223372036854775807 := by
    have key : ∀ d : Int, d = now.Sub p → 0 ≤ d ∧ d ≤ 9223372036854775807 := by
      intro d hd
      unfold Time.Sub maxInt64 minInt64 at hd
      split_ifs at hd with h1 h2
      · rw [hd]; decide
      · omega
      · constructor <;> omega
    exact key _ rfl
  have hb := seconds_bounds hd.1 hd.2
  have h0 : 0 ≤ Int.tdiv (now.Sub p) 1000000000 := Int.tdiv_nonneg hd.1 (by norm_num)
  omega

/-- Where `PauseWork`, `ResumeWork` or `StopWork` write, they replace a stored entry by
one with the same identifier whose `TotalPaused` is the old one, or, for a paused entry,
the old one plus the whole seconds since `PausedAt`. -/
theorem pauseWork_store_paused (r : Repository) (now : Time) (u : Nat) :
    (PauseWork r now u).2 = r
    ∨ ∃ e t, e ∈ r.entries ∧ t.ID = e.ID
        ∧ (t.TotalPaused = e.TotalPaused
          ∨ (e.Status = StatusPaused ∧ t.TotalPaused = wrapInt64 (e.TotalPaused
              + float64ToInt64 (Duration.Seconds (now.Sub e.PausedAt)))))
        ∧ (PauseWork r now u).2 = r.withEntry t := by
  unfold PauseWork
  cases hf : (r.GetTimeEntriesByUserID u).find? (fun e => e.Status == StatusActive) with
  | none => left; rfl
  | some a =>
    simp only
    split_ifs
    · left; rfl
    · rcases updateTimeEntry_cases r { a with PausedAt := now, Status := StatusPaused } with
        ⟨err, he⟩ | hok
      · left; rw [he]
      · right
        rw [hok]
        exact ⟨a, { a with PausedAt := now, Status := StatusPaused },
          List.mem_of_mem_filter (List.mem_of_find?_eq_some hf), rfl, Or.inl rfl, rfl⟩

theorem resumeWork_store_paused (r : Repository) (now : Time) (u : Nat) :
    (ResumeWork r now u).2 = r
    ∨ ∃ e t, e ∈ r.entries ∧ t.ID = e.ID
        ∧ (t.TotalPaused = e.TotalPaused
          ∨ (e.Status = StatusPaused ∧ t.TotalPaused = wrapInt64 (e.TotalPaused
              + float64ToInt64 (Duration.Seconds (now.Sub e.PausedAt)))))
        ∧ (ResumeWork r now u).2 = r.withEntry t := by
  unfold ResumeWork
  cases hf : (r.GetTimeEntriesByUserID u).find? (fun e => e.Status == StatusPaused) with
  | none => left; rfl
  | some a =>
    simp only
    split_ifs
    · left; rfl
    · rcases updateTimeEntry_cases r { a with
          TotalPaused := wrapInt64 (a.TotalPaused
            + float64ToInt64 (Duration.Seconds (now.Sub a.PausedAt))),
          ResumedAt := now, PausedAt := Time.zero, Status := StatusActive } with
        ⟨err, he⟩ | hok
      · left; rw [he]
      · right
        rw [hok]
        have hst := List.find?_some hf
        simp only [beq_iff_eq] at hst
        exact ⟨a, { a with
            TotalPaused := wrapInt64 (a.TotalPaused
              + float64ToInt64 (Duration.Seconds (now.Sub a.PausedAt))),
            ResumedAt := now, PausedAt := Time.zero, Status := StatusActive },
          List.mem_of_mem_filter (List.mem_of_find?_eq_some hf), rfl, Or.inr ⟨hst, rfl⟩, rfl⟩

theorem stopWork_store_paused (r : Repository) (now : Time) (u : Nat) :
    (StopWork r now u).2 = r
    ∨ ∃ e t, e ∈ r.entries ∧ t.ID = e.ID
        ∧ (t.TotalPaused = e.TotalPaused
          ∨ (e.Status = StatusPaused ∧ t.TotalPaused = wrapInt64 (e.TotalPaused
              + float64ToInt64 (Duration.Seconds (now.Sub e.PausedAt)))))
        ∧ (StopWork r now u).2 = r.withEntry t := by
  unfold StopWork
  cases hf : (r.GetTimeEntriesByUserID u).find? (fun e => e.Status != StatusCompleted) with
  | none => left; rfl
  | some a =>
    simp only
    have hmem : a ∈ r.entries :=
      List.mem_of_mem_filter (List.mem_of_find?_eq_some hf)
    split_ifs with hp
    · rcases updateTimeEntry_cases r { a with
          TotalPaused := wrapInt64 (a.TotalPaused
            + float64ToInt64 (Duration.Seconds (now.Sub a.PausedAt))),
          PausedAt := Time.zero, EndTime := now, Status := StatusCompleted } with
        ⟨err, he⟩ | hok
      · left; rw [he]
      · right
        rw [hok]
        exact ⟨a, { a with
            TotalPaused := wrapInt64 (a.TotalPaused
              + float64ToInt64 (Duration.Seconds (now.Sub a.PausedAt))),
            PausedAt := Time.zero, EndTime := now, Status := StatusCompleted }, hmem, rfl,
          Or.inr ⟨by simpa using hp, rfl⟩, rfl⟩
    · rcases updateTimeEntry_cases r { a with EndTime := now, Status := StatusCompleted } with
        ⟨err, he⟩ | hok
      · left; rw [he]
      · right
        rw [hok]
        exact ⟨a, { a with EndTime := now, Status := StatusCompleted }, hmem, rfl,
          Or.inl rfl, rfl⟩

/-- An entry stored under an identifier that a well-formed repository holds is that
stored entry, or its replacement. -/
theorem mem_withEntry_cases (r : Repository) (t x y : TimeEntry) (hwf : r.WF)
    (hx : x ∈ r.entries) (hy : y ∈ (r.withEntry t).entries) (hid : y.ID = x.ID) :
    (x.ID = t.ID ∧ y = t) ∨ (x.ID ≠ t.ID ∧ y = x) := by
  unfold Repository.withEntry at hy
  simp only [List.mem_map] at hy
  obtain ⟨z, hz, hzy⟩ := hy
  have hzid : z.ID = x.ID := by
    by_cases hzt : z.ID = t.ID
    · simp only [hzt, beq_self_eq_true, if_true] at hzy
      rw [hzt, hzy, hid]
    · have hf : (z.ID == t.ID) = false := by simpa using hzt
      simp only [hf, Bool.false_eq_true, if_false] at hzy
      rw [hzy, hid]
  have hzx : z = x := List.inj_on_of_nodup_map hwf.2 hz hx hzid
  subst hzx
  by_cases hzt : z.ID = t.ID
  · left
    simp only [hzt, beq_self_eq_true, if_true] at hzy
    exact ⟨hzt, hzy.symm⟩
  · right
    have hf : (z.ID == t.ID) = false := by simpa using hzt
    simp only [hf, Bool.false_eq_true, if_false] at hzy
    exact ⟨hzt, hzy.symm⟩

theorem exists_withEntry (r : Repository) (t x : TimeEntry) (hx : x ∈ r.entries) :
    ∃ y ∈ (r.withEntry t).entries, y.ID = x.ID := by
  unfold Repository.withEntry
  refine ⟨if x.ID == t.ID then t else x, List.mem_map_of_mem _ hx, ?_⟩
  by_cases hxt : x.ID = t.ID
  · simp [hxt]
  · simp [hxt]

/-! ## Lemmas on the statistics loop -/

theorem mapGet_mapAdd (m : List (String × Int)) (k j : String) (d : Int) :
    mapGet (mapAdd m k d) j = if j = k then wrapInt64 (mapGet m k + d) else mapGet m j := by
  induction m with
  | nil =>
    by_cases h : j = k
    · subst h
      simp [mapAdd, mapGet]
    · have h2 : ¬ k = j := fun hc => h hc.symm
      simp [mapAdd, mapGet, h, h2]
  | cons p rest ih =>
    unfold mapAdd
    by_cases hp : p.1 = k
    · simp only [hp, beq_self_eq_true, if_true]
      by_cases h : j = k
      · subst h
        simp [mapGet, hp]
      · have h2 : ¬ k = j := fun hc => h hc.symm
        simp [mapGet, hp, h, h2]
    · have hf : (p.1 == k) = false := by simpa using hp
      simp only [hf, Bool.false_eq_true, if_false]
      by_cases hj : p.1 = j
      · have hjk : ¬ j = k := fun hc => hp (hj.trans hc)
        simp [mapGet, hj, hjk]
      · have hfj : (p.1 == j) = false := by simpa using hj
        have e1 : mapGet (p :: mapAdd rest k d) j = mapGet (mapAdd rest k d) j := by
          simp [mapGet, hfj]
        have e2 : mapGet (p :: rest) j = mapGet rest j := by
          simp [mapGet, hfj]
        have e3 : mapGet (p :: rest) k = mapGet rest k := by
          simp [mapGet, hf]
        rw [e1, e2, e3, ih]

theorem keys_mapAdd (m : List (String × Int)) (k : String) (d : Int) :
    (mapAdd m k d).map Prod.fst
      = if k ∈ m.map Prod.fst then m.map Prod.fst else m.map Prod.fst ++ [k] := by
  induction m with
  | nil => simp [mapAdd]
  | cons p rest ih =>
    unfold mapAdd
    by_cases hp : p.1 = k
    · simp [hp]
    · have hf : (p.1 == k) = false := by simpa using hp
      have hne : ¬ k = p.1 := fun hc => hp hc.symm
      simp only [hf, Bool.false_eq_true, if_false, List.map_cons, ih, List.mem_cons, hne,
        false_or]
      split_ifs <;> simp

theorem mem_keys_mapAdd (m : List (String × Int)) (k j : String) (d : Int) :
    j ∈ (mapAdd m k d).map Prod.fst ↔ j ∈ m.map Prod.fst ∨ j = k := by
  rw [keys_mapAdd]
  split_ifs with h
  · constructor
    · intro hj; exact Or.inl hj
    · rintro (hj | hj)
      · exact hj
      · rw [hj]; exact h
  · simp

theorem nodup_keys_mapAdd (m : List (String × Int)) (k : String) (d : Int)
    (h : (m.map Prod.fst).Nodup) : ((mapAdd m k d).map Prod.fst).Nodup := by
  rw [keys_mapAdd]
  split_ifs with hk
  · exact h
  · rw [List.nodup_append]
    refine ⟨h, List.nodup_singleton _, ?_⟩
    intro a ha hb
    rw [List.mem_singleton] at hb
    exact hk (hb ▸ ha)

theorem mapAdd_ne_nil (m : List (String × Int)) (k : String) (d : Int) : mapAdd m k d ≠ [] := by
  cases m with
  | nil => simp [mapAdd]
  | cons p rest =>
    unfold mapAdd
    split_ifs <;> simp

/-- The loop body in terms of the day and the duration it computes. -/
theorem addEntry_eq (f : Time → String) (s : TimeStats) (e : TimeEntry) (now : Time) :
    Statistics.addEntry f s e now
      = { s with
          TotalDuration := wrapInt64 (s.TotalDuration + e.CalculateDuration now),
          DailyStats := mapAdd s.DailyStats (f e.StartTime) (e.CalculateDuration now),
          LongestSession :=
            if e.CalculateDuration now > s.LongestSession then e.CalculateDuration now
            else s.LongestSession,
          LongestSessionDate :=
            if e.CalculateDuration now > s.LongestSession then f e.StartTime
            else s.LongestSessionDate } := by
  unfold Statistics.addEntry
  simp only
  split_ifs <;> rfl

/-- The loop passes `Entries`, `ActiveEntry` and `AverageDailyHours` through. -/
theorem processEntries_frame (f : Time → String) (c : Nat → Time) (es : List TimeEntry)
    (i : Nat) (s : TimeStats) :
    (Statistics.processEntries f c es i s).Entries = s.Entries
    ∧ (Statistics.processEntries f c es i s).ActiveEntry = s.ActiveEntry
    ∧ (Statistics.processEntries f c es i s).AverageDailyHours = s.AverageDailyHours := by
  induction es generalizing i s with
  | nil => exact ⟨rfl, rfl, rfl⟩
  | cons e rest ih =>
    unfold Statistics.processEntries
    have := ih (i + 1) (Statistics.addEntry f s e (c i))
    rw [addEntry_eq] at this ⊢
    exact this

/-- The loop's writes to `TotalDuration`, `DailyStats`, `LongestSession` and
`LongestSessionDate` do not depend on the other fields. -/
theorem processEntries_congr (f : Time → String) (c : Nat → Time) (es : List TimeEntry)
    (i : Nat) (s t : TimeStats) (h1 : s.TotalDuration = t.TotalDuration)
    (h2 : s.DailyStats = t.DailyStats) (h3 : s.LongestSession = t.LongestSession)
    (h4 : s.LongestSessionDate = t.LongestSessionDate) :
    (Statistics.processEntries f c es i s).TotalDuration
      = (Statistics.processEntries f c es i t).TotalDuration
    ∧ (Statistics.processEntries f c es i s).DailyStats
      = (Statistics.processEntries f c es i t).DailyStats
    ∧ (Statistics.processEntries f c es i s).LongestSession
      = (Statistics.processEntries f c es i t).LongestSession
    ∧ (Statistics.processEntries f c es i s).LongestSessionDate
      = (Statistics.processEntries f c es i t).LongestSessionDate := by
  induction es generalizing i s t with
  | nil => exact ⟨h1, h2, h3, h4⟩
  | cons e rest ih =>
    unfold Statistics.processEntries
    apply ih
    · rw [addEntry_eq, addEntry_eq, h1]
    · rw [addEntry_eq, addEntry_eq, h2]
    · rw [addEntry_eq, addEntry_eq, h3]
    · rw [addEntry_eq, addEntry_eq, h3, h4]

theorem observations_days (f : Time → String) (c : Nat → Time) (es : List TimeEntry) (i : Nat) :
    (Statistics.observations f c es i).map Prod.fst = es.map (fun e => f e.StartTime) := by
  induction es generalizing i with
  | nil => rfl
  | cons e rest ih =>
    unfold Statistics.observations
    simp only [List.map_cons, ih]

/-- Without `int64` overflow the loop adds the sum of the durations to `TotalDuration`. -/
theorem processEntries_total (f : Time → String) (c : Nat → Time) (es : List TimeEntry)
    (i : Nat) (s : TimeStats)
    (h : |s.TotalDuration| + ((Statistics.observations f c es i).map (fun p => |p.2|)).sum
      ≤ maxInt64) :
    (Statistics.processEntries f c es i s).TotalDuration
      = s.TotalDuration + ((Statistics.observations f c es i).map Prod.snd).sum := by
  induction es generalizing i s with
  | nil => simp [Statistics.processEntries, Statistics.observations]
  | cons e rest ih =>
    unfold Statistics.processEntries
    unfold Statistics.observations at h ⊢
    simp only [List.map_cons, List.sum_cons] at h ⊢
    have hnn : 0 ≤ ((Statistics.observations f c rest (i + 1)).map (fun p => |p.2|)).sum :=
      List.sum_nonneg (by
        intro x hx
        simp only [List.mem_map] at hx
        obtain ⟨p, _, hp⟩ := hx
        rw [← hp]
        exact abs_nonneg _)
    have habs := abs_add s.TotalDuration (e.CalculateDuration (c i))
    have hlo := neg_abs_le (s.TotalDuration + e.CalculateDuration (c i))
    have hhi := le_abs_self (s.TotalDuration + e.CalculateDuration (c i))
    have hw : wrapInt64 (s.TotalDuration + e.CalculateDuration (c i))
        = s.TotalDuration + e.CalculateDuration (c i) :=
      wrapInt64_of_range (by unfold maxInt64 at h; unfold minInt64; omega)
        (by unfold maxInt64 at h ⊢; omega)
    rw [ih (i + 1) (Statistics.addEntry f s e (c i)) (by
      rw [addEntry_eq]
      simp only [hw]
      omega)]
    rw [addEntry_eq]
    simp only [hw]
    ring

/-- Without `int64` overflow the loop adds to each day the sum of the durations of the
entries that start on it. -/
theorem processEntries_daily (f : Time → String) (c : Nat → Time) (es : List TimeEntry)
    (i : Nat) (s : TimeStats)
    (h : ∀ k, |mapGet s.DailyStats k|
      + ((Statistics.observations f c es i).map (fun p => |p.2|)).sum ≤ maxInt64) (k : String) :
    mapGet (Statistics.processEntries f c es i s).DailyStats k
      = mapGet s.DailyStats k
        + (((Statistics.observations f c es i).filter (fun p => p.1 == k)).map Prod.snd).sum := by
  induction es generalizing i s with
  | nil => simp [Statistics.processEntries, Statistics.observations]
  | cons e rest ih =>
    unfold Statistics.processEntries
    unfold Statistics.observations at h ⊢
    simp only [List.map_cons, List.sum_cons] at h
    have hnn : 0 ≤ ((Statistics.observations f c rest (i + 1)).map (fun p => |p.2|)).sum :=
      List.sum_nonneg (by
        intro x hx
        simp only [List.mem_map] at hx
        obtain ⟨p, _, hp⟩ := hx
        rw [← hp]
        exact abs_nonneg _)
    have hw : wrapInt64 (mapGet s.DailyStats (f e.StartTime) + e.CalculateDuration (c i))
        = mapGet s.DailyStats (f e.StartTime) + e.CalculateDuration (c i) := by
      have h1 := h (f e.StartTime)
      have habs := abs_add (mapGet s.DailyStats (f e.StartTime)) (e.CalculateDuration (c i))
      have hlo := neg_abs_le (mapGet s.DailyStats (f e.StartTime) + e.CalculateDuration (c i))
      have hhi := le_abs_self (mapGet s.DailyStats (f e.StartTime) + e.CalculateDuration (c i))
      exact wrapInt64_of_range (by unfold maxInt64 at h1; unfold minInt64; omega)
        (by unfold maxInt64 at h1 ⊢; omega)
    have hget : ∀ j, mapGet (Statistics.addEntry f s e (c i)).DailyStats j
        = if j = f e.StartTime
          then mapGet s.DailyStats (f e.StartTime) + e.CalculateDuration (c i)
          else mapGet s.DailyStats j := by
      intro j
      rw [addEntry_eq]
      simp only [mapGet_mapAdd, hw]
    rw [ih (i + 1) (Statistics.addEntry f s e (c i)) (by
      intro j
      rw [hget j]
      have h1 := h j
      have h2 := h (f e.StartTime)
      have habs := abs_add (mapGet s.DailyStats (f e.StartTime)) (e.CalculateDuration (c i))
      have hd := abs_nonneg (e.CalculateDuration (c i))
      split_ifs <;> omega)]
    rw [hget k, List.filter_cons]
    by_cases hk : k = f e.StartTime
    · have hb : (f e.StartTime == k) = true := by simp [hk]
      rw [if_pos hk, if_pos hb, List.map_cons, List.sum_cons, hk]
      ring
    · have hb : (f e.StartTime == k) = false := by
        simpa using fun hc => hk hc.symm
      simp only [hk, if_false, hb, Bool.false_eq_true]

/-- The keys of `DailyStats` after the loop are the keys before and the start days of the
entries; they stay distinct. -/
theorem processEntries_keys (f : Time → String) (c : Nat → Time) (es : List TimeEntry)
    (i : Nat) (s : TimeStats) :
    (∀ k, k ∈ (Statistics.processEntries f c es i s).DailyStats.map Prod.fst
      ↔ k ∈ s.DailyStats.map Prod.fst ∨ ∃ x ∈ es, f x.StartTime = k)
    ∧ ((s.DailyStats.map Prod.fst).Nodup →
      ((Statistics.processEntries f c es i s).DailyStats.map Prod.fst).Nodup) := by
  induction es generalizing i s with
  | nil => simp [Statistics.processEntries]
  | cons e rest ih =>
    unfold Statistics.processEntries
    obtain ⟨ih1, ih2⟩ := ih (i + 1) (Statistics.addEntry f s e (c i))
    have hds : (Statistics.addEntry f s e (c i)).DailyStats
        = mapAdd s.DailyStats (f e.StartTime) (e.CalculateDuration (c i)) := by
      rw [addEntry_eq]
    rw [hds] at ih1 ih2
    constructor
    · intro k
      rw [ih1 k, mem_keys_mapAdd]
      simp only [List.mem_cons, exists_eq_or_imp]
      constructor
      · rintro ((h | h) | h)
        · exact Or.inl h
        · exact Or.inr (Or.inl h.symm)
        · exact Or.inr (Or.inr h)
      · rintro (h | h | h)
        · exact Or.inl (Or.inl h)
        · exact Or.inl (Or.inr h.symm)
        · exact Or.inr h
    · intro hn
      exact ih2 (nodup_keys_mapAdd _ _ _ hn)

theorem processEntries_dailyStats_ne_nil (f : Time → String) (c : Nat → Time)
    (es : List TimeEntry) (i : Nat) (s : TimeStats) (h : es ≠ [] ∨ s.DailyStats ≠ []) :
    (Statistics.processEntries f c es i s).DailyStats ≠ [] := by
  induction es generalizing i s with
  | nil =>
    rcases h with h | h
    · exact absurd rfl h
    · exact h
  | cons e rest ih =>
    unfold Statistics.processEntries
    apply ih
    right
    rw [addEntry_eq]
    exact mapAdd_ne_nil _ _ _

/-- The loop keeps `LongestSession` when no duration exceeds it; otherwise it ends with
the first greatest duration and its day. -/
theorem processEntries_longest (f : Time → String) (c : Nat → Time) (es : List TimeEntry)
    (i : Nat) (s : TimeStats) :
    ((∀ p ∈ Statistics.observations f c es i, p.2 ≤ s.LongestSession) →
      (Statistics.processEntries f c es i s).LongestSession = s.LongestSession
      ∧ (Statistics.processEntries f c es i s).LongestSessionDate = s.LongestSessionDate)
    ∧ ((∃ p ∈ Statistics.observations f c es i, s.LongestSession < p.2) →
      ∃ pre p post, Statistics.observations f c es i = pre ++ p :: post
        ∧ (∀ q ∈ pre, q.2 < p.2) ∧ s.LongestSession < p.2 ∧ (∀ q ∈ post, q.2 ≤ p.2)
        ∧ (Statistics.processEntries f c es i s).LongestSession = p.2
        ∧ (Statistics.processEntries f c es i s).LongestSessionDate = p.1) := by
  induction es generalizing i s with
  | nil =>
    constructor
    · intro _; exact ⟨rfl, rfl⟩
    · rintro ⟨p, hp, _⟩
      simp [Statistics.observations] at hp
  | cons e rest ih =>
    unfold Statistics.processEntries Statistics.observations
    obtain ⟨ih1, ih2⟩ := ih (i + 1) (Statistics.addEntry f s e (c i))
    have hls : (Statistics.addEntry f s e (c i)).LongestSession
        = if e.CalculateDuration (c i) > s.LongestSession then e.CalculateDuration (c i)
          else s.LongestSession := by rw [addEntry_eq]
    have hld : (Statistics.addEntry f s e (c i)).LongestSessionDate
        = if e.CalculateDuration (c i) > s.LongestSession then f e.StartTime
          else s.LongestSessionDate := by rw [addEntry_eq]
    rw [hls, hld] at ih1
    rw [hls] at ih2
    constructor
    · intro hall
      have hd : ¬ e.CalculateDuration (c i) > s.LongestSession := by
        have := hall _ (List.mem_cons_self _ _)
        simp only at this
        omega
      rw [if_neg hd, if_neg hd] at ih1
      exact ih1 (fun p hp => hall p (List.mem_cons_of_mem _ hp))
    · rintro ⟨p, hp, hlt⟩
      by_cases hd : e.CalculateDuration (c i) > s.LongestSession
      · rw [if_pos hd, if_pos hd] at ih1
        rw [if_pos hd] at ih2
        by_cases hrest : ∀ q ∈ Statistics.observations f c rest (i + 1),
            q.2 ≤ e.CalculateDuration (c i)
        · obtain ⟨h1, h2⟩ := ih1 hrest
          exact ⟨[], (f e.StartTime, e.CalculateDuration (c i)), _, rfl,
            by simp, hd, hrest, h1, h2⟩
        · push_neg at hrest
          obtain ⟨pre, p2, post, hobs, hpre, hlt2, hpost, h1, h2⟩ := ih2 hrest
          refine ⟨(f e.StartTime, e.CalculateDuration (c i)) :: pre, p2, post, ?_, ?_, ?_,
            hpost, h1, h2⟩
          · rw [hobs]; rfl
          · intro q hq
            rcases List.mem_cons.mp hq with hq | hq
            · rw [hq]; exact hlt2
            · exact hpre q hq
          · omega
      · rw [if_neg hd] at ih2
        have hp2 : p ∈ Statistics.observations f c rest (i + 1) := by
          rcases List.mem_cons.mp hp with hp | hp
          · rw [hp] at hlt
            exact absurd hlt hd
          · exact hp
        obtain ⟨pre, p2, post, hobs, hpre, hlt2, hpost, h1, h2⟩ := ih2 ⟨p, hp2, hlt⟩
        refine ⟨(f e.StartTime, e.CalculateDuration (c i)) :: pre, p2, post, ?_, ?_, hlt2,
          hpost, h1, h2⟩
        · rw [hobs]; rfl
        · intro q hq
          rcases List.mem_cons.mp hq with hq | hq
          · rw [hq]
            simp only
            omega
          · exact hpre q hq

/-! ## Lemmas on the relative error of float64 rounding -/

theorem roundNearestEven_abs_sub (q : ℚ) : |(roundNearestEven q : ℚ) - q| ≤ 1 / 2 := by
  unfold roundNearestEven
  have hfl := Int.floor_le q
  have hlt := Int.lt_floor_add_one q
  rw [abs_le]
  simp only
  split_ifs with h1 h2 h3
  · constructor <;> linarith
  · push_cast
    constructor <;> linarith
  · constructor <;> linarith
  · push_cast
    constructor <;> linarith

theorem zpow_ulpExp_le {q : ℚ} (hq : 0 < q) : (2 : ℚ) ^ (ulpExp q + 52) ≤ q := by
  have h := Int.zpow_log_le_self (R := ℚ) (b := 2) (by norm_num) hq
  have he : ulpExp q + 52 = Int.log 2 q := by
    unfold ulpExp
    rw [abs_of_pos hq]
    ring
  rw [he]
  exact_mod_cast h

theorem roundFloat64_rel_err_pos {q : ℚ} (hq : 0 < q) : |roundFloat64 q - q| ≤ q / 2 ^ 53 := by
  rw [roundFloat64_pos hq]
  have hpos : (0 : ℚ) < 2 ^ ulpExp q := zpow_pos (by norm_num) _
  have h1 := roundNearestEven_abs_sub (q / 2 ^ ulpExp q)
  have h2 : ((roundNearestEven (q / 2 ^ ulpExp q) : ℤ) : ℚ) * 2 ^ ulpExp q - q
      = ((roundNearestEven (q / 2 ^ ulpExp q) : ℤ) - q / 2 ^ ulpExp q) * 2 ^ ulpExp q := by
    field_simp
  rw [h2, abs_mul, abs_of_pos hpos]
  have h3 := zpow_ulpExp_le hq
  rw [zpow_add₀ (by norm_num : (2 : ℚ) ≠ 0)] at h3
  have h4 : |((roundNearestEven (q / 2 ^ ulpExp q) : ℤ) : ℚ) - q / 2 ^ ulpExp q| * 2 ^ ulpExp q
      ≤ 1 / 2 * 2 ^ ulpExp q := mul_le_mul_of_nonneg_right h1 hpos.le
  have h5 : (2 : ℚ) ^ (52 : ℤ) = 4503599627370496 := by norm_num
  rw [h5] at h3
  rw [le_div_iff₀ (by norm_num)]
  norm_num
  linarith

/-- Rounding to `float64` changes a value by at most `2 ^ -53` of its magnitude. -/
theorem roundFloat64_rel_err (q : ℚ) : |roundFloat64 q - q| ≤ |q| / 2 ^ 53 := by
  rcases lt_trichotomy q 0 with h | h | h
  · have h1 := roundFloat64_rel_err_pos (q := -q) (by linarith)
    rw [roundFloat64_neg] at h1
    have h2 : -roundFloat64 q - -q = -(roundFloat64 q - q) := by ring
    rw [h2, abs_neg] at h1
    rw [abs_of_neg h]
    exact h1
  · subst h
    simp [roundFloat64]
  · rw [abs_of_pos h]
    exact roundFloat64_rel_err_pos h

/-- Every `float64` value is an integer multiple of a power of two. -/
theorem roundFloat64_dyadic (q : ℚ) : ∃ m k : ℤ, roundFloat64 q = m * 2 ^ k := by
  unfold roundFloat64
  split_ifs
  · exact ⟨0, 0, by simp⟩
  · exact ⟨-roundNearestEven (-q / 2 ^ ulpExp q), ulpExp q, by push_cast; ring⟩
  · exact ⟨roundNearestEven (q / 2 ^ ulpExp q), ulpExp q, rfl⟩

/-- Two roundings in a row, a division by `3600` and one by `n`, stay within `2 ^ -51`
of the exact quotient. -/
theorem average_rel_err (t : ℚ) (n : ℚ) (hn : 0 < n) :
    |roundFloat64 (roundFloat64 (t / 3600) / n) * 3600 * n - t| ≤ |t| / 2 ^ 51 := by
  have h1 := roundFloat64_rel_err (t / 3600)
  have h2 := roundFloat64_rel_err (roundFloat64 (t / 3600) / n)
  set x := roundFloat64 (t / 3600) with hx
  set a := roundFloat64 (x / n) with ha
  have hu : |t / 3600| = |t| / 3600 := by
    rw [abs_div]; norm_num
  rw [hu] at h1
  have hv : |x / n| = |x| / n := by
    rw [abs_div, abs_of_pos hn]
  rw [hv] at h2
  have hxabs : |x| ≤ |t| / 3600 + |t| / 3600 / 2 ^ 53 := by
    have := abs_sub_abs_le_abs_sub x (t / 3600)
    rw [hu] at this
    linarith
  have h3 : a * 3600 * n - t = (a - x / n) * (3600 * n) + (x - t / 3600) * 3600 := by
    field_simp
    ring
  rw [h3]
  have h4 := abs_add ((a - x / n) * (3600 * n)) ((x - t / 3600) * 3600)
  have h5 : |(a - x / n) * (3600 * n)| = |a - x / n| * (3600 * n) := by
    rw [abs_mul, abs_of_pos (by positivity : (0 : ℚ) < 3600 * n)]
  have h6 : |(x - t / 3600) * 3600| = |x - t / 3600| * 3600 := by
    rw [abs_mul]; norm_num
  have h7 : |a - x / n| * (3600 * n) ≤ |x| / n / 2 ^ 53 * (3600 * n) :=
    mul_le_mul_of_nonneg_right h2 (by positivity)
  have h8 : |x| / n / 2 ^ 53 * (3600 * n) = |x| * 3600 / 2 ^ 53 := by
    field_simp
    ring
  have h9 : |x - t / 3600| * 3600 ≤ |t| / 3600 / 2 ^ 53 * 3600 :=
    mul_le_mul_of_nonneg_right h1 (by norm_num)
  have h10 := abs_nonneg t
  rw [h5, h6] at h4
  rw [h8] at h7
  have h11 : |x| * 3600 / 2 ^ 53 ≤ (|t| / 3600 + |t| / 3600 / 2 ^ 53) * 3600 / 2 ^ 53 := by
    apply div_le_div_of_nonneg_right _ (by norm_num)
    exact mul_le_mul_of_nonneg_right hxabs (by norm_num)
  have h12 : (|t| / 3600 + |t| / 3600 / 2 ^ 53) * 3600 / 2 ^ 53 + |t| / 3600 / 2 ^ 53 * 3600
      ≤ |t| / 2 ^ 51 := by
    have : (|t| / 3600 + |t| / 3600 / 2 ^ 53) * 3600 / 2 ^ 53 + |t| / 3600 / 2 ^ 53 * 3600
        = |t| * ((1 + 1 / 2 ^ 53) / 2 ^ 53 + 1 / 2 ^ 53) := by
      field_simp
      ring
    rw [this, div_eq_mul_one_div |t| (2 ^ 51)]
    exact mul_le_mul_of_nonneg_left (by norm_num) h10
  linarith

/-! ## Lemmas on `GetUserStats` -/

theorem getUserStats_empty (f : Time → String) (c : Nat → Time) (repo : StatsRepository)
    (u : Nat) (sd ed : String) (h : repo.GetUserStatsByPeriod u sd ed = []) :
    Statistics.GetUserStats f c repo u sd ed
      = { TimeStats.zero with ActiveEntry := repo.GetActiveTimeEntryForUser u } := by
  unfold Statistics.GetUserStats
  simp only [h]
  rfl

/-- The fields of the result of `GetUserStats` on a non-empty list, in terms of the loop
started on the zero statistics. -/
theorem getUserStats_fields (f : Time → String) (c : Nat → Time) (repo : StatsRepository)
    (u : Nat) (sd ed : String) (es : List TimeEntry)
    (hes : repo.GetUserStatsByPeriod u sd ed = es) (hne : es ≠ []) :
    (Statistics.GetUserStats f c repo u sd ed).TotalDuration
        = (Statistics.processEntries f c es 0 TimeStats.zero).TotalDuration
    ∧ (Statistics.GetUserStats f c repo u sd ed).DailyStats
        = (Statistics.processEntries f c es 0 TimeStats.zero).DailyStats
    ∧ (Statistics.GetUserStats f c repo u sd ed).LongestSession
        = (Statistics.processEntries f c es 0 TimeStats.zero).LongestSession
    ∧ (Statistics.GetUserStats f c repo u sd ed).LongestSessionDate
        = (Statistics.processEntries f c es 0 TimeStats.zero).LongestSessionDate
    ∧ (Statistics.GetUserStats f c repo u sd ed).Entries = es
    ∧ (Statistics.GetUserStats f c repo u sd ed).ActiveEntry = repo.GetActiveTimeEntryForUser u
    ∧ (Statistics.GetUserStats f c repo u sd ed).AverageDailyHours
        = float64Div
            (float64Div
              (float64OfInt (Statistics.processEntries f c es 0 TimeStats.zero).TotalDuration)
              3600)
            (float64OfInt
              ((Statistics.processEntries f c es 0 TimeStats.zero).DailyStats.length : Nat)) := by
  have hlen : (es.length == 0) = false := by
    cases es with
    | nil => exact absurd rfl hne
    | cons a l => rfl
  obtain ⟨c1, c2, c3, c4⟩ := processEntries_congr f c es 0
    { TotalDuration := 0, DailyStats := [], AverageDailyHours := 0, LongestSessionDate := "",
      LongestSession := 0, Entries := es, ActiveEntry := repo.GetActiveTimeEntryForUser u }
    TimeStats.zero rfl rfl rfl rfl
  obtain ⟨f1, f2, _⟩ := processEntries_frame f c es 0
    { TotalDuration := 0, DailyStats := [], AverageDailyHours := 0, LongestSessionDate := "",
      LongestSession := 0, Entries := es, ActiveEntry := repo.GetActiveTimeEntryForUser u }
  have hpos : 0 < (Statistics.processEntries f c es 0 TimeStats.zero).DailyStats.length :=
    List.length_pos.mpr (processEntries_dailyStats_ne_nil f c es 0 _ (Or.inl hne))
  unfold Statistics.GetUserStats
  simp only [hes, hlen, Bool.false_eq_true, if_false]
  rw [c2, if_pos (by simpa using hpos)]
  simp only [c1, c3, c4, f1, f2]
  exact ⟨trivial, trivial, trivial, trivial, trivial, trivial, trivial⟩

/-- The period query reads only the completed entries of the store. -/
theorem getUserStatsByPeriod_filter (inRange : Time → String → String → Bool) (r : Repository)
    (u : Nat) (sd ed : String) :
    Repository.GetUserStatsByPeriod inRange
        { r with entries := r.entries.filter (fun e => e.Status == StatusCompleted) } u sd ed
      = r.GetUserStatsByPeriod inRange u sd ed := by
  unfold Repository.GetUserStatsByPeriod
  simp only [List.filter_filter]
  congr 2
  apply List.filter_congr
  intro x _
  cases h : (x.Status == StatusCompleted) <;> simp

/-- Every entry the period query returns has status completed and the identifier, owner
and start time of a stored completed entry. -/
theorem getUserStatsByPeriod_mem (inRange : Time → String → String → Bool) (r : Repository)
    (u : Nat) (sd ed : String) (x : TimeEntry) (hx : x ∈ r.GetUserStatsByPeriod inRange u sd ed) :
    x.Status = StatusCompleted ∧ x.UserID = u
      ∧ ∃ e ∈ r.entries, e.Status = StatusCompleted ∧ e.ID = x.ID ∧ e.StartTime = x.StartTime := by
  unfold Repository.GetUserStatsByPeriod at hx
  rw [List.mem_map] at hx
  obtain ⟨e, he, hxe⟩ := hx
  rw [(List.perm_insertionSort _ _).mem_iff, List.mem_filter] at he
  obtain ⟨hmem, hp⟩ := he
  simp only [Bool.and_eq_true, beq_iff_eq] at hp
  obtain ⟨⟨h1, _⟩, h3⟩ := hp
  subst hxe
  exact ⟨h3, h1, e, hmem, h3, rfl, rfl⟩

/-- Duration of an entry whose end time is set less than `2 ^ 24` seconds from its start. -/
theorem calculateDuration_ended_trunc (e : TimeEntry) (now : Time) (h : e.EndTime ≠ Time.zero)
    (hlo : -16777216000000000 < e.EndTime.ns - e.StartTime.ns)
    (hhi : e.EndTime.ns - e.StartTime.ns < 16777216000000000) :
    e.CalculateDuration now
      = wrapInt64 (Int.tdiv (e.EndTime.ns - e.StartTime.ns) 1000000000 - e.TotalPaused) :=
  calculateDuration_trunc e now e.EndTime (by rw [if_pos h]) hlo hhi

/-- What the loop sees of the entries of `TestGetUserStats_CustomPeriod`. -/
theorem customPeriod_observations (f : Time → String) (c : Nat → Time) :
    Statistics.observations f c customPeriodEntries 0
      = [(f ⟨63872532000000000000⟩, 7200), (f ⟨63874792800000000000⟩, 14400),
         (f ⟨63876762000000000000⟩, 25200)] := by
  have h1 : ∀ now, TimeEntry.CalculateDuration { TimeEntry.zero with
      ID := 1, UserID := 1, StartTime := ⟨63872532000000000000⟩,
      EndTime := ⟨63872539200000000000⟩, Status := "completed", TotalPaused := 0 } now = 7200 := by
    intro now
    rw [calculateDuration_ended_trunc _ now (by decide) (by decide) (by decide)]
    decide
  have h2 : ∀ now, TimeEntry.CalculateDuration { TimeEntry.zero with
      ID := 2, UserID := 1, StartTime := ⟨63874792800000000000⟩,
      EndTime := ⟨63874807200000000000⟩, Status := "completed", TotalPaused := 0 } now
        = 14400 := by
    intro now
    rw [calculateDuration_ended_trunc _ now (by decide) (by decide) (by decide)]
    decide
  have h3 : ∀ now, TimeEntry.CalculateDuration { TimeEntry.zero with
      ID := 3, UserID := 1, StartTime := ⟨63876762000000000000⟩,
      EndTime := ⟨63876790800000000000⟩, Status := "completed", TotalPaused := 3600 } now
        = 25200 := by
    intro now
    rw [calculateDuration_ended_trunc _ now (by decide) (by decide) (by decide)]
    decide
  unfold customPeriodEntries
  simp only [Statistics.observations, h1, h2, h3]

theorem customPeriodEntries_ne_nil : customPeriodEntries ≠ [] := by
  unfold customPeriodEntries
  exact List.cons_ne_nil _ _

/-- The loop on the entries of `TestGetUserStats_CustomPeriod`, whatever the clock. -/
theorem customPeriod_processed (c : Nat → Time) :
    (Statistics.processEntries customPeriodDay c customPeriodEntries 0 TimeStats.zero).TotalDuration
        = 46800
    ∧ (Statistics.processEntries customPeriodDay c customPeriodEntries 0 TimeStats.zero).DailyStats
        = [("2025-01-15", 7200), ("2025-02-10", 14400), ("2025-03-05", 25200)]
    ∧ (Statistics.processEntries customPeriodDay c customPeriodEntries 0
        TimeStats.zero).LongestSession = 25200
    ∧ (Statistics.processEntries customPeriodDay c customPeriodEntries 0
        TimeStats.zero).LongestSessionDate = "2025-03-05" := by
  have h1 : ∀ now, TimeEntry.CalculateDuration { TimeEntry.zero with
      ID := 1, UserID := 1, StartTime := ⟨63872532000000000000⟩,
      EndTime := ⟨63872539200000000000⟩, Status := "completed", TotalPaused := 0 } now = 7200 := by
    intro now
    rw [calculateDuration_ended_trunc _ now (by decide) (by decide) (by decide)]
    decide
  have h2 : ∀ now, TimeEntry.CalculateDuration { TimeEntry.zero with
      ID := 2, UserID := 1, StartTime := ⟨63874792800000000000⟩,
      EndTime := ⟨63874807200000000000⟩, Status := "completed", TotalPaused := 0 } now
        = 14400 := by
    intro now
    rw [calculateDuration_ended_trunc _ now (by decide) (by decide) (by decide)]
    decide
  have h3 : ∀ now, TimeEntry.CalculateDuration { TimeEntry.zero with
      ID := 3, UserID := 1, StartTime := ⟨63876762000000000000⟩,
      EndTime := ⟨63876790800000000000⟩, Status := "completed", TotalPaused := 3600 } now
        = 25200 := by
    intro now
    rw [calculateDuration_ended_trunc _ now (by decide) (by decide) (by decide)]
    decide
  unfold customPeriodEntries
  simp only [Statistics.processEntries, addEntry_eq, h1, h2, h3]
  refine ⟨by decide, by decide, by decide, by decide⟩

/-- No integer multiple of a power of two is a third of thirteen. -/
theorem dyadic_mul_three_ne (m k : ℤ) : (m : ℚ) * 2 ^ k * 3 ≠ 13 := by
  intro h
  have hmod : ∀ n : ℕ, (2 : ℤ) ^ n % 3 = 1 ∨ (2 : ℤ) ^ n % 3 = 2 := by
    intro n
    induction n with
    | zero => left; rfl
    | succ n ih =>
      rw [pow_succ]
      omega
  rcases le_or_lt 0 k with hk | hk
  · obtain ⟨n, rfl⟩ := Int.eq_ofNat_of_zero_le hk
    rw [zpow_natCast] at h
    have h2 : m * 2 ^ n * 3 = 13 := by exact_mod_cast h
    omega
  · obtain ⟨n, hn⟩ := Int.eq_ofNat_of_zero_le (by omega : 0 ≤ -k)
    have hk2 : k = -(n : ℤ) := by omega
    rw [hk2, zpow_neg, zpow_natCast] at h
    have hp : (0 : ℚ) < 2 ^ n := by positivity
    have h1 : (m : ℚ) * 3 = 13 * 2 ^ n := by
      field_simp at h
      linarith
    have h2 : m * 3 = 13 * 2 ^ n := by exact_mod_cast h1
    have := hmod n
    omega

/-- The statistics `TestGetUserStats_CustomPeriod` expects, whatever the clock. -/
theorem customPeriod_stats (c : Nat → Time) (a : Option TimeEntry) (u : Nat) (sd ed : String) :
    (Statistics.GetUserStats customPeriodDay c (MockRepository customPeriodEntries a)
        u sd ed).TotalDuration = 46800
    ∧ (Statistics.GetUserStats customPeriodDay c (MockRepository customPeriodEntries a)
        u sd ed).DailyStats
        = [("2025-01-15", 7200), ("2025-02-10", 14400), ("2025-03-05", 25200)]
    ∧ (Statistics.GetUserStats customPeriodDay c (MockRepository customPeriodEntries a)
        u sd ed).LongestSession = 25200
    ∧ (Statistics.GetUserStats customPeriodDay c (MockRepository customPeriodEntries a)
        u sd ed).LongestSessionDate = "2025-03-05" := by
  obtain ⟨h1, h2, h3, h4, _⟩ := getUserStats_fields customPeriodDay c
    (MockRepository customPeriodEntries a) u sd ed customPeriodEntries rfl
    customPeriodEntries_ne_nil
  obtain ⟨p1, p2, p3, p4⟩ := customPeriod_processed c
  rw [h1, h2, h3, h4]
  exact ⟨p1, p2, p3, p4⟩

/-! ## Lemmas on the outcome of each operation -/

/-- `PauseWork` is refused with `ErrNoActiveEntry`, or pauses the user's first active
entry. -/
theorem pauseWork_cases (r : Repository) (now : Time) (u : Nat) :
    PauseWork r now u = (.error .ErrNoActiveEntry, r)
    ∨ ∃ e, e ∈ r.entries ∧ e.UserID = u ∧ e.Status = StatusActive
        ∧ PauseWork r now u
          = (.ok { e with PausedAt := now, Status := StatusPaused },
             r.withEntry { e with PausedAt := now, Status := StatusPaused }) := by
  cases hf : (r.GetTimeEntriesByUserID u).find? (fun e => e.Status == StatusActive) with
  | none => exact Or.inl (pauseWork_none r now u hf)
  | some a =>
    right
    have hmemf := List.mem_of_find?_eq_some hf
    unfold Repository.GetTimeEntriesByUserID at hmemf
    rw [List.mem_filter] at hmemf
    have hst := List.find?_some hf
    simp only [beq_iff_eq] at hst
    have hu : a.UserID = u := by simpa using hmemf.2
    refine ⟨a, hmemf.1, hu, hst, ?_⟩
    unfold PauseWork
    rw [hf]
    have hnp : (a.Status == StatusPaused) = false := by rw [hst]; decide
    have hupd := updateTimeEntry_ok r a { a with PausedAt := now, Status := StatusPaused }
      hmemf.1 rfl
    simp only [hnp, Bool.false_eq_true, ↓reduceIte, hupd]

/-- `ResumeWork` is refused with `ErrNoActiveEntry`, or resumes the user's first paused
entry. -/
theorem resumeWork_cases (r : Repository) (now : Time) (u : Nat) :
    ResumeWork r now u = (.error .ErrNoActiveEntry, r)
    ∨ ∃ e, e ∈ r.entries ∧ e.UserID = u ∧ e.Status = StatusPaused
        ∧ ResumeWork r now u
          = (.ok { e with
                TotalPaused := wrapInt64 (e.TotalPaused
                  + float64ToInt64 (Duration.Seconds (now.Sub e.PausedAt))),
                ResumedAt := now, PausedAt := Time.zero, Status := StatusActive },
             r.withEntry { e with
                TotalPaused := wrapInt64 (e.TotalPaused
                  + float64ToInt64 (Duration.Seconds (now.Sub e.PausedAt))),
                ResumedAt := now, PausedAt := Time.zero, Status := StatusActive }) := by
  cases hf : (r.GetTimeEntriesByUserID u).find? (fun e => e.Status == StatusPaused) with
  | none => exact Or.inl (resumeWork_none r now u hf)
  | some a =>
    right
    have hmemf := List.mem_of_find?_eq_some hf
    unfold Repository.GetTimeEntriesByUserID at hmemf
    rw [List.mem_filter] at hmemf
    have hst := List.find?_some hf
    simp only [beq_iff_eq] at hst
    have hu : a.UserID = u := by simpa using hmemf.2
    refine ⟨a, hmemf.1, hu, hst, ?_⟩
    unfold ResumeWork
    rw [hf]
    have hnp : (a.Status != StatusPaused) = false := by rw [hst]; decide
    have hupd := updateTimeEntry_ok r a { a with
        TotalPaused := wrapInt64 (a.TotalPaused
          + float64ToInt64 (Duration.Seconds (now.Sub a.PausedAt))),
        ResumedAt := now, PausedAt := Time.zero, Status := StatusActive } hmemf.1 rfl
    simp only [hnp, Bool.false_eq_true, ↓reduceIte, hupd]

/-- `StopWork` is refused with `ErrNoActiveEntry`, or completes the user's first open
entry, folding the running pause when that entry is paused. -/
theorem stopWork_cases (r : Repository) (now : Time) (u : Nat) :
    StopWork r now u = (.error .ErrNoActiveEntry, r)
    ∨ (∃ e, e ∈ r.entries ∧ e.UserID = u ∧ e.Status = StatusPaused
        ∧ StopWork r now u
          = (.ok { e with
                TotalPaused := wrapInt64 (e.TotalPaused
                  + float64ToInt64 (Duration.Seconds (now.Sub e.PausedAt))),
                PausedAt := Time.zero, EndTime := now, Status := StatusCompleted },
             r.withEntry { e with
                TotalPaused := wrapInt64 (e.TotalPaused
                  + float64ToInt64 (Duration.Seconds (now.Sub e.PausedAt))),
                PausedAt := Time.zero, EndTime := now, Status := StatusCompleted }))
    ∨ ∃ e, e ∈ r.entries ∧ e.UserID = u ∧ e.Status ≠ StatusPaused
        ∧ e.Status ≠ StatusCompleted
        ∧ StopWork r now u
          = (.ok { e with EndTime := now, Status := StatusCompleted },
             r.withEntry { e with EndTime := now, Status := StatusCompleted }) := by
  cases hf : GetActiveTimeEntry r u with
  | none => exact Or.inl (stopWork_none r now u hf)
  | some a =>
    right
    obtain ⟨hmem, hu, hnc⟩ := mem_of_getActive hf
    by_cases hp : a.Status = StatusPaused
    · exact Or.inl ⟨a, hmem, hu, hp, stopWork_paused_ok r now u a hf hp⟩
    · exact Or.inr ⟨a, hmem, hu, hp, hnc, stopWork_active_ok r now u a hf hp⟩

/-- `StartWork` is refused with `ErrActiveEntryExists`, or appends a new active entry. -/
theorem startWork_cases (r : Repository) (now : Time) (u : Nat) :
    StartWork r now u = (.error .ErrActiveEntryExists, r)
    ∨ (GetActiveTimeEntry r u = none ∧ StartWork r now u
      = (.ok { TimeEntry.zero with
            ID := r.nextID, UserID := u, StartTime := now, Status := StatusActive },
         { r with
            entries := r.entries ++ [{ TimeEntry.zero with
              ID := r.nextID, UserID := u, StartTime := now, Status := StatusActive }],
            nextID := r.nextID + 1 })) := by
  cases hf : GetActiveTimeEntry r u with
  | none => exact Or.inr ⟨rfl, startWork_ok r now u hf⟩
  | some a => exact Or.inl (startWork_fail r now u a hf)

/-- `StartWorkWithCategory` leaves the repository as it is, or appends a new active entry
with the category. -/
theorem startWorkWithCategory_cases (r : Repository) (now : Time) (u c : Nat) :
    (StartWorkWithCategory r now u c).2 = r
    ∨ (StartWorkWithCategory r now u c).2
      = { r with
          entries := r.entries ++ [{ TimeEntry.zero with
            ID := r.nextID, UserID := u, StartTime := now, Status := StatusActive,
            CategoryID := some c }],
          nextID := r.nextID + 1 } := by
  unfold StartWorkWithCategory
  cases GetActiveTimeEntry r u with
  | some a => left; rfl
  | none =>
    simp only
    cases r.GetCategoryByID c with
    | error err => left; rfl
    | ok cat =>
      simp only
      split_ifs
      · left; rfl
      · right
        unfold Repository.CreateTimeEntry
        simp only
        split <;> rfl

theorem mem_withEntry_or (r : Repository) (t x : TimeEntry)
    (hx : x ∈ (r.withEntry t).entries) : x = t ∨ x ∈ r.entries := by
  unfold Repository.withEntry at hx
  simp only [List.mem_map] at hx
  obtain ⟨y, hy, hxy⟩ := hx
  split_ifs at hxy
  · exact Or.inl hxy.symm
  · exact Or.inr (hxy ▸ hy)

/-- In a well-formed repository `withEntry` replaces exactly the entry stored under the
identifier. -/
theorem withEntry_split (r : Repository) (e t : TimeEntry) (hwf : r.WF) (hmem : e ∈ r.entries)
    (hid : t.ID = e.ID) :
    ∃ pre post, r.entries = pre ++ e :: post ∧ (r.withEntry t).entries = pre ++ t :: post := by
  obtain ⟨pre, post, hsplit⟩ := List.append_of_mem hmem
  refine ⟨pre, post, hsplit, ?_⟩
  have hnd := hwf.2
  rw [hsplit, List.map_append, List.map_cons] at hnd
  have hpre : ∀ x ∈ pre, x.ID ≠ e.ID := by
    intro x hx hxe
    have hd := (List.nodup_append.mp hnd).2.2
    exact hd (List.mem_map_of_mem TimeEntry.ID hx) (hxe ▸ List.mem_cons_self _ _)
  have hpost : ∀ x ∈ post, x.ID ≠ e.ID := by
    intro x hx hxe
    have hd := (List.nodup_cons.mp (List.nodup_append.mp hnd).2.1).1
    exact hd (hxe ▸ List.mem_map_of_mem TimeEntry.ID hx)
  have hmap : ∀ l : List TimeEntry, (∀ x ∈ l, x.ID ≠ e.ID) →
      l.map (fun x => if x.ID == t.ID then t else x) = l := by
    intro l hl
    induction l with
    | nil => rfl
    | cons a l ih =>
      have ha : (a.ID == t.ID) = false := by
        simpa [hid] using hl a (List.mem_cons_self _ _)
      simp only [List.map_cons, ha, Bool.false_eq_true, if_false]
      rw [ih (fun x hx => hl x (List.mem_cons_of_mem _ hx))]
  unfold Repository.withEntry
  simp only
  rw [hsplit, List.map_append, List.map_cons, hmap pre hpre, hmap post hpost]
  simp [hid]

/-! ## Lemmas on properties of every stored entry -/

/-- A property of entries that holds for a new entry and survives the three updates
holds for every stored entry after any call. -/
theorem exec_entries (P : TimeEntry → Prop) (r : Repository) (c : Call)
    (hstart : ∀ now id u cat, c.clock = some now →
      P { TimeEntry.zero with
          ID := id, UserID := u, StartTime := now, Status := StatusActive, CategoryID := cat })
    (hpause : ∀ now e, c.clock = some now → P e → e.Status = StatusActive →
      P { e with PausedAt := now, Status := StatusPaused })
    (hresume : ∀ now e tp, c.clock = some now → P e → e.Status = StatusPaused →
      P { e with
          TotalPaused := tp, ResumedAt := now, PausedAt := Time.zero, Status := StatusActive })
    (hstopPaused : ∀ now e tp, c.clock = some now → P e → e.Status = StatusPaused →
      P { e with
          TotalPaused := tp, PausedAt := Time.zero, EndTime := now, Status := StatusCompleted })
    (hstop : ∀ now e, c.clock = some now → P e → e.Status ≠ StatusPaused →
      e.Status ≠ StatusCompleted → P { e with EndTime := now, Status := StatusCompleted })
    (h : ∀ e ∈ r.entries, P e) : ∀ e ∈ (c.exec r).2.entries, P e := by
  have hupd : ∀ t, P t → ∀ x ∈ (r.withEntry t).entries, P x := by
    intro t ht x hx
    rcases mem_withEntry_or r t x hx with hxt | hxr
    · rw [hxt]; exact ht
    · exact h x hxr
  cases c with
  | startWork u now =>
    show ∀ e ∈ (StartWork r now u).2.entries, P e
    rcases startWork_cases r now u with hs | ⟨_, hs⟩
    · rw [hs]; exact h
    · rw [hs]
      intro x hx
      simp only [List.mem_append, List.mem_singleton] at hx
      rcases hx with hx | hx
      · exact h x hx
      · rw [hx]; exact hstart now r.nextID u none rfl
  | startWorkWithCategory u cat now =>
    show ∀ e ∈ (StartWorkWithCategory r now u cat).2.entries, P e
    rcases startWorkWithCategory_cases r now u cat with hs | hs
    · rw [hs]; exact h
    · rw [hs]
      intro x hx
      simp only [List.mem_append, List.mem_singleton] at hx
      rcases hx with hx | hx
      · exact h x hx
      · rw [hx]; exact hstart now r.nextID u (some cat) rfl
  | pauseWork u now =>
    show ∀ e ∈ (PauseWork r now u).2.entries, P e
    rcases pauseWork_cases r now u with hs | ⟨e, hmem, _, hst, hs⟩
    · rw [hs]; exact h
    · rw [hs]; exact hupd _ (hpause now e rfl (h e hmem) hst)
  | resumeWork u now =>
    show ∀ e ∈ (ResumeWork r now u).2.entries, P e
    rcases resumeWork_cases r now u with hs | ⟨e, hmem, _, hst, hs⟩
    · rw [hs]; exact h
    · rw [hs]; exact hupd _ (hresume now e _ rfl (h e hmem) hst)
  | stopWork u now =>
    show ∀ e ∈ (StopWork r now u).2.entries, P e
    rcases stopWork_cases r now u with hs | ⟨e, hmem, _, hst, hs⟩ | ⟨e, hmem, _, hnp, hnc, hs⟩
    · rw [hs]; exact h
    · rw [hs]; exact hupd _ (hstopPaused now e _ rfl (h e hmem) hst)
    · rw [hs]; exact hupd _ (hstop now e rfl (h e hmem) hnp hnc)
  | deleteTimeEntry id u =>
    show ∀ e ∈ (DeleteTimeEntry r id u).2.entries, P e
    rcases deleteTimeEntry_store r id u with hs | hs
    · rw [hs]; exact h
    · rw [hs]
      intro x hx
      unfold Repository.DeleteTimeEntry at hx
      exact h x (List.mem_of_mem_filter hx)

theorem zero_isZero_ne_false (h : Time.zero.IsZero = false) : False := by
  revert h
  decide

/-- With non-zero clock readings every call keeps: `EndTime` is set exactly on the
completed entries. -/
theorem exec_endTime (r : Repository) (c : Call) (hc : c.clock ≠ some Time.zero)
    (h : ∀ e ∈ r.entries, (e.EndTime.IsZero = false ↔ e.Status = StatusCompleted)) :
    ∀ e ∈ (c.exec r).2.entries, (e.EndTime.IsZero = false ↔ e.Status = StatusCompleted) := by
  have hnz : ∀ now, c.clock = some now → now.IsZero = false := by
    intro now hnow
    have : now ≠ Time.zero := fun h0 => hc (h0 ▸ hnow)
    cases hz : now.IsZero with
    | false => rfl
    | true => exact absurd ((Time.isZero_iff now).mp hz) this
  apply exec_entries (fun e => e.EndTime.IsZero = false ↔ e.Status = StatusCompleted) r c
    _ _ _ _ _ h
  · intro now id u cat _
    exact ⟨fun h0 => (zero_isZero_ne_false h0).elim, fun h0 => absurd h0 active_ne_completed⟩
  · intro now e _ he hst
    have hz : e.EndTime.IsZero = true := by
      cases hz : e.EndTime.IsZero with
      | true => rfl
      | false => exact absurd (hst ▸ he.mp hz) active_ne_completed
    exact ⟨fun h0 => by simp only [hz] at h0; exact absurd h0 (by decide),
      fun h0 => absurd h0 paused_ne_completed⟩
  · intro now e tp _ he hst
    have hz : e.EndTime.IsZero = true := by
      cases hz : e.EndTime.IsZero with
      | true => rfl
      | false => exact absurd (hst ▸ he.mp hz) paused_ne_completed
    exact ⟨fun h0 => by simp only [hz] at h0; exact absurd h0 (by decide),
      fun h0 => absurd h0 active_ne_completed⟩
  · intro now e tp hnow _ _
    exact ⟨fun _ => rfl, fun _ => hnz now hnow⟩
  · intro now e hnow _ _ _
    exact ⟨fun _ => rfl, fun _ => hnz now hnow⟩

/-- With non-zero clock readings every call keeps: `PausedAt` is set exactly on the
paused entries. -/
theorem exec_pausedAt (r : Repository) (c : Call) (hc : c.clock ≠ some Time.zero)
    (h : ∀ e ∈ r.entries, (e.PausedAt.IsZero = false ↔ e.Status = StatusPaused)) :
    ∀ e ∈ (c.exec r).2.entries, (e.PausedAt.IsZero = false ↔ e.Status = StatusPaused) := by
  have hnz : ∀ now, c.clock = some now → now.IsZero = false := by
    intro now hnow
    have : now ≠ Time.zero := fun h0 => hc (h0 ▸ hnow)
    cases hz : now.IsZero with
    | false => rfl
    | true => exact absurd ((Time.isZero_iff now).mp hz) this
  apply exec_entries (fun e => e.PausedAt.IsZero = false ↔ e.Status = StatusPaused) r c
    _ _ _ _ _ h
  · intro now id u cat _
    exact ⟨fun h0 => (zero_isZero_ne_false h0).elim, fun h0 => absurd h0 active_ne_paused⟩
  · intro now e hnow _ _
    exact ⟨fun _ => rfl, fun _ => hnz now hnow⟩
  · intro now e tp _ _ _
    exact ⟨fun h0 => (zero_isZero_ne_false h0).elim, fun h0 => absurd h0 active_ne_paused⟩
  · intro now e tp _ _ _
    exact ⟨fun h0 => (zero_isZero_ne_false h0).elim, fun h0 => absurd h0.symm paused_ne_completed⟩
  · intro now e _ he hnp _
    have hz : e.PausedAt.IsZero = true := by
      cases hz : e.PausedAt.IsZero with
      | true => rfl
      | false => exact absurd (he.mp hz) hnp
    exact ⟨fun h0 => by simp only [hz] at h0; exact absurd h0 (by decide),
      fun h0 => absurd h0.symm paused_ne_completed⟩

theorem execAll_entries (P : TimeEntry → Prop) (calls : List Call)
    (hstep : ∀ (r : Repository) (c : Call), c ∈ calls → (∀ e ∈ r.entries, P e) →
      ∀ e ∈ (c.exec r).2.entries, P e) (r : Repository) (h : ∀ e ∈ r.entries, P e) :
    ∀ e ∈ (execAll r calls).2.entries, P e := by
  induction calls generalizing r with
  | nil => exact h
  | cons c cs ih =>
    unfold execAll
    simp only
    exact ih (fun r1 c1 hc1 => hstep r1 c1 (List.mem_cons_of_mem _ hc1)) _
      (hstep r c (List.mem_cons_self _ _) h)

/-- With at most one open entry per user, an open stored entry of the user is the one
`GetActiveTimeEntry` returns. -/
theorem getActive_of_open (r : Repository) (u : Nat) (e : TimeEntry) (hmem : e ∈ r.entries)
    (hu : e.UserID = u) (hnc : e.Status ≠ StatusCompleted) (hc : r.openCount u ≤ 1) :
    GetActiveTimeEntry r u = some e := by
  cases h : GetActiveTimeEntry r u with
  | none =>
    rw [getActive_eq_find, List.find?_eq_none] at h
    have := h e hmem
    simp [hu, hnc] at this
  | some e1 =>
    rw [only_open r u e1 h hc e hmem hu hnc]

/-- Replacing the user's open entry in a well-formed repository changes that one stored
entry and nothing else. -/
theorem update_frame (r : Repository) (u : Nat) (e t : TimeEntry) (hwf : r.WF)
    (hc : r.openCount u ≤ 1) (hmem : e ∈ r.entries) (hu : e.UserID = u)
    (hnc : e.Status ≠ StatusCompleted) (hid : t.ID = e.ID) (hne : t ≠ e) :
    ∃ pre post, GetActiveTimeEntry r u = some e ∧ r.entries = pre ++ e :: post
      ∧ (r.withEntry t).entries = pre ++ t :: post ∧ t ≠ e
      ∧ (r.withEntry t).categories = r.categories ∧ (r.withEntry t).nextID = r.nextID := by
  obtain ⟨pre, post, h1, h2⟩ := withEntry_split r e t hwf hmem hid
  exact ⟨pre, post, getActive_of_open r u e hmem hu hnc hc, h1, h2, hne, rfl, rfl⟩

/-! ## Lemmas on interleaved `StartWork` calls -/

/-- The two store calls of a `StartWork` call, run without another call in between, are
`StartWork`. -/
theorem startCall_two_steps (r : Repository) (u : Nat) (now : Time) :
    ((StartCall.pending u now).step r).1.step ((StartCall.pending u now).step r).2
      = (.returned (StartWork r now u).1, (StartWork r now u).2) := by
  unfold StartWork
  cases h : GetActiveTimeEntry r u with
  | some a => simp only [StartCall.step, h]
  | none =>
    simp only [StartCall.step, h]

/-- A call that runs both its store calls next in the schedule behaves as `StartWork`. -/
theorem runSchedule_call (r : Repository) (done rest : List StartCall) (u : Nat) (now : Time)
    (schedule : List Nat) :
    runSchedule r (done ++ StartCall.pending u now :: rest)
        (done.length :: done.length :: schedule)
      = runSchedule (StartWork r now u).2
          (done ++ StartCall.returned (StartWork r now u).1 :: rest) schedule := by
  have hget : ∀ c : StartCall, (done ++ c :: rest).get? done.length = some c := by
    intro c
    rw [List.get?_eq_getElem?, List.getElem?_append_right (le_refl _), Nat.sub_self,
      List.getElem?_cons_zero]
  have hset : ∀ c d : StartCall, (done ++ c :: rest).set done.length d = done ++ d :: rest := by
    intro c d
    simp
  have h2 := startCall_two_steps r u now
  rw [runSchedule, hget]
  simp only [hset]
  rw [runSchedule, hget]
  simp only [hset, h2]

/-- Calls that run one after the other while the user has an open entry are all refused. -/
theorem runSchedule_refused (u : Nat) (e : TimeEntry) (nows : List Time) (r : Repository)
    (done : List StartCall) (h : GetActiveTimeEntry r u = some e) :
    runSchedule r (done ++ nows.map (StartCall.pending u))
        (sequentialSchedule done.length nows.length)
      = (done ++ nows.map (fun _ => StartCall.returned (.error .ErrActiveEntryExists)), r) := by
  induction nows generalizing done with
  | nil => simp [sequentialSchedule, runSchedule]
  | cons now rest ih =>
    simp only [List.map_cons, List.length_cons, sequentialSchedule]
    rw [runSchedule_call, startWork_fail r now u e h]
    have := ih (done ++ [StartCall.returned (.error .ErrActiveEntryExists)])
    simp only [List.length_append, List.length_singleton, List.append_assoc,
      List.singleton_append] at this
    exact this

/-! ## Lemmas on the sum of the daily statistics -/

theorem wrapInt64_emod (x : Int) :
    wrapInt64 x % 18446744073709551616 = x % 18446744073709551616 := by
  unfold wrapInt64
  omega

theorem wrapInt64_range (x : Int) : minInt64 ≤ wrapInt64 x ∧ wrapInt64 x ≤ maxInt64 := by
  unfold wrapInt64 minInt64 maxInt64
  omega

theorem abs_wrapInt64_le (x : Int) : |wrapInt64 x| ≤ |x| := by
  rw [abs_le]
  have h1 := neg_abs_le x
  have h2 := le_abs_self x
  have h3 := abs_nonneg x
  unfold wrapInt64
  constructor <;> omega

/-- Modulo `2 ^ 64`, `m[k] += d` adds `d` to the sum of the values of the map. -/
theorem mapAdd_sum_emod (m : List (String × Int)) (k : String) (d : Int) :
    ((mapAdd m k d).map Prod.snd).sum % 18446744073709551616
      = ((m.map Prod.snd).sum + d) % 18446744073709551616 := by
  induction m with
  | nil =>
    have := wrapInt64_emod (0 + d)
    simp only [mapAdd, List.map_cons, List.map_nil, List.sum_cons, List.sum_nil, add_zero]
    omega
  | cons p rest ih =>
    unfold mapAdd
    split_ifs
    · have := wrapInt64_emod (p.2 + d)
      simp only [List.map_cons, List.sum_cons]
      omega
    · simp only [List.map_cons, List.sum_cons]
      omega

/-- The absolute values in the map grow by at most `|d|` under `m[k] += d`. -/
theorem mapAdd_abs_sum (m : List (String × Int)) (k : String) (d : Int) :
    ((mapAdd m k d).map (fun p => |p.2|)).sum ≤ (m.map (fun p => |p.2|)).sum + |d| := by
  induction m with
  | nil =>
    have := abs_wrapInt64_le (0 + d)
    simp only [mapAdd, List.map_cons, List.map_nil, List.sum_cons, List.sum_nil, add_zero,
      zero_add] at this ⊢
    exact this
  | cons p rest ih =>
    unfold mapAdd
    split_ifs
    · have h1 := abs_wrapInt64_le (p.2 + d)
      have h2 := abs_add p.2 d
      simp only [List.map_cons, List.sum_cons]
      omega
    · simp only [List.map_cons, List.sum_cons]
      omega

theorem abs_sum_values_le (m : List (String × Int)) :
    |(m.map Prod.snd).sum| ≤ (m.map (fun p => |p.2|)).sum := by
  induction m with
  | nil => simp
  | cons p rest ih =>
    have := abs_add p.2 (rest.map Prod.snd).sum
    simp only [List.map_cons, List.sum_cons]
    omega

/-- The loop keeps the sum of the daily values congruent to the total modulo `2 ^ 64`,
keeps the total within `int64`, and adds at most the absolute durations to the absolute
daily values. -/
theorem processEntries_sums (f : Time → String) (c : Nat → Time) (es : List TimeEntry)
    (i : Nat) (s : TimeStats)
    (hmod : (s.DailyStats.map Prod.snd).sum % 18446744073709551616
      = s.TotalDuration % 18446744073709551616)
    (hrange : minInt64 ≤ s.TotalDuration ∧ s.TotalDuration ≤ maxInt64) :
    ((Statistics.processEntries f c es i s).DailyStats.map Prod.snd).sum % 18446744073709551616
        = (Statistics.processEntries f c es i s).TotalDuration % 18446744073709551616
    ∧ minInt64 ≤ (Statistics.processEntries f c es i s).TotalDuration
    ∧ (Statistics.processEntries f c es i s).TotalDuration ≤ maxInt64
    ∧ ((Statistics.processEntries f c es i s).DailyStats.map (fun p => |p.2|)).sum
        ≤ (s.DailyStats.map (fun p => |p.2|)).sum
          + ((Statistics.observations f c es i).map (fun p => |p.2|)).sum := by
  induction es generalizing i s with
  | nil =>
    simp only [Statistics.processEntries, Statistics.observations, List.map_nil, List.sum_nil,
      add_zero, le_refl, and_true]
    exact ⟨hmod, hrange.1, hrange.2⟩
  | cons e rest ih =>
    unfold Statistics.processEntries
    have hadd := addEntry_eq f s e (c i)
    have hm := mapAdd_sum_emod s.DailyStats (f e.StartTime) (e.CalculateDuration (c i))
    have hw := wrapInt64_emod (s.TotalDuration + e.CalculateDuration (c i))
    have hr := wrapInt64_range (s.TotalDuration + e.CalculateDuration (c i))
    have ha := mapAdd_abs_sum s.DailyStats (f e.StartTime) (e.CalculateDuration (c i))
    obtain ⟨i1, i2, i3, i4⟩ := ih (i + 1) (Statistics.addEntry f s e (c i))
      (by rw [hadd]; simp only; omega) (by rw [hadd]; exact hr)
    refine ⟨i1, i2, i3, ?_⟩
    have hds : (Statistics.addEntry f s e (c i)).DailyStats
        = mapAdd s.DailyStats (f e.StartTime) (e.CalculateDuration (c i)) := by rw [hadd]
    rw [hds] at i4
    unfold Statistics.observations
    simp only [List.map_cons, List.sum_cons]
    omega

/-- The sum of the values of `DailyStats`, taken in `int64`, is `TotalDuration`; the two
are equal as integers when the absolute durations sum to at most the largest `int64`. -/
theorem getUserStats_sums (f : Time → String) (c : Nat → Time) (repo : StatsRepository)
    (u : Nat) (sd ed : String) :
    wrapInt64 (((Statistics.GetUserStats f c repo u sd ed).DailyStats.map Prod.snd).sum)
        = (Statistics.GetUserStats f c repo u sd ed).TotalDuration
    ∧ (((Statistics.observations f c (repo.GetUserStatsByPeriod u sd ed) 0).map
          (fun p => |p.2|)).sum ≤ maxInt64 →
        ((Statistics.GetUserStats f c repo u sd ed).DailyStats.map Prod.snd).sum
          = (Statistics.GetUserStats f c repo u sd ed).TotalDuration) := by
  by_cases hne : repo.GetUserStatsByPeriod u sd ed = []
  · rw [getUserStats_empty f c repo u sd ed hne]
    exact ⟨by show wrapInt64 0 = 0; decide, fun _ => rfl⟩
  · obtain ⟨h1, h2, _⟩ := getUserStats_fields f c repo u sd ed _ rfl hne
    rw [h1, h2]
    obtain ⟨p1, p2, p3, p4⟩ := processEntries_sums f c (repo.GetUserStatsByPeriod u sd ed) 0
      TimeStats.zero (by decide) (by decide)
    have hz : (TimeStats.zero.DailyStats.map (fun p => |p.2|)).sum = 0 := rfl
    rw [hz, zero_add] at p4
    have habs := abs_sum_values_le (Statistics.processEntries f c
      (repo.GetUserStatsByPeriod u sd ed) 0 TimeStats.zero).DailyStats
    have hl := neg_abs_le (((Statistics.processEntries f c (repo.GetUserStatsByPeriod u sd ed) 0
        TimeStats.zero).DailyStats.map Prod.snd).sum)
    have hu := le_abs_self (((Statistics.processEntries f c (repo.GetUserStatsByPeriod u sd ed) 0
        TimeStats.zero).DailyStats.map Prod.snd).sum)
    constructor
    · unfold wrapInt64
      unfold minInt64 at p2
      unfold maxInt64 at p3
      omega
    · intro hfit
      unfold minInt64 at p2
      unfold maxInt64 at p3 hfit
      omega

/-! ## Lemmas on `FormatDuration` and `Authenticate` -/

theorem appendInt2_eq_zeroPad2 : ∀ n < 100, appendInt2 n = zeroPad2 n := by
  decide

/-- For a number of seconds within `int64` nanoseconds, `FormatDuration` shows the
seconds of the day: the hours are taken modulo 24. -/
theorem formatDuration_eq (s : Int) (h0 : 0 ≤ s) (h1 : s ≤ 9223372036) :
    FormatDuration s
      = appendInt2 ((s % 86400).toNat / 3600) ++ ":"
        ++ appendInt2 ((s % 86400).toNat % 3600 / 60) ++ ":"
        ++ appendInt2 ((s % 86400).toNat % 60) := by
  unfold FormatDuration Time.FormatClock Time.Add Time.zero
  simp only
  rw [wrapInt64_of_range (by unfold minInt64; omega) (by unfold maxInt64; omega)]
  have : (0 + s * 1000000000) / 1000000000 = s := by omega
  rw [this]

/-- Below 24 hours `FormatDuration` is the specified text. -/
theorem formatDuration_below_24h (s : Nat) (h : s < 86400) :
    FormatDuration s = specFormatDuration s := by
  rw [formatDuration_eq s (by omega) (by omega)]
  have hs : ((s : Int) % 86400).toNat = s := by omega
  rw [hs]
  unfold specFormatDuration
  rw [appendInt2_eq_zeroPad2 _ (by omega), appendInt2_eq_zeroPad2 _ (by omega),
    appendInt2_eq_zeroPad2 _ (by omega)]

theorem splitOnSpace_no_space (t : List Char) (h : Char.ofNat 32 ∉ t) : splitOnSpace t = [t] := by
  induction t with
  | nil => rfl
  | cons c cs ih =>
    have hc : (c == Char.ofNat 32) = false := by
      rw [beq_eq_false_iff_ne]
      intro hc
      apply h
      rw [← hc]
      exact List.mem_cons_self _ _
    have hcs := ih (fun hm => h (List.mem_cons_of_mem _ hm))
    simp only [splitOnSpace, hc, Bool.false_eq_true, if_false, hcs]

theorem splitOnSpace_append (pre t : List Char) (h : Char.ofNat 32 ∉ pre) :
    splitOnSpace (pre ++ Char.ofNat 32 :: t) = pre :: splitOnSpace t := by
  induction pre with
  | nil => simp [splitOnSpace]
  | cons c cs ih =>
    have hc : (c == Char.ofNat 32) = false := by
      rw [beq_eq_false_iff_ne]
      intro hc
      apply h
      rw [← hc]
      exact List.mem_cons_self _ _
    have hcs := ih (fun hm => h (List.mem_cons_of_mem _ hm))
    rw [List.cons_append, splitOnSpace]
    simp only [hc, Bool.false_eq_true, if_false, hcs]

/-- For a header made of `Bearer`, one space and a token without space, `Authenticate`
runs out of the range of the token when the token has fewer than 20 bytes, and otherwise
answers 401 or calls the next handler as the token validation decides. -/
theorem authenticate_bearer (validateToken : String → Except String Nat) (token : String)
    (h : Char.ofNat 32 ∉ token.data) :
    Authenticate validateToken ("Bearer " ++ token)
      = if token.utf8ByteSize < 20 then .sliceOutOfRange
        else
          match validateToken token with
          | .error err => .unauthorized ("Недействительный токен: " ++ err)
          | .ok userID => .next userID := by
  have hsplit : splitOnSpace ("Bearer " ++ token).data = ["Bearer".data, token.data] := by
    rw [String.data_append]
    have hb : "Bearer ".data = "Bearer".data ++ [Char.ofNat 32] := by decide
    rw [hb, List.append_assoc, List.singleton_append,
      splitOnSpace_append _ _ (by decide), splitOnSpace_no_space token.data h]
  have hne : (("Bearer " ++ token) == "") = false := by
    rw [beq_eq_false_iff_ne]
    intro h0
    have := congrArg String.data h0
    rw [String.data_append] at this
    simp at this
  unfold Authenticate
  rw [hne, hsplit]
  simp only [Bool.false_eq_true, if_false, List.map_cons, List.map_nil, List.length_cons,
    List.length_nil]
  rfl

/-! ## Claims -/

/-- C1 (as amended): with `basis` the end time when it is set, else the pause instant of
a paused entry, else the clock reading, and `basis - StartTime` under `2 ^ 24` seconds
in magnitude, `CalculateDuration` is that difference in whole seconds, truncated toward
zero, minus `TotalPaused`, whenever this fits `int64`. -/
theorem C1_calculateDuration_truncates (e : TimeEntry) (now basis : Time)
    (hbasis : basis = if e.EndTime ≠ Time.zero then e.EndTime
      else if e.Status = StatusPaused then e.PausedAt else now)
    (hlo : -16777216000000000 < basis.ns - e.StartTime.ns)
    (hhi : basis.ns - e.StartTime.ns < 16777216000000000)
    (hmin : minInt64 ≤ Int.tdiv (basis.ns - e.StartTime.ns) 1000000000 - e.TotalPaused)
    (hmax : Int.tdiv (basis.ns - e.StartTime.ns) 1000000000 - e.TotalPaused ≤ maxInt64) :
    e.CalculateDuration now
      = Int.tdiv (basis.ns - e.StartTime.ns) 1000000000 - e.TotalPaused := by
  rw [calculateDuration_trunc e now basis hbasis hlo hhi, wrapInt64_of_range hmin hmax]

/-- C1 at a completed entry of 7200.5 seconds with 600 seconds of pause. -/
theorem C1_calculateDuration_truncates_witness :
    ({ TimeEntry.zero with
        StartTime := ⟨1000000000⟩, EndTime := ⟨7201500000000⟩, TotalPaused := 600,
        Status := StatusCompleted } : TimeEntry).CalculateDuration ⟨0⟩
      = Int.tdiv (7201500000000 - 1000000000) 1000000000 - 600 :=
  C1_calculateDuration_truncates _ ⟨0⟩ ⟨7201500000000⟩ (by decide) (by decide) (by decide)
    (by decide) (by decide)

/-- C1 (as stated) fails: an entry whose end time is half a second before its start has
duration `0`, where the floor of the difference is `-1`. -/
theorem C1_floor_counterexample :
    ({ TimeEntry.zero with
        StartTime := ⟨1500000000⟩, EndTime := ⟨1000000000⟩,
        Status := StatusCompleted } : TimeEntry).CalculateDuration ⟨0⟩ = 0
    ∧ ⌊(((1000000000 - 1500000000 : Int) : ℚ) / 1000000000)⌋ - 0 = (-1 : Int) := by
  constructor
  · rw [calculateDuration_trunc _ ⟨0⟩ ⟨1000000000⟩ (by decide) (by decide) (by decide)]
    decide
  · rw [sub_zero, Int.floor_eq_iff]
    norm_num

/-- C2 (as amended): for whole-second instants `s0 ≤ s1 ≤ s2 ≤ s3` with `s3` not the zero
time and `s3 - s0` within the range of a `Duration`, and a user without open entry,
`StartWork`, `PauseWork`, `ResumeWork`, `StopWork` at these instants all succeed and
leave a stored completed entry with `TotalPaused = s2 - s1` and duration
`(s3 - s0) - (s2 - s1)`; pausing after 45, resuming after 60 and stopping after 90
minutes gives 4500. -/
theorem C2_pause_resume_round_trip (r : Repository) (u : Nat) (s0 s1 s2 s3 : Int)
    (h01 : s0 ≤ s1) (h12 : s1 ≤ s2) (h23 : s2 ≤ s3) (hnz : s3 ≠ 0)
    (hspan : s3 - s0 ≤ 9223372036) (h : GetActiveTimeEntry r u = none) :
    ∃ e0 r0 e1 r1 e2 r2 e3 r3,
      StartWork r ⟨s0 * 1000000000⟩ u = (.ok e0, r0)
      ∧ PauseWork r0 ⟨s1 * 1000000000⟩ u = (.ok e1, r1)
      ∧ ResumeWork r1 ⟨s2 * 1000000000⟩ u = (.ok e2, r2)
      ∧ StopWork r2 ⟨s3 * 1000000000⟩ u = (.ok e3, r3)
      ∧ r3.GetTimeEntryByID e3.ID = .ok e3
      ∧ e3.Status = StatusCompleted
      ∧ e3.TotalPaused = s2 - s1
      ∧ (∀ now, e3.CalculateDuration now = (s3 - s0) - (s2 - s1))
      ∧ (s1 = s0 + 2700 → s2 = s0 + 3600 → s3 = s0 + 5400 →
          ∀ now, e3.CalculateDuration now = 4500) := by
  obtain ⟨e0, r0, e1, r1, e2, r2, e3, r3, h0, h1, h2, h3, hby, he3⟩ :=
    round_trip_shape r u ⟨s0 * 1000000000⟩ ⟨s1 * 1000000000⟩ ⟨s2 * 1000000000⟩
      ⟨s3 * 1000000000⟩ h
  have hpause : wrapInt64 (0 + float64ToInt64 (Duration.Seconds
      ((⟨s2 * 1000000000⟩ : Time).Sub ⟨s1 * 1000000000⟩))) = s2 - s1 := by
    rw [seconds_sub_whole s2 s1 (by omega) (by omega), zero_add,
      wrapInt64_of_range (by unfold minInt64; omega) (by unfold maxInt64; omega)]
  have hnz3 : (⟨s3 * 1000000000⟩ : Time) ≠ Time.zero := time_ne_zero (by omega)
  have hdur : ∀ now, e3.CalculateDuration now = (s3 - s0) - (s2 - s1) := by
    intro now
    rw [calculateDuration_ended e3 now (by rw [he3]; exact hnz3)]
    rw [he3]
    simp only [hpause]
    rw [seconds_sub_whole s3 s0 (by omega) (by omega),
      wrapInt64_of_range (by unfold minInt64; omega) (by unfold maxInt64; omega)]
  refine ⟨e0, r0, e1, r1, e2, r2, e3, r3, h0, h1, h2, h3, hby, by rw [he3], ?_, hdur, ?_⟩
  · rw [he3]
    exact hpause
  · intro a b c now
    rw [hdur now]
    omega

/-- C2 for a start at second 1000 with pause, resume and stop 45, 60 and 90 minutes later. -/
theorem C2_pause_resume_round_trip_witness :
    ∃ e0 r0 e1 r1 e2 r2 e3 r3,
      StartWork (Repository.empty []) ⟨1000 * 1000000000⟩ 7 = (.ok e0, r0)
      ∧ PauseWork r0 ⟨3700 * 1000000000⟩ 7 = (.ok e1, r1)
      ∧ ResumeWork r1 ⟨4600 * 1000000000⟩ 7 = (.ok e2, r2)
      ∧ StopWork r2 ⟨6400 * 1000000000⟩ 7 = (.ok e3, r3)
      ∧ r3.GetTimeEntryByID e3.ID = .ok e3
      ∧ e3.Status = StatusCompleted
      ∧ e3.TotalPaused = 4600 - 3700
      ∧ (∀ now, e3.CalculateDuration now = (6400 - 1000) - (4600 - 3700))
      ∧ ((3700 : Int) = 1000 + 2700 → (4600 : Int) = 1000 + 3600 → (6400 : Int) = 1000 + 5400 →
          ∀ now, e3.CalculateDuration now = 4500) :=
  C2_pause_resume_round_trip (Repository.empty []) 7 1000 3700 4600 6400 (by decide) (by decide)
    (by decide) (by decide) (by decide) (by decide)

/-- C2 (as stated) fails: `Time.Sub` saturates at about 292 years, so starting at second
1, pausing at 2, resuming at 3 and stopping at second `10 ^ 10` yields a duration below
`(10 ^ 10 - 1) - (3 - 2)`. -/
theorem C2_saturation_counterexample :
    ∃ e0 r0 e1 r1 e2 r2 e3 r3,
      StartWork (Repository.empty []) ⟨1 * 1000000000⟩ 7 = (.ok e0, r0)
      ∧ PauseWork r0 ⟨2 * 1000000000⟩ 7 = (.ok e1, r1)
      ∧ ResumeWork r1 ⟨3 * 1000000000⟩ 7 = (.ok e2, r2)
      ∧ StopWork r2 ⟨10000000000 * 1000000000⟩ 7 = (.ok e3, r3)
      ∧ ∀ now, e3.CalculateDuration now ≤ 9223372037
          ∧ e3.CalculateDuration now ≠ (10000000000 - 1) - (3 - 2) := by
  obtain ⟨e0, r0, e1, r1, e2, r2, e3, r3, h0, h1, h2, h3, _, he3⟩ :=
    round_trip_shape (Repository.empty []) 7 ⟨1 * 1000000000⟩ ⟨2 * 1000000000⟩
      ⟨3 * 1000000000⟩ ⟨10000000000 * 1000000000⟩ (by decide)
  have hpause : wrapInt64 (0 + float64ToInt64 (Duration.Seconds
      ((⟨3 * 1000000000⟩ : Time).Sub ⟨2 * 1000000000⟩))) = 1 := by
    rw [seconds_sub_whole 3 2 (by decide) (by decide)]
    decide
  have hsub : ((⟨10000000000 * 1000000000⟩ : Time).Sub ⟨1 * 1000000000⟩)
      = 9223372036854775807 := by decide
  have hb := seconds_bounds (d := 9223372036854775807) (by decide) (by decide)
  have hdiv : Int.tdiv 9223372036854775807 1000000000 = 9223372036 := by decide
  rw [hdiv] at hb
  have hdur : ∀ now, e3.CalculateDuration now ≤ 9223372037 := by
    intro now
    rw [calculateDuration_ended e3 now (by rw [he3]; exact time_ne_zero (by decide))]
    rw [he3]
    simp only [hpause, hsub]
    rw [wrapInt64_of_range (by unfold minInt64; omega) (by unfold maxInt64; omega)]
    omega
  refine ⟨e0, r0, e1, r1, e2, r2, e3, r3, h0, h1, h2, h3, fun now => ⟨hdur now, ?_⟩⟩
  have := hdur now
  omega

/-- C3 (as amended): for an entry without end time whose status is paused,
`CalculateDuration` does not depend on the clock reading; when `PausedAt - StartTime`
is under `2 ^ 24` seconds in magnitude it is that difference in whole seconds,
truncated toward zero, minus `TotalPaused` (when this fits `int64`); and an entry
paused 45 minutes after its start with no accumulated pause reports 2700. -/
theorem C3_paused_duration_frozen (e : TimeEntry) (hEnd : e.EndTime = Time.zero)
    (hStatus : e.Status = StatusPaused) (now later : Time) :
    e.CalculateDuration now = e.CalculateDuration later
    ∧ (-16777216000000000 < e.PausedAt.ns - e.StartTime.ns →
        e.PausedAt.ns - e.StartTime.ns < 16777216000000000 →
        minInt64 ≤ Int.tdiv (e.PausedAt.ns - e.StartTime.ns) 1000000000 - e.TotalPaused →
        Int.tdiv (e.PausedAt.ns - e.StartTime.ns) 1000000000 - e.TotalPaused ≤ maxInt64 →
        e.CalculateDuration now
          = Int.tdiv (e.PausedAt.ns - e.StartTime.ns) 1000000000 - e.TotalPaused)
    ∧ (e.PausedAt.ns = e.StartTime.ns + 2700000000000 → e.TotalPaused = 0 →
        e.CalculateDuration now = 2700) := by
  have hb : ∀ t : Time, e.PausedAt = if e.EndTime ≠ Time.zero then e.EndTime
      else if e.Status = StatusPaused then e.PausedAt else t := by
    intro t
    rw [if_neg (not_not.mpr hEnd), if_pos hStatus]
  refine ⟨?_, ?_, ?_⟩
  · unfold TimeEntry.CalculateDuration
    simp only [basis_eq, ← hb]
  · intro hlo hhi hmin hmax
    rw [calculateDuration_trunc e now e.PausedAt (hb now) hlo hhi, wrapInt64_of_range hmin hmax]
  · intro hp ht
    rw [calculateDuration_trunc e now e.PausedAt (hb now) (by omega) (by omega), hp, ht]
    have : e.StartTime.ns + 2700000000000 - e.StartTime.ns = 2700000000000 := by ring
    rw [this]
    decide

/-- C3 at an entry paused 45 minutes after its start, read at two clock readings. -/
theorem C3_paused_duration_frozen_witness :
    ({ TimeEntry.zero with
        StartTime := ⟨1000000000⟩, PausedAt := ⟨2701000000000⟩,
        Status := StatusPaused } : TimeEntry).CalculateDuration ⟨2701000000000⟩
      = ({ TimeEntry.zero with
        StartTime := ⟨1000000000⟩, PausedAt := ⟨2701000000000⟩,
        Status := StatusPaused } : TimeEntry).CalculateDuration ⟨9999000000000⟩
    ∧ ({ TimeEntry.zero with
        StartTime := ⟨1000000000⟩, PausedAt := ⟨2701000000000⟩,
        Status := StatusPaused } : TimeEntry).CalculateDuration ⟨2701000000000⟩ = 2700 :=
  have h := C3_paused_duration_frozen
    { TimeEntry.zero with
      StartTime := ⟨1000000000⟩, PausedAt := ⟨2701000000000⟩, Status := StatusPaused }
    (by decide) (by decide) ⟨2701000000000⟩ ⟨9999000000000⟩
  ⟨h.1, h.2.2 (by decide) (by decide)⟩

/-- C3 (as stated) fails: a paused entry whose pause instant is half a second before its
start reports `0` at every clock reading, where the floor of the difference is `-1`. -/
theorem C3_floor_counterexample :
    (∀ now : Time, ({ TimeEntry.zero with
        StartTime := ⟨2500000000⟩, PausedAt := ⟨2000000000⟩,
        Status := StatusPaused } : TimeEntry).CalculateDuration now = 0)
    ∧ ⌊(((2000000000 - 2500000000 : Int) : ℚ) / 1000000000)⌋ - 0 = (-1 : Int) := by
  constructor
  · intro now
    rw [calculateDuration_trunc _ now ⟨2000000000⟩ (by rfl) (by decide) (by decide)]
    decide
  · rw [sub_zero, Int.floor_eq_iff]
    norm_num

/-- C4: for a user without open entry, of any sequence of `StartWork` calls the first
succeeds and stores one entry, and every later call fails with `ErrActiveEntryExists`
and leaves the repository as the first call left it. -/
theorem C4_only_first_start_succeeds (r : Repository) (u : Nat) (now : Time)
    (later : List Time) (h : GetActiveTimeEntry r u = none) :
    (∃ e, (StartWork r now u).1 = .ok e)
    ∧ (StartWork r now u).2.entries.length = r.entries.length + 1
    ∧ execAll r ((now :: later).map (Call.startWork u))
        = (none :: later.map (fun _ => some Error.ErrActiveEntryExists), (StartWork r now u).2) := by
  have hs := startWork_ok r now u h
  have hopen := getActive_append r u (r.nextID + 1)
    { TimeEntry.zero with ID := r.nextID, UserID := u, StartTime := now, Status := StatusActive }
    h rfl active_ne_completed
  refine ⟨⟨_, by rw [hs]⟩, by rw [hs]; simp, ?_⟩
  simp only [List.map_cons, execAll, Call.exec]
  rw [hs]
  simp only [errorOf, execAll_start_refused _ u _ hopen later]

/-- C4 for three `StartWork` calls of user 7 on the empty repository. -/
theorem C4_only_first_start_succeeds_witness :
    (∃ e, (StartWork (Repository.empty []) ⟨1000000000⟩ 7).1 = .ok e)
    ∧ (StartWork (Repository.empty []) ⟨1000000000⟩ 7).2.entries.length
        = (Repository.empty []).entries.length + 1
    ∧ execAll (Repository.empty [])
          (([⟨1000000000⟩, ⟨2000000000⟩, ⟨3000000000⟩] : List Time).map (Call.startWork 7))
        = (none :: ([⟨2000000000⟩, ⟨3000000000⟩] : List Time).map
            (fun _ => some Error.ErrActiveEntryExists),
          (StartWork (Repository.empty []) ⟨1000000000⟩ 7).2) :=
  C4_only_first_start_succeeds (Repository.empty []) 7 ⟨1000000000⟩
    [⟨2000000000⟩, ⟨3000000000⟩] (by decide)

/-- C5: after any finite sequence of `StartWork`, `StartWorkWithCategory`, `PauseWork`,
`ResumeWork`, `StopWork` and `DeleteTimeEntry` calls on a repository that starts without
time entries, every user has at most one stored entry whose status is not completed. -/
theorem C5_single_open_entry_invariant (categories : List Category) (calls : List Call)
    (u : Nat) :
    (((execAll (Repository.empty categories) calls).2.entries.filter
        (fun e => e.UserID == u)).filter (fun e => e.Status != StatusCompleted)).length ≤ 1 :=
  (execAll_invariant calls (Repository.empty categories)
    ⟨fun e he => absurd he (List.not_mem_nil e), List.nodup_nil⟩ (fun _ => Nat.zero_le 1)).2 u

/-- C6: for a user without open entry `StartWork` succeeds and appends exactly one entry,
owned by the user, active, started at the clock reading, with no accumulated pause and
with `EndTime` and `PausedAt` unset. -/
theorem C6_startWork_creates_active_entry (r : Repository) (u : Nat) (now : Time)
    (h : GetActiveTimeEntry r u = none) :
    ∃ e, StartWork r now u
        = (.ok e, { r with entries := r.entries ++ [e], nextID := r.nextID + 1 })
      ∧ e.UserID = u ∧ e.Status = StatusActive ∧ e.StartTime = now ∧ e.TotalPaused = 0
      ∧ e.EndTime.IsZero = true ∧ e.PausedAt.IsZero = true :=
  ⟨_, startWork_ok r now u h, rfl, rfl, rfl, rfl, rfl, rfl⟩

/-- C6 for user 7 on the empty repository. -/
theorem C6_startWork_creates_active_entry_witness :
    ∃ e, StartWork (Repository.empty []) ⟨1000000000⟩ 7
        = (.ok e, { Repository.empty [] with
            entries := (Repository.empty []).entries ++ [e],
            nextID := (Repository.empty []).nextID + 1 })
      ∧ e.UserID = 7 ∧ e.Status = StatusActive ∧ e.StartTime = ⟨1000000000⟩ ∧ e.TotalPaused = 0
      ∧ e.EndTime.IsZero = true ∧ e.PausedAt.IsZero = true :=
  C6_startWork_creates_active_entry (Repository.empty []) 7 ⟨1000000000⟩ (by decide)

/-- C7: when the user's open entry is active, `PauseWork` succeeds, returns that entry
paused at the clock reading with `TotalPaused`, `EndTime` and `ResumedAt` (and every
other field) as before, and stores it under the entry's identifier. -/
theorem C7_pauseWork_pauses_active_entry (r : Repository) (u : Nat) (now : Time)
    (e : TimeEntry) (h : GetActiveTimeEntry r u = some e) (hs : e.Status = StatusActive) :
    ∃ p, PauseWork r now u = (.ok p, r.withEntry p)
      ∧ p = { e with PausedAt := now, Status := StatusPaused }
      ∧ p.Status = StatusPaused ∧ p.PausedAt = now
      ∧ p.TotalPaused = e.TotalPaused ∧ p.EndTime = e.EndTime ∧ p.ResumedAt = e.ResumedAt
      ∧ p ∈ (r.withEntry p).entries
      ∧ (r.withEntry p).GetTimeEntryByID e.ID = .ok p
      ∧ GetActiveTimeEntry (r.withEntry p) u = some p :=
  ⟨_, pauseWork_ok r now u e h hs, rfl, rfl, rfl, rfl, rfl, rfl,
    mem_withEntry r e _ (mem_of_getActive h).1 rfl,
    getByID_update r e _ (mem_of_getActive h).1 rfl,
    getActive_update r u e _ h rfl (mem_of_getActive h).2.1 paused_ne_completed⟩

/-- C7 for user 7 right after a `StartWork`. -/
theorem C7_pauseWork_pauses_active_entry_witness :
    ∃ p, PauseWork (StartWork (Repository.empty []) ⟨1000000000⟩ 7).2 ⟨2000000000⟩ 7
        = (.ok p, (StartWork (Repository.empty []) ⟨1000000000⟩ 7).2.withEntry p)
      ∧ p = { ({ TimeEntry.zero with
                  ID := 1, UserID := 7, StartTime := ⟨1000000000⟩, Status := StatusActive }
                : TimeEntry) with PausedAt := ⟨2000000000⟩, Status := StatusPaused }
      ∧ p.Status = StatusPaused ∧ p.PausedAt = ⟨2000000000⟩
      ∧ p.TotalPaused = 0 ∧ p.EndTime = Time.zero ∧ p.ResumedAt = Time.zero
      ∧ p ∈ ((StartWork (Repository.empty []) ⟨1000000000⟩ 7).2.withEntry p).entries
      ∧ ((StartWork (Repository.empty []) ⟨1000000000⟩ 7).2.withEntry p).GetTimeEntryByID 1 = .ok p
      ∧ GetActiveTimeEntry ((StartWork (Repository.empty []) ⟨1000000000⟩ 7).2.withEntry p) 7
          = some p :=
  C7_pauseWork_pauses_active_entry (StartWork (Repository.empty []) ⟨1000000000⟩ 7).2 7
    ⟨2000000000⟩
    { TimeEntry.zero with ID := 1, UserID := 7, StartTime := ⟨1000000000⟩, Status := StatusActive }
    (by decide) (by decide)

/-- C8 (as amended): when the user's open entry is paused at instant `p` with accumulated
pause `T`, the clock reading is less than `2 ^ 24` seconds from `p`, and `T` plus the
elapsed whole seconds fits `int64`, `ResumeWork` succeeds and stores the entry with
`TotalPaused = T + (now - p in seconds, truncated toward zero)`, `ResumedAt = now`,
`PausedAt` cleared and `Status = active`. -/
theorem C8_resumeWork_folds_pause (r : Repository) (u : Nat) (now : Time) (e : TimeEntry)
    (h : GetActiveTimeEntry r u = some e) (hs : e.Status = StatusPaused)
    (hlo : -16777216000000000 < now.ns - e.PausedAt.ns)
    (hhi : now.ns - e.PausedAt.ns < 16777216000000000)
    (hmin : minInt64 ≤ e.TotalPaused + Int.tdiv (now.ns - e.PausedAt.ns) 1000000000)
    (hmax : e.TotalPaused + Int.tdiv (now.ns - e.PausedAt.ns) 1000000000 ≤ maxInt64) :
    ∃ a, ResumeWork r now u = (.ok a, r.withEntry a)
      ∧ a = { e with
          TotalPaused := e.TotalPaused + Int.tdiv (now.ns - e.PausedAt.ns) 1000000000,
          ResumedAt := now, PausedAt := Time.zero, Status := StatusActive }
      ∧ a.TotalPaused = e.TotalPaused + Int.tdiv (now.ns - e.PausedAt.ns) 1000000000
      ∧ a.ResumedAt = now ∧ a.PausedAt.IsZero = true ∧ a.Status = StatusActive
      ∧ (r.withEntry a).GetTimeEntryByID e.ID = .ok a
      ∧ GetActiveTimeEntry (r.withEntry a) u = some a := by
  have hre := resumeWork_ok r now u e h hs
  rw [seconds_sub_trunc hlo hhi, wrapInt64_of_range hmin hmax] at hre
  exact ⟨_, hre, rfl, rfl, rfl, rfl, rfl,
    getByID_update r e _ (mem_of_getActive h).1 rfl,
    getActive_update r u e _ h rfl (mem_of_getActive h).2.1 active_ne_completed⟩

/-- C8 for an entry with 30 seconds of pause, paused at second 2 and resumed at second 7.5. -/
theorem C8_resumeWork_folds_pause_witness :
    ∃ a, ResumeWork
          { entries := [{ TimeEntry.zero with
              ID := 1, UserID := 7, StartTime := ⟨1000000000⟩, PausedAt := ⟨2000000000⟩,
              TotalPaused := 30, Status := StatusPaused }],
            categories := [], nextID := 2 }
          ⟨7500000000⟩ 7
        = (.ok a, Repository.withEntry
          { entries := [{ TimeEntry.zero with
              ID := 1, UserID := 7, StartTime := ⟨1000000000⟩, PausedAt := ⟨2000000000⟩,
              TotalPaused := 30, Status := StatusPaused }],
            categories := [], nextID := 2 } a)
      ∧ a.TotalPaused = 30 + Int.tdiv (7500000000 - 2000000000) 1000000000
      ∧ a.ResumedAt = ⟨7500000000⟩ ∧ a.PausedAt.IsZero = true ∧ a.Status = StatusActive :=
  have h := C8_resumeWork_folds_pause
    { entries := [{ TimeEntry.zero with
        ID := 1, UserID := 7, StartTime := ⟨1000000000⟩, PausedAt := ⟨2000000000⟩,
        TotalPaused := 30, Status := StatusPaused }],
      categories := [], nextID := 2 }
    7 ⟨7500000000⟩
    { TimeEntry.zero with
      ID := 1, UserID := 7, StartTime := ⟨1000000000⟩, PausedAt := ⟨2000000000⟩,
      TotalPaused := 30, Status := StatusPaused }
    (by decide) (by decide) (by decide) (by decide) (by decide) (by decide)
  match h with
  | ⟨a, h1, _, h3, h4, h5, h6, _⟩ => ⟨a, h1, h3, h4, h5, h6⟩

/-- C8 (as stated) fails: for an entry paused at `1.000000001 s` and resumed at
`16777218 s` the elapsed `16777216.999999999 s` truncate to `16777216`, but the float64
value of `Seconds()` is `16777217.0`, and `ResumeWork` stores `TotalPaused = 16777217`. -/
theorem C8_float_rounding_counterexample :
    (∃ a r1, ResumeWork
          { entries := [{ TimeEntry.zero with
              ID := 1, UserID := 7, StartTime := ⟨1000000000⟩, PausedAt := ⟨1000000001⟩,
              Status := StatusPaused }],
            categories := [], nextID := 2 }
          ⟨16777218000000000⟩ 7 = (.ok a, r1)
        ∧ a.TotalPaused = 16777217)
    ∧ (0 : Int) + Int.tdiv (16777218000000000 - 1000000001) 1000000000 = 16777216 := by
  refine ⟨?_, by decide⟩
  have hre := resumeWork_ok
    { entries := [{ TimeEntry.zero with
        ID := 1, UserID := 7, StartTime := ⟨1000000000⟩, PausedAt := ⟨1000000001⟩,
        Status := StatusPaused }],
      categories := [], nextID := 2 }
    ⟨16777218000000000⟩ 7
    { TimeEntry.zero with
      ID := 1, UserID := 7, StartTime := ⟨1000000000⟩, PausedAt := ⟨1000000001⟩,
      Status := StatusPaused }
    (by decide) (by decide)
  have hsub : ((⟨16777218000000000⟩ : Time).Sub ⟨1000000001⟩) = 16777216999999999 := by decide
  refine ⟨_, _, hre, ?_⟩
  show wrapInt64 (0 + float64ToInt64 (Duration.Seconds
    ((⟨16777218000000000⟩ : Time).Sub ⟨1000000001⟩))) = 16777217
  rw [hsub, seconds_rounds_up]
  decide

/-- C9 (as amended): when the user's open entry is active, `StopWork` succeeds and stores
the entry with `EndTime = now`, `Status = completed` and `TotalPaused` unchanged; if the
entry started two hours before `now` without a pause and `now` is not Go's zero time,
its duration is 7200 at every later clock reading and `TotalPaused` is 0. -/
theorem C9_stopWork_completes_active_entry (r : Repository) (u : Nat) (now : Time)
    (e : TimeEntry) (h : GetActiveTimeEntry r u = some e) (hs : e.Status = StatusActive) :
    ∃ c, StopWork r now u = (.ok c, r.withEntry c)
      ∧ c = { e with EndTime := now, Status := StatusCompleted }
      ∧ c.EndTime = now ∧ c.Status = StatusCompleted ∧ c.TotalPaused = e.TotalPaused
      ∧ (r.withEntry c).GetTimeEntryByID e.ID = .ok c
      ∧ (now.ns = e.StartTime.ns + 7200000000000 → e.TotalPaused = 0 → now ≠ Time.zero →
          c.TotalPaused = 0 ∧ ∀ clock, c.CalculateDuration clock = 7200) := by
  have hne : e.Status ≠ StatusPaused := by rw [hs]; exact active_ne_paused
  refine ⟨_, stopWork_active_ok r now u e h hne, rfl, rfl, rfl, rfl,
    getByID_update r e _ (mem_of_getActive h).1 rfl, ?_⟩
  intro hnow hT hnz
  refine ⟨hT, fun clock => ?_⟩
  rw [calculateDuration_trunc _ clock now (by rw [if_pos hnz])
    (by simp only; omega) (by simp only; omega)]
  simp only [hnow, hT]
  have : e.StartTime.ns + 7200000000000 - e.StartTime.ns = 7200000000000 := by ring
  rw [this]
  decide

/-- C9 for an entry started at second 1 and stopped two hours later. -/
theorem C9_stopWork_completes_active_entry_witness :
    ∃ c, StopWork (StartWork (Repository.empty []) ⟨1000000000⟩ 7).2 ⟨7201000000000⟩ 7
        = (.ok c, (StartWork (Repository.empty []) ⟨1000000000⟩ 7).2.withEntry c)
      ∧ c.EndTime = ⟨7201000000000⟩ ∧ c.Status = StatusCompleted
      ∧ c.TotalPaused = 0 ∧ ∀ clock, c.CalculateDuration clock = 7200 :=
  have h := C9_stopWork_completes_active_entry
    (StartWork (Repository.empty []) ⟨1000000000⟩ 7).2 7 ⟨7201000000000⟩
    { TimeEntry.zero with ID := 1, UserID := 7, StartTime := ⟨1000000000⟩, Status := StatusActive }
    (by decide) (by decide)
  match h with
  | ⟨c, h1, _, h3, h4, _, _, h7⟩ =>
    ⟨c, h1, h3, h4, (h7 (by decide) (by decide) (by decide)).1,
      (h7 (by decide) (by decide) (by decide)).2⟩

/-- C9 (as stated) fails: an entry started two hours before Go's zero time and stopped at
the zero time is completed with an `EndTime` that reads as unset, so its duration
follows the clock: one second later it is 7201. -/
theorem C9_zero_time_counterexample :
    ∃ c r1, StopWork (StartWork (Repository.empty []) ⟨-7200000000000⟩ 7).2 ⟨0⟩ 7 = (.ok c, r1)
      ∧ c.StartTime = ⟨-7200000000000⟩ ∧ c.EndTime = ⟨0⟩ ∧ c.Status = StatusCompleted
      ∧ c.TotalPaused = 0 ∧ c.CalculateDuration ⟨1000000000⟩ = 7201 := by
  have hsp := stopWork_active_ok (StartWork (Repository.empty []) ⟨-7200000000000⟩ 7).2 ⟨0⟩ 7
    { TimeEntry.zero with
      ID := 1, UserID := 7, StartTime := ⟨-7200000000000⟩, Status := StatusActive }
    (by decide) (by decide)
  refine ⟨_, _, hsp, rfl, rfl, rfl, rfl, ?_⟩
  rw [calculateDuration_trunc _ ⟨1000000000⟩ ⟨1000000000⟩ (by decide) (by decide) (by decide)]
  decide

/-- C10: when the user's open entry is paused, `StopWork` at `now` yields the same
`TotalPaused`, cleared `PausedAt`, `EndTime` and `Status` as `ResumeWork` at `now`
followed by `StopWork` at `now`; the two resulting entries differ at most in
`ResumedAt`. -/
theorem C10_stop_paused_equals_resume_then_stop (r : Repository) (u : Nat) (now : Time)
    (e : TimeEntry) (h : GetActiveTimeEntry r u = some e) (hs : e.Status = StatusPaused) :
    ∃ a b c, StopWork r now u = (.ok a, r.withEntry a)
      ∧ ResumeWork r now u = (.ok b, r.withEntry b)
      ∧ StopWork (r.withEntry b) now u = (.ok c, (r.withEntry b).withEntry c)
      ∧ a.TotalPaused = c.TotalPaused ∧ a.TotalPaused = b.TotalPaused
      ∧ a.PausedAt = Time.zero ∧ c.PausedAt = Time.zero
      ∧ a.EndTime = now ∧ c.EndTime = now
      ∧ a.Status = StatusCompleted ∧ c.Status = StatusCompleted
      ∧ c = { a with ResumedAt := now } := by
  have hsa := stopWork_paused_ok r now u e h hs
  have hre := resumeWork_ok r now u e h hs
  have hact := getActive_update r u e
    { e with
      TotalPaused := wrapInt64 (e.TotalPaused
        + float64ToInt64 (Duration.Seconds (now.Sub e.PausedAt))),
      ResumedAt := now, PausedAt := Time.zero, Status := StatusActive }
    h rfl (mem_of_getActive h).2.1 active_ne_completed
  have hsc := stopWork_active_ok _ now u _ hact active_ne_paused
  exact ⟨_, _, _, hsa, hre, hsc, rfl, rfl, rfl, rfl, rfl, rfl, rfl, rfl, rfl⟩

/-- C10 for an entry with 30 seconds of pause, paused at second 2 and stopped at second 7.5. -/
theorem C10_stop_paused_equals_resume_then_stop_witness :
    ∃ a b c : TimeEntry, StopWork
          { entries := [{ TimeEntry.zero with
              ID := 1, UserID := 7, StartTime := ⟨1000000000⟩, PausedAt := ⟨2000000000⟩,
              TotalPaused := 30, Status := StatusPaused }],
            categories := [], nextID := 2 }
          ⟨7500000000⟩ 7
        = (.ok a, Repository.withEntry
          { entries := [{ TimeEntry.zero with
              ID := 1, UserID := 7, StartTime := ⟨1000000000⟩, PausedAt := ⟨2000000000⟩,
              TotalPaused := 30, Status := StatusPaused }],
            categories := [], nextID := 2 } a)
      ∧ a.TotalPaused = c.TotalPaused ∧ a.TotalPaused = b.TotalPaused
      ∧ a.PausedAt = Time.zero ∧ c.PausedAt = Time.zero
      ∧ a.EndTime = ⟨7500000000⟩ ∧ c.EndTime = ⟨7500000000⟩
      ∧ a.Status = StatusCompleted ∧ c.Status = StatusCompleted
      ∧ c = { a with ResumedAt := ⟨7500000000⟩ } :=
  have h := C10_stop_paused_equals_resume_then_stop
    { entries := [{ TimeEntry.zero with
        ID := 1, UserID := 7, StartTime := ⟨1000000000⟩, PausedAt := ⟨2000000000⟩,
        TotalPaused := 30, Status := StatusPaused }],
      categories := [], nextID := 2 }
    7 ⟨7500000000⟩
    { TimeEntry.zero with
      ID := 1, UserID := 7, StartTime := ⟨1000000000⟩, PausedAt := ⟨2000000000⟩,
      TotalPaused := 30, Status := StatusPaused }
    (by decide) (by decide)
  match h with
  | ⟨a, b, c, h1, _, _, h4⟩ => ⟨a, b, c, h1, h4⟩

/-- C11 (code evaluated at the failing input): after `StartWork` and `PauseWork` user 7
has one open entry, which is paused; a further `PauseWork` returns `ErrNoActiveEntry`,
not `ErrEntryAlreadyPaused`, and leaves the repository unchanged. -/
theorem C11_pauseWork_on_paused_entry :
    (∃ p, GetActiveTimeEntry
          (PauseWork (StartWork (Repository.empty []) ⟨1000000000⟩ 7).2 ⟨2000000000⟩ 7).2 7
        = some p ∧ p.Status = StatusPaused)
    ∧ (PauseWork (StartWork (Repository.empty []) ⟨1000000000⟩ 7).2 ⟨2000000000⟩ 7).2.openCount 7
        = 1
    ∧ PauseWork (PauseWork (StartWork (Repository.empty []) ⟨1000000000⟩ 7).2 ⟨2000000000⟩ 7).2
          ⟨3000000000⟩ 7
        = (.error .ErrNoActiveEntry,
            (PauseWork (StartWork (Repository.empty []) ⟨1000000000⟩ 7).2 ⟨2000000000⟩ 7).2) := by
  refine ⟨⟨_, rfl, rfl⟩, by decide, ?_⟩
  exact pauseWork_none _ _ _ (by decide)

/-- C12 (code evaluated at the failing input): after `StartWork` user 7 has one open
entry, which is active; `ResumeWork` returns `ErrNoActiveEntry`, not `ErrEntryNotPaused`,
although the user has an open entry, and leaves the repository unchanged. -/
theorem C12_resumeWork_on_active_entry :
    (∃ a, GetActiveTimeEntry (StartWork (Repository.empty []) ⟨1000000000⟩ 7).2 7 = some a
        ∧ a.Status = StatusActive)
    ∧ (StartWork (Repository.empty []) ⟨1000000000⟩ 7).2.openCount 7 = 1
    ∧ ResumeWork (StartWork (Repository.empty []) ⟨1000000000⟩ 7).2 ⟨2000000000⟩ 7
        = (.error .ErrNoActiveEntry, (StartWork (Repository.empty []) ⟨1000000000⟩ 7).2) := by
  refine ⟨⟨_, rfl, rfl⟩, by decide, ?_⟩
  exact resumeWork_none _ _ _ (by decide)

/-- C13: for a user without open entry `PauseWork`, `ResumeWork` and `StopWork` each
fail with `ErrNoActiveEntry` and return the repository unchanged; and after a successful
`StopWork` on the user's single open entry a second `StopWork` fails with
`ErrNoActiveEntry`. -/
theorem C13_nothing_open_is_refused (r : Repository) (u : Nat) (now : Time) :
    (GetActiveTimeEntry r u = none →
      PauseWork r now u = (.error .ErrNoActiveEntry, r)
      ∧ ResumeWork r now u = (.error .ErrNoActiveEntry, r)
      ∧ StopWork r now u = (.error .ErrNoActiveEntry, r))
    ∧ (∀ (c : TimeEntry) (r1 : Repository) (later : Time), r.openCount u ≤ 1 →
        StopWork r now u = (.ok c, r1) →
        GetActiveTimeEntry r1 u = none
        ∧ StopWork r1 later u = (.error .ErrNoActiveEntry, r1)) := by
  constructor
  · intro h
    have h0 := h
    unfold GetActiveTimeEntry at h0
    refine ⟨pauseWork_none r now u ?_, resumeWork_none r now u ?_, stopWork_none r now u h⟩
    · apply find_none_of_weaker _ _ _ h0
      intro x hx
      simp only [beq_iff_eq] at hx
      rw [hx]
      decide
    · apply find_none_of_weaker _ _ _ h0
      intro x hx
      simp only [beq_iff_eq] at hx
      rw [hx]
      decide
  · intro c r1 later hc hstop
    obtain ⟨e, hg, hid, _, hs, hr1⟩ := stopWork_ok_inv r r1 now u c hstop
    have hnone := getActive_none_after_complete r u e c hg hc hid hs
    rw [hr1]
    exact ⟨hnone, stopWork_none _ later u hnone⟩

/-- C13 on the empty repository, and for a stop right after user 7's `StartWork`. -/
theorem C13_nothing_open_is_refused_witness :
    (PauseWork (Repository.empty []) ⟨1000000000⟩ 7
        = (.error .ErrNoActiveEntry, Repository.empty [])
      ∧ ResumeWork (Repository.empty []) ⟨1000000000⟩ 7
        = (.error .ErrNoActiveEntry, Repository.empty [])
      ∧ StopWork (Repository.empty []) ⟨1000000000⟩ 7
        = (.error .ErrNoActiveEntry, Repository.empty []))
    ∧ StopWork (StopWork (StartWork (Repository.empty []) ⟨1000000000⟩ 7).2 ⟨2000000000⟩ 7).2
          ⟨3000000000⟩ 7
        = (.error .ErrNoActiveEntry,
            (StopWork (StartWork (Repository.empty []) ⟨1000000000⟩ 7).2 ⟨2000000000⟩ 7).2) :=
  ⟨(C13_nothing_open_is_refused (Repository.empty []) 7 ⟨1000000000⟩).1 (by decide),
    ((C13_nothing_open_is_refused (StartWork (Repository.empty []) ⟨1000000000⟩ 7).2 7
      ⟨2000000000⟩).2 _ _ ⟨3000000000⟩ (by decide) rfl).2⟩

/-- C14: when the repository returns for an identifier a time entry or a category owned
by user `a`, then `DeleteTimeEntry`, `UpdateCategory` and `DeleteCategory` called for
that identifier by another user `b` fail with their no-permission error and return the
repository unchanged, so the lookup still returns the same entity. -/
theorem C14_foreign_owner_is_refused (r : Repository) (a b : Nat) (hab : b ≠ a) :
    (∀ (id : Nat) (e : TimeEntry), r.GetTimeEntryByID id = .ok e → e.UserID = a →
      DeleteTimeEntry r id b = (some (.other "у вас нет прав на удаление этой записи"), r)
      ∧ (DeleteTimeEntry r id b).2.GetTimeEntryByID id = .ok e)
    ∧ (∀ (id : Nat) (c : Category) (now : Time) (name color : String),
      r.GetCategoryByID id = .ok c → c.UserID = a →
      UpdateCategory r now id b name color
        = (.error (.other "у пользователя нет прав на редактирование этой категории"), r)
      ∧ DeleteCategory r id b
        = (some (.other "у пользователя нет прав на удаление этой категории"), r)
      ∧ (UpdateCategory r now id b name color).2.GetCategoryByID id = .ok c
      ∧ (DeleteCategory r id b).2.GetCategoryByID id = .ok c) := by
  constructor
  · intro id e he hu
    have hne : (e.UserID != b) = true := by
      rw [hu]
      simpa using hab.symm
    have hd : DeleteTimeEntry r id b
        = (some (.other "у вас нет прав на удаление этой записи"), r) := by
      unfold DeleteTimeEntry
      rw [he]
      simp only [hne, if_true]
    rw [hd]
    exact ⟨rfl, he⟩
  · intro id c now name color hc hu
    have hne : (c.UserID != b) = true := by
      rw [hu]
      simpa using hab.symm
    have h1 : UpdateCategory r now id b name color
        = (.error (.other "у пользователя нет прав на редактирование этой категории"), r) := by
      unfold UpdateCategory
      rw [hc]
      simp only [hne, if_true]
    have h2 : DeleteCategory r id b
        = (some (.other "у пользователя нет прав на удаление этой категории"), r) := by
      unfold DeleteCategory
      rw [hc]
      simp only [hne, if_true]
    rw [h1, h2]
    exact ⟨rfl, rfl, hc, hc⟩

/-- C14 for user 2 calling on a time entry and a category of user 1. -/
theorem C14_foreign_owner_is_refused_witness :
    DeleteTimeEntry
        { entries := [{ TimeEntry.zero with ID := 1, UserID := 1, Status := StatusCompleted }],
          categories := [{ ID := 5, UserID := 1, Name := "work", Color := "#4a6bff",
                           CreatedAt := Time.zero, UpdatedAt := Time.zero }],
          nextID := 2 } 1 2
      = (some (.other "у вас нет прав на удаление этой записи"),
        { entries := [{ TimeEntry.zero with ID := 1, UserID := 1, Status := StatusCompleted }],
          categories := [{ ID := 5, UserID := 1, Name := "work", Color := "#4a6bff",
                           CreatedAt := Time.zero, UpdatedAt := Time.zero }],
          nextID := 2 })
    ∧ UpdateCategory
        { entries := [{ TimeEntry.zero with ID := 1, UserID := 1, Status := StatusCompleted }],
          categories := [{ ID := 5, UserID := 1, Name := "work", Color := "#4a6bff",
                           CreatedAt := Time.zero, UpdatedAt := Time.zero }],
          nextID := 2 } ⟨1000000000⟩ 5 2 "play" ""
      = (.error (.other "у пользователя нет прав на редактирование этой категории"),
        { entries := [{ TimeEntry.zero with ID := 1, UserID := 1, Status := StatusCompleted }],
          categories := [{ ID := 5, UserID := 1, Name := "work", Color := "#4a6bff",
                           CreatedAt := Time.zero, UpdatedAt := Time.zero }],
          nextID := 2 })
    ∧ DeleteCategory
        { entries := [{ TimeEntry.zero with ID := 1, UserID := 1, Status := StatusCompleted }],
          categories := [{ ID := 5, UserID := 1, Name := "work", Color := "#4a6bff",
                           CreatedAt := Time.zero, UpdatedAt := Time.zero }],
          nextID := 2 } 5 2
      = (some (.other "у пользователя нет прав на удаление этой категории"),
        { entries := [{ TimeEntry.zero with ID := 1, UserID := 1, Status := StatusCompleted }],
          categories := [{ ID := 5, UserID := 1, Name := "work", Color := "#4a6bff",
                           CreatedAt := Time.zero, UpdatedAt := Time.zero }],
          nextID := 2 }) :=
  have h := C14_foreign_owner_is_refused
    { entries := [{ TimeEntry.zero with ID := 1, UserID := 1, Status := StatusCompleted }],
      categories := [{ ID := 5, UserID := 1, Name := "work", Color := "#4a6bff",
                       CreatedAt := Time.zero, UpdatedAt := Time.zero }],
      nextID := 2 } 1 2 (by decide)
  ⟨(h.1 1 { TimeEntry.zero with ID := 1, UserID := 1, Status := StatusCompleted } rfl rfl).1,
    (h.2 5 { ID := 5, UserID := 1, Name := "work", Color := "#4a6bff",
             CreatedAt := Time.zero, UpdatedAt := Time.zero } ⟨1000000000⟩ "play" "" rfl rfl).1,
    (h.2 5 { ID := 5, UserID := 1, Name := "work", Color := "#4a6bff",
             CreatedAt := Time.zero, UpdatedAt := Time.zero } ⟨1000000000⟩ "play" "" rfl rfl).2.1⟩

/-- C15 (amended): when the period query returns a non-empty list whose durations, in
absolute value, sum to at most the largest `int64`, `GetUserStats` returns `TotalDuration`
equal to the sum of `CalculateDuration` over all entries; the keys of `DailyStats` are
distinct and are exactly the days on which some entry's `StartTime` falls; and each day
is mapped to the sum of `CalculateDuration` over the entries starting that day. -/
theorem C15_totals_are_sums_of_durations (formatDate : Time → String) (clock : Nat → Time)
    (repo : StatsRepository) (userID : Nat) (startDate endDate : String) (es : List TimeEntry)
    (hes : repo.GetUserStatsByPeriod userID startDate endDate = es) (hne : es ≠ [])
    (hfit : ((Statistics.observations formatDate clock es 0).map (fun p => |p.2|)).sum
      ≤ maxInt64) :
    (Statistics.GetUserStats formatDate clock repo userID startDate endDate).TotalDuration
        = ((Statistics.observations formatDate clock es 0).map Prod.snd).sum
    ∧ ((Statistics.GetUserStats formatDate clock repo userID startDate endDate).DailyStats.map
        Prod.fst).Nodup
    ∧ (∀ k, k ∈ (Statistics.GetUserStats formatDate clock repo userID startDate
          endDate).DailyStats.map Prod.fst
        ↔ ∃ e ∈ es, formatDate e.StartTime = k)
    ∧ (∀ k, mapGet (Statistics.GetUserStats formatDate clock repo userID startDate
          endDate).DailyStats k
        = (((Statistics.observations formatDate clock es 0).filter
            (fun p => p.1 == k)).map Prod.snd).sum) := by
  obtain ⟨h1, h2, _⟩ := getUserStats_fields formatDate clock repo userID startDate endDate es
    hes hne
  rw [h1, h2]
  have hz : TimeStats.zero.TotalDuration = 0 := rfl
  have hd : TimeStats.zero.DailyStats = [] := rfl
  refine ⟨?_, ?_, ?_, ?_⟩
  · rw [processEntries_total formatDate clock es 0 TimeStats.zero (by
      rw [hz, abs_zero, zero_add]
      exact hfit), hz, zero_add]
  · exact (processEntries_keys formatDate clock es 0 TimeStats.zero).2 (by
      rw [hd]
      exact List.nodup_nil)
  · intro k
    rw [(processEntries_keys formatDate clock es 0 TimeStats.zero).1 k, hd]
    simp
  · intro k
    have hg : ∀ j, mapGet TimeStats.zero.DailyStats j = 0 := fun _ => rfl
    rw [processEntries_daily formatDate clock es 0 TimeStats.zero (by
      intro j
      rw [hg j, abs_zero, zero_add]
      exact hfit) k, hg k, zero_add]

/-- C15, example: on the three entries of `TestGetUserStats_CustomPeriod` (2 h, 4 h and
8 h with 1 h paused, on three distinct days) the total is 46800 seconds and `DailyStats`
has 3 keys. -/
theorem C15_totals_are_sums_of_durations_witness :
    (Statistics.GetUserStats customPeriodDay (fun _ => ⟨0⟩)
        (MockRepository customPeriodEntries none) 1 "2025-01-01" "2025-03-31").TotalDuration
      = 46800
    ∧ (Statistics.GetUserStats customPeriodDay (fun _ => ⟨0⟩)
        (MockRepository customPeriodEntries none) 1 "2025-01-01"
        "2025-03-31").DailyStats.length = 3
    ∧ mapGet (Statistics.GetUserStats customPeriodDay (fun _ => ⟨0⟩)
        (MockRepository customPeriodEntries none) 1 "2025-01-01" "2025-03-31").DailyStats
        "2025-03-05" = 25200 := by
  have h := C15_totals_are_sums_of_durations customPeriodDay (fun _ => ⟨0⟩)
    (MockRepository customPeriodEntries none) 1 "2025-01-01" "2025-03-31" customPeriodEntries
    rfl customPeriodEntries_ne_nil (by
      rw [customPeriod_observations]
      decide)
  rw [customPeriod_observations] at h
  refine ⟨h.1.trans (by decide), ?_, (h.2.2.2 "2025-03-05").trans (by decide)⟩
  rw [(customPeriod_stats _ _ _ _ _).2.1]
  rfl

/-- C15 (as stated) fails: for two completed entries of duration `2 ^ 62` seconds each
(`EndTime` equal to `StartTime`, `TotalPaused = -2 ^ 62`) the sum of the durations is
`2 ^ 63`, and `TotalDuration` is the wrapped `int64` value `-2 ^ 63`. -/
theorem C15_int64_overflow_counterexample :
    ((Statistics.observations customPeriodDay (fun _ => ⟨0⟩)
        [{ TimeEntry.zero with
            ID := 1, UserID := 1, StartTime := ⟨63872532000000000000⟩,
            EndTime := ⟨63872532000000000000⟩, Status := "completed",
            TotalPaused := -4611686018427387904 },
         { TimeEntry.zero with
            ID := 2, UserID := 1, StartTime := ⟨63874792800000000000⟩,
            EndTime := ⟨63874792800000000000⟩, Status := "completed",
            TotalPaused := -4611686018427387904 }] 0).map Prod.snd).sum
      = 9223372036854775808
    ∧ (Statistics.GetUserStats customPeriodDay (fun _ => ⟨0⟩)
        (MockRepository
          [{ TimeEntry.zero with
              ID := 1, UserID := 1, StartTime := ⟨63872532000000000000⟩,
              EndTime := ⟨63872532000000000000⟩, Status := "completed",
              TotalPaused := -4611686018427387904 },
           { TimeEntry.zero with
              ID := 2, UserID := 1, StartTime := ⟨63874792800000000000⟩,
              EndTime := ⟨63874792800000000000⟩, Status := "completed",
              TotalPaused := -4611686018427387904 }] none)
        1 "2025-01-01" "2025-03-31").TotalDuration
      = -9223372036854775808 := by
  have h1 : ∀ now, TimeEntry.CalculateDuration { TimeEntry.zero with
      ID := 1, UserID := 1, StartTime := ⟨63872532000000000000⟩,
      EndTime := ⟨63872532000000000000⟩, Status := "completed",
      TotalPaused := -4611686018427387904 } now = 4611686018427387904 := by
    intro now
    rw [calculateDuration_ended_trunc _ now (by decide) (by decide) (by decide)]
    decide
  have h2 : ∀ now, TimeEntry.CalculateDuration { TimeEntry.zero with
      ID := 2, UserID := 1, StartTime := ⟨63874792800000000000⟩,
      EndTime := ⟨63874792800000000000⟩, Status := "completed",
      TotalPaused := -4611686018427387904 } now = 4611686018427387904 := by
    intro now
    rw [calculateDuration_ended_trunc _ now (by decide) (by decide) (by decide)]
    decide
  constructor
  · simp only [Statistics.observations, h1, h2]
    decide
  · rw [(getUserStats_fields _ _ _ _ _ _ _ rfl (List.cons_ne_nil _ _)).1]
    simp only [Statistics.processEntries, addEntry_eq, h1, h2]
    decide

/-- C16 (amended): for a non-empty list of entries, when some entry has a positive
duration `GetUserStats` returns `LongestSession` equal to the maximum of
`CalculateDuration` over the entries and `LongestSessionDate` equal to the day of the
first entry in input order that attains it (every earlier entry is strictly shorter, no
later entry is longer); when no entry has a positive duration it returns
`LongestSession = 0` and the empty `LongestSessionDate`. -/
theorem C16_longest_session_is_first_maximum (formatDate : Time → String) (clock : Nat → Time)
    (repo : StatsRepository) (userID : Nat) (startDate endDate : String) (es : List TimeEntry)
    (hes : repo.GetUserStatsByPeriod userID startDate endDate = es) (hne : es ≠ []) :
    ((∃ p ∈ Statistics.observations formatDate clock es 0, 0 < p.2) →
      ∃ pre p post, Statistics.observations formatDate clock es 0 = pre ++ p :: post
        ∧ (∀ q ∈ pre, q.2 < p.2) ∧ (∀ q ∈ post, q.2 ≤ p.2)
        ∧ (Statistics.GetUserStats formatDate clock repo userID startDate
            endDate).LongestSession = p.2
        ∧ (Statistics.GetUserStats formatDate clock repo userID startDate
            endDate).LongestSessionDate = p.1)
    ∧ ((∀ p ∈ Statistics.observations formatDate clock es 0, p.2 ≤ 0) →
        (Statistics.GetUserStats formatDate clock repo userID startDate
            endDate).LongestSession = 0
        ∧ (Statistics.GetUserStats formatDate clock repo userID startDate
            endDate).LongestSessionDate = "") := by
  obtain ⟨_, _, h3, h4, _⟩ := getUserStats_fields formatDate clock repo userID startDate
    endDate es hes hne
  rw [h3, h4]
  obtain ⟨l1, l2⟩ := processEntries_longest formatDate clock es 0 TimeStats.zero
  constructor
  · intro hex
    obtain ⟨pre, p, post, hobs, hpre, _, hpost, hls, hld⟩ := l2 hex
    exact ⟨pre, p, post, hobs, hpre, hpost, hls, hld⟩
  · intro hall
    exact l1 hall

/-- C16, example: on the three entries of `TestGetUserStats_CustomPeriod` some duration
is positive, and the longest session is the 25200 seconds of 5 March 2025. -/
theorem C16_longest_session_is_first_maximum_witness :
    (∃ p ∈ Statistics.observations customPeriodDay (fun _ => ⟨0⟩) customPeriodEntries 0,
      0 < p.2)
    ∧ (∃ pre p post,
        Statistics.observations customPeriodDay (fun _ => ⟨0⟩) customPeriodEntries 0
          = pre ++ p :: post
        ∧ (∀ q ∈ pre, q.2 < p.2) ∧ (∀ q ∈ post, q.2 ≤ p.2)
        ∧ (Statistics.GetUserStats customPeriodDay (fun _ => ⟨0⟩)
            (MockRepository customPeriodEntries none) 1 "2025-01-01"
            "2025-03-31").LongestSession = p.2
        ∧ (Statistics.GetUserStats customPeriodDay (fun _ => ⟨0⟩)
            (MockRepository customPeriodEntries none) 1 "2025-01-01"
            "2025-03-31").LongestSessionDate = p.1)
    ∧ (Statistics.GetUserStats customPeriodDay (fun _ => ⟨0⟩)
        (MockRepository customPeriodEntries none) 1 "2025-01-01" "2025-03-31").LongestSession
      = 25200
    ∧ (Statistics.GetUserStats customPeriodDay (fun _ => ⟨0⟩)
        (MockRepository customPeriodEntries none) 1 "2025-01-01"
        "2025-03-31").LongestSessionDate = "2025-03-05" :=
  have hex : ∃ p ∈ Statistics.observations customPeriodDay (fun _ => ⟨0⟩)
      customPeriodEntries 0, 0 < p.2 := by
    rw [customPeriod_observations]
    exact ⟨_, List.mem_cons_self _ _, by decide⟩
  ⟨hex,
    (C16_longest_session_is_first_maximum customPeriodDay (fun _ => ⟨0⟩)
      (MockRepository customPeriodEntries none) 1 "2025-01-01" "2025-03-31"
      customPeriodEntries rfl customPeriodEntries_ne_nil).1 hex,
    (customPeriod_stats _ _ _ _ _).2.2.1, (customPeriod_stats _ _ _ _ _).2.2.2⟩

/-- C16 (as stated) fails: for a single completed entry of duration `0` (stopped within
the second it started, on 15 January 2025) the maximum `0` is attained by that entry, yet
`LongestSessionDate` is the empty string, not the entry's day. -/
theorem C16_zero_duration_counterexample :
    Statistics.observations customPeriodDay (fun _ => ⟨0⟩)
        [{ TimeEntry.zero with
            ID := 1, UserID := 1, StartTime := ⟨63872532000000000000⟩,
            EndTime := ⟨63872532000000000000⟩, Status := "completed", TotalPaused := 0 }] 0
      = [("2025-01-15", 0)]
    ∧ (Statistics.GetUserStats customPeriodDay (fun _ => ⟨0⟩)
        (MockRepository
          [{ TimeEntry.zero with
              ID := 1, UserID := 1, StartTime := ⟨63872532000000000000⟩,
              EndTime := ⟨63872532000000000000⟩, Status := "completed", TotalPaused := 0 }]
          none)
        1 "2025-01-01" "2025-03-31").LongestSession = 0
    ∧ (Statistics.GetUserStats customPeriodDay (fun _ => ⟨0⟩)
        (MockRepository
          [{ TimeEntry.zero with
              ID := 1, UserID := 1, StartTime := ⟨63872532000000000000⟩,
              EndTime := ⟨63872532000000000000⟩, Status := "completed", TotalPaused := 0 }]
          none)
        1 "2025-01-01" "2025-03-31").LongestSessionDate = "" := by
  have h1 : ∀ now, TimeEntry.CalculateDuration { TimeEntry.zero with
      ID := 1, UserID := 1, StartTime := ⟨63872532000000000000⟩,
      EndTime := ⟨63872532000000000000⟩, Status := "completed", TotalPaused := 0 } now = 0 := by
    intro now
    rw [calculateDuration_ended_trunc _ now (by decide) (by decide) (by decide)]
    decide
  obtain ⟨_, _, f3, f4, _⟩ := getUserStats_fields customPeriodDay (fun _ => ⟨0⟩)
    (MockRepository
      [{ TimeEntry.zero with
          ID := 1, UserID := 1, StartTime := ⟨63872532000000000000⟩,
          EndTime := ⟨63872532000000000000⟩, Status := "completed", TotalPaused := 0 }] none)
    1 "2025-01-01" "2025-03-31" _ rfl (List.cons_ne_nil _ _)
  rw [f3, f4]
  simp only [Statistics.observations, Statistics.processEntries, addEntry_eq, h1]
  refine ⟨by decide, by decide, by decide⟩

/-- C17: with the period query of the store (`status = 'completed'` in its condition),
every entry in `Entries` is a completed stored entry of the user, and `Entries`,
`TotalDuration`, `DailyStats`, `LongestSession`, `LongestSessionDate` and
`AverageDailyHours` are those of the store with every non-completed entry removed,
whatever the start times of the removed entries. -/
theorem C17_statistics_exclude_open_entries (inRange : Time → String → String → Bool)
    (formatDate : Time → String) (clock : Nat → Time) (r : Repository) (userID : Nat)
    (startDate endDate : String) :
    (∀ x ∈ (Statistics.GetUserStats formatDate clock (r.statsRepository inRange) userID
          startDate endDate).Entries,
        x.Status = StatusCompleted ∧ x.UserID = userID
          ∧ ∃ e ∈ r.entries, e.Status = StatusCompleted ∧ e.ID = x.ID
              ∧ e.StartTime = x.StartTime)
    ∧ (Statistics.GetUserStats formatDate clock (r.statsRepository inRange) userID startDate
          endDate).Entries
        = (Statistics.GetUserStats formatDate clock
            (Repository.statsRepository inRange
              { r with entries := r.entries.filter (fun e => e.Status == StatusCompleted) })
            userID startDate endDate).Entries
    ∧ (Statistics.GetUserStats formatDate clock (r.statsRepository inRange) userID startDate
          endDate).TotalDuration
        = (Statistics.GetUserStats formatDate clock
            (Repository.statsRepository inRange
              { r with entries := r.entries.filter (fun e => e.Status == StatusCompleted) })
            userID startDate endDate).TotalDuration
    ∧ (Statistics.GetUserStats formatDate clock (r.statsRepository inRange) userID startDate
          endDate).DailyStats
        = (Statistics.GetUserStats formatDate clock
            (Repository.statsRepository inRange
              { r with entries := r.entries.filter (fun e => e.Status == StatusCompleted) })
            userID startDate endDate).DailyStats
    ∧ (Statistics.GetUserStats formatDate clock (r.statsRepository inRange) userID startDate
          endDate).LongestSession
        = (Statistics.GetUserStats formatDate clock
            (Repository.statsRepository inRange
              { r with entries := r.entries.filter (fun e => e.Status == StatusCompleted) })
            userID startDate endDate).LongestSession
    ∧ (Statistics.GetUserStats formatDate clock (r.statsRepository inRange) userID startDate
          endDate).LongestSessionDate
        = (Statistics.GetUserStats formatDate clock
            (Repository.statsRepository inRange
              { r with entries := r.entries.filter (fun e => e.Status == StatusCompleted) })
            userID startDate endDate).LongestSessionDate
    ∧ (Statistics.GetUserStats formatDate clock (r.statsRepository inRange) userID startDate
          endDate).AverageDailyHours
        = (Statistics.GetUserStats formatDate clock
            (Repository.statsRepository inRange
              { r with entries := r.entries.filter (fun e => e.Status == StatusCompleted) })
            userID startDate endDate).AverageDailyHours := by
  have hq : (Repository.statsRepository inRange
        { r with entries := r.entries.filter (fun e => e.Status == StatusCompleted) }
        ).GetUserStatsByPeriod userID startDate endDate
      = r.GetUserStatsByPeriod inRange userID startDate endDate :=
    getUserStatsByPeriod_filter inRange r userID startDate endDate
  have hr : (r.statsRepository inRange).GetUserStatsByPeriod userID startDate endDate
      = r.GetUserStatsByPeriod inRange userID startDate endDate := rfl
  by_cases hne : r.GetUserStatsByPeriod inRange userID startDate endDate = []
  · rw [getUserStats_empty _ _ _ _ _ _ (hr.trans hne),
      getUserStats_empty _ _ _ _ _ _ (hq.trans hne)]
    refine ⟨?_, rfl, rfl, rfl, rfl, rfl, rfl⟩
    intro x hx
    exact absurd hx (List.not_mem_nil x)
  · obtain ⟨a1, a2, a3, a4, a5, _, a7⟩ := getUserStats_fields formatDate clock
      (r.statsRepository inRange) userID startDate endDate _ hr hne
    obtain ⟨b1, b2, b3, b4, b5, _, b7⟩ := getUserStats_fields formatDate clock
      (Repository.statsRepository inRange
        { r with entries := r.entries.filter (fun e => e.Status == StatusCompleted) })
      userID startDate endDate _ hq hne
    rw [a1, a2, a3, a4, a5, a7, b1, b2, b3, b4, b5, b7]
    refine ⟨?_, rfl, rfl, rfl, rfl, rfl, rfl⟩
    intro x hx
    exact getUserStatsByPeriod_mem inRange r userID startDate endDate x hx

/-- C17, example: a store holding one completed hour (10:00-11:00) and one entry active
since 12:00 of user 7, both on 15 January 2025 and inside the range; `Entries` holds one
entry, the completed one, and `TotalDuration` is that of the store without the active
entry. -/
theorem C17_statistics_exclude_open_entries_witness :
    (Statistics.GetUserStats (fun _ => "2025-01-15") (fun _ => ⟨63872542800000000000⟩)
        (Repository.statsRepository (fun _ _ _ => true)
          { entries :=
              [{ TimeEntry.zero with
                  ID := 1, UserID := 7, StartTime := ⟨63872532000000000000⟩,
                  EndTime := ⟨63872535600000000000⟩, Status := StatusCompleted },
               { TimeEntry.zero with
                  ID := 2, UserID := 7, StartTime := ⟨63872539200000000000⟩,
                  Status := StatusActive }],
            categories := [], nextID := 3 })
        7 "2025-01-01" "2025-03-31").Entries.map TimeEntry.ID = [1]
    ∧ (Statistics.GetUserStats (fun _ => "2025-01-15") (fun _ => ⟨63872542800000000000⟩)
        (Repository.statsRepository (fun _ _ _ => true)
          { entries :=
              [{ TimeEntry.zero with
                  ID := 1, UserID := 7, StartTime := ⟨63872532000000000000⟩,
                  EndTime := ⟨63872535600000000000⟩, Status := StatusCompleted },
               { TimeEntry.zero with
                  ID := 2, UserID := 7, StartTime := ⟨63872539200000000000⟩,
                  Status := StatusActive }],
            categories := [], nextID := 3 })
        7 "2025-01-01" "2025-03-31").TotalDuration
      = (Statistics.GetUserStats (fun _ => "2025-01-15") (fun _ => ⟨63872542800000000000⟩)
        (Repository.statsRepository (fun _ _ _ => true)
          { entries :=
              [{ TimeEntry.zero with
                  ID := 1, UserID := 7, StartTime := ⟨63872532000000000000⟩,
                  EndTime := ⟨63872535600000000000⟩, Status := StatusCompleted }],
            categories := [], nextID := 3 })
        7 "2025-01-01" "2025-03-31").TotalDuration := by
  have h := C17_statistics_exclude_open_entries (fun _ _ _ => true) (fun _ => "2025-01-15")
    (fun _ => ⟨63872542800000000000⟩)
    { entries :=
        [{ TimeEntry.zero with
            ID := 1, UserID := 7, StartTime := ⟨63872532000000000000⟩,
            EndTime := ⟨63872535600000000000⟩, Status := StatusCompleted },
         { TimeEntry.zero with
            ID := 2, UserID := 7, StartTime := ⟨63872539200000000000⟩,
            Status := StatusActive }],
      categories := [], nextID := 3 }
    7 "2025-01-01" "2025-03-31"
  refine ⟨?_, h.2.2.1⟩
  rw [(getUserStats_fields _ _ _ _ _ _ _ rfl (by decide)).2.2.2.2.1]
  decide

/-- C18 (amended): for an empty list `AverageDailyHours` is `0`; for a non-empty list it
is the `float64` quotient `(float64(TotalDuration) / 3600) / float64(len(DailyStats))`,
and when `TotalDuration` and the number of days are below `2 ^ 53` in absolute value,
`AverageDailyHours * 3600 * (number of DailyStats keys)` differs from `TotalDuration` by
at most `|TotalDuration| / 2 ^ 51`. -/
theorem C18_average_daily_hours_is_rounded (formatDate : Time → String) (clock : Nat → Time)
    (repo : StatsRepository) (userID : Nat) (startDate endDate : String) :
    (repo.GetUserStatsByPeriod userID startDate endDate = [] →
      (Statistics.GetUserStats formatDate clock repo userID startDate
        endDate).AverageDailyHours = 0)
    ∧ (repo.GetUserStatsByPeriod userID startDate endDate ≠ [] →
      (Statistics.GetUserStats formatDate clock repo userID startDate
          endDate).AverageDailyHours
        = float64Div
            (float64Div
              (float64OfInt (Statistics.GetUserStats formatDate clock repo userID startDate
                endDate).TotalDuration) 3600)
            (float64OfInt ((Statistics.GetUserStats formatDate clock repo userID startDate
                endDate).DailyStats.length : Nat))
      ∧ (|(Statistics.GetUserStats formatDate clock repo userID startDate
            endDate).TotalDuration| < 2 ^ 53 →
          (Statistics.GetUserStats formatDate clock repo userID startDate
            endDate).DailyStats.length < 2 ^ 53 →
          |(Statistics.GetUserStats formatDate clock repo userID startDate
              endDate).AverageDailyHours * 3600
              * ((Statistics.GetUserStats formatDate clock repo userID startDate
                  endDate).DailyStats.length : ℚ)
            - ((Statistics.GetUserStats formatDate clock repo userID startDate
                  endDate).TotalDuration : ℚ)|
            ≤ |((Statistics.GetUserStats formatDate clock repo userID startDate
                  endDate).TotalDuration : ℚ)| / 2 ^ 51)) := by
  constructor
  · intro he
    rw [getUserStats_empty _ _ _ _ _ _ he]
    rfl
  · intro hne
    obtain ⟨a1, a2, _, _, _, _, a7⟩ := getUserStats_fields formatDate clock repo userID
      startDate endDate _ rfl hne
    rw [a1, a2, a7]
    refine ⟨rfl, ?_⟩
    intro hT hn
    have hpos : 0 < (Statistics.processEntries formatDate clock
        (repo.GetUserStatsByPeriod userID startDate endDate) 0 TimeStats.zero).DailyStats.length :=
      List.length_pos.mpr (processEntries_dailyStats_ne_nil _ _ _ 0 _ (Or.inl hne))
    generalize (Statistics.processEntries formatDate clock
        (repo.GetUserStatsByPeriod userID startDate endDate) 0 TimeStats.zero).DailyStats.length
      = n at hn hpos ⊢
    generalize (Statistics.processEntries formatDate clock
        (repo.GetUserStatsByPeriod userID startDate endDate) 0 TimeStats.zero).TotalDuration
      = t at hT ⊢
    unfold float64Div float64OfInt
    rw [roundFloat64_intCast hT, roundFloat64_intCast (n := (n : ℤ)) (by
      rw [abs_of_nonneg (by positivity)]
      exact_mod_cast hn)]
    have := average_rel_err (t : ℚ) (n : ℚ) (by exact_mod_cast hpos)
    simpa using this

/-- C18, example: for an empty list the average is `0`; on the three entries of
`TestGetUserStats_CustomPeriod` (46800 seconds on 3 days) the average is within
`2 ^ -51` of the exact quotient. -/
theorem C18_average_daily_hours_is_rounded_witness :
    (Statistics.GetUserStats customPeriodDay (fun _ => ⟨0⟩) (MockRepository [] none) 1
        "2025-01-01" "2025-03-31").AverageDailyHours = 0
    ∧ |(Statistics.GetUserStats customPeriodDay (fun _ => ⟨0⟩)
          (MockRepository customPeriodEntries none) 1 "2025-01-01"
          "2025-03-31").AverageDailyHours * 3600
          * ((Statistics.GetUserStats customPeriodDay (fun _ => ⟨0⟩)
              (MockRepository customPeriodEntries none) 1 "2025-01-01"
              "2025-03-31").DailyStats.length : ℚ)
        - ((Statistics.GetUserStats customPeriodDay (fun _ => ⟨0⟩)
              (MockRepository customPeriodEntries none) 1 "2025-01-01"
              "2025-03-31").TotalDuration : ℚ)|
      ≤ |((Statistics.GetUserStats customPeriodDay (fun _ => ⟨0⟩)
              (MockRepository customPeriodEntries none) 1 "2025-01-01"
              "2025-03-31").TotalDuration : ℚ)| / 2 ^ 51 :=
  ⟨(C18_average_daily_hours_is_rounded customPeriodDay (fun _ => ⟨0⟩)
      (MockRepository [] none) 1 "2025-01-01" "2025-03-31").1 rfl,
    ((C18_average_daily_hours_is_rounded customPeriodDay (fun _ => ⟨0⟩)
      (MockRepository customPeriodEntries none) 1 "2025-01-01" "2025-03-31").2
      customPeriodEntries_ne_nil).2
      (by rw [(customPeriod_stats _ _ _ _ _).1]; norm_num)
      (by rw [(customPeriod_stats _ _ _ _ _).2.1]; norm_num)⟩

/-- C18 (as stated) fails: on the three entries of `TestGetUserStats_CustomPeriod` the
total is 46800 seconds on 3 days, the exact average `13 / 3` hours is not a `float64`,
and `AverageDailyHours * 3600 * 3` is not `46800`. -/
theorem C18_thirteen_thirds_counterexample :
    (Statistics.GetUserStats customPeriodDay (fun _ => ⟨0⟩)
        (MockRepository customPeriodEntries none) 1 "2025-01-01" "2025-03-31").TotalDuration
      = 46800
    ∧ (Statistics.GetUserStats customPeriodDay (fun _ => ⟨0⟩)
        (MockRepository customPeriodEntries none) 1 "2025-01-01"
        "2025-03-31").DailyStats.length = 3
    ∧ (Statistics.GetUserStats customPeriodDay (fun _ => ⟨0⟩)
        (MockRepository customPeriodEntries none) 1 "2025-01-01"
        "2025-03-31").AverageDailyHours * 3600 * 3 ≠ 46800 := by
  refine ⟨(customPeriod_stats _ _ _ _ _).1, ?_, ?_⟩
  · rw [(customPeriod_stats _ _ _ _ _).2.1]
    rfl
  · rw [(getUserStats_fields customPeriodDay (fun _ => ⟨0⟩)
      (MockRepository customPeriodEntries none) 1 "2025-01-01" "2025-03-31"
      customPeriodEntries rfl customPeriodEntries_ne_nil).2.2.2.2.2.2]
    unfold float64Div
    obtain ⟨m, k, hmk⟩ := roundFloat64_dyadic
      (roundFloat64
          (float64OfInt (Statistics.processEntries customPeriodDay (fun _ => ⟨0⟩)
            customPeriodEntries 0 TimeStats.zero).TotalDuration / 3600)
        / float64OfInt ((Statistics.processEntries customPeriodDay (fun _ => ⟨0⟩)
            customPeriodEntries 0 TimeStats.zero).DailyStats.length : Nat))
    intro h
    apply dyadic_mul_three_ne m k
    rw [hmk] at h
    linarith

/-- C19 (as amended): for an entry with `EndTime` set, `EndTime - StartTime` under
`2 ^ 24` seconds in magnitude and a result that fits `int64`, `CalculateDuration` is the
whole seconds of `EndTime - StartTime`, truncated toward zero, minus `TotalPaused`,
without clamping: it is strictly negative when `TotalPaused` exceeds those whole
seconds, and when `EndTime` precedes `StartTime` by a second or more and `TotalPaused`
is not negative. -/
theorem C19_duration_is_not_clamped (e : TimeEntry) (now : Time) (hend : e.EndTime ≠ Time.zero)
    (hlo : -16777216000000000 < e.EndTime.ns - e.StartTime.ns)
    (hhi : e.EndTime.ns - e.StartTime.ns < 16777216000000000)
    (hmin : minInt64 ≤ Int.tdiv (e.EndTime.ns - e.StartTime.ns) 1000000000 - e.TotalPaused)
    (hmax : Int.tdiv (e.EndTime.ns - e.StartTime.ns) 1000000000 - e.TotalPaused ≤ maxInt64) :
    e.CalculateDuration now
      = Int.tdiv (e.EndTime.ns - e.StartTime.ns) 1000000000 - e.TotalPaused
    ∧ (Int.tdiv (e.EndTime.ns - e.StartTime.ns) 1000000000 < e.TotalPaused →
        e.CalculateDuration now < 0)
    ∧ (e.EndTime.ns + 1000000000 ≤ e.StartTime.ns → 0 ≤ e.TotalPaused →
        e.CalculateDuration now < 0) := by
  have h : e.CalculateDuration now
      = Int.tdiv (e.EndTime.ns - e.StartTime.ns) 1000000000 - e.TotalPaused := by
    rw [calculateDuration_trunc e now e.EndTime (by rw [if_pos hend]) hlo hhi,
      wrapInt64_of_range hmin hmax]
  refine ⟨h, ?_, ?_⟩
  · intro hlt
    rw [h]
    omega
  · intro hprec hT
    rw [h]
    have := tdiv_le_neg_one (d := e.EndTime.ns - e.StartTime.ns) (by omega)
    omega

/-- C19 at an entry that ended three seconds before it started, with ten seconds of
pause: the duration is -13. -/
theorem C19_duration_is_not_clamped_witness :
    ({ TimeEntry.zero with
        StartTime := ⟨8000000000⟩, EndTime := ⟨5000000000⟩, TotalPaused := 10,
        Status := StatusCompleted } : TimeEntry).CalculateDuration ⟨0⟩
      = Int.tdiv (5000000000 - 8000000000) 1000000000 - 10
    ∧ ({ TimeEntry.zero with
        StartTime := ⟨8000000000⟩, EndTime := ⟨5000000000⟩, TotalPaused := 10,
        Status := StatusCompleted } : TimeEntry).CalculateDuration ⟨0⟩ < 0 :=
  have h := C19_duration_is_not_clamped
    { TimeEntry.zero with
      StartTime := ⟨8000000000⟩, EndTime := ⟨5000000000⟩, TotalPaused := 10,
      Status := StatusCompleted }
    ⟨0⟩ (by decide) (by decide) (by decide) (by decide) (by decide)
  ⟨h.1, h.2.2 (by decide) (by decide)⟩

/-- C19 (as stated) fails: an entry whose `EndTime` is a quarter of a second before its
`StartTime`, with no pause, has duration `0`, not a strictly negative value. -/
theorem C19_subsecond_counterexample :
    ({ TimeEntry.zero with
        StartTime := ⟨10250000000⟩, EndTime := ⟨10000000000⟩,
        Status := StatusCompleted } : TimeEntry).EndTime.ns
      < ({ TimeEntry.zero with
        StartTime := ⟨10250000000⟩, EndTime := ⟨10000000000⟩,
        Status := StatusCompleted } : TimeEntry).StartTime.ns
    ∧ ({ TimeEntry.zero with
        StartTime := ⟨10250000000⟩, EndTime := ⟨10000000000⟩,
        Status := StatusCompleted } : TimeEntry).CalculateDuration ⟨0⟩ = 0 := by
  refine ⟨by decide, ?_⟩
  rw [calculateDuration_trunc _ ⟨0⟩ ⟨10000000000⟩ (by decide) (by decide) (by decide)]
  decide

/-- C20 (as amended): in a well-formed repository where every paused entry was paused
at or before the clock reading and has a `TotalPaused` within `int64` to which the
elapsed whole seconds can be added without overflow, each of `StartWork`, `PauseWork`,
`ResumeWork` and `StopWork` keeps every stored entry (by identifier) and leaves its
`TotalPaused` greater than or equal to the one before. -/
theorem C20_totalPaused_does_not_decrease (r : Repository) (now : Time) (u : Nat)
    (hwf : r.WF)
    (hpaused : ∀ x ∈ r.entries, x.Status = StatusPaused →
      x.PausedAt.ns ≤ now.ns ∧ minInt64 ≤ x.TotalPaused
      ∧ x.TotalPaused + float64ToInt64 (Duration.Seconds (now.Sub x.PausedAt)) ≤ maxInt64) :
    ∀ r1 ∈ [(StartWork r now u).2, (PauseWork r now u).2, (ResumeWork r now u).2,
        (StopWork r now u).2],
      ∀ x ∈ r.entries, (∃ y ∈ r1.entries, y.ID = x.ID)
        ∧ ∀ y ∈ r1.entries, y.ID = x.ID → x.TotalPaused ≤ y.TotalPaused := by
  have hsame : ∀ x ∈ r.entries, (∃ y ∈ r.entries, y.ID = x.ID)
      ∧ ∀ y ∈ r.entries, y.ID = x.ID → x.TotalPaused ≤ y.TotalPaused := by
    intro x hx
    refine ⟨⟨x, hx, rfl⟩, fun y hy hid => ?_⟩
    rw [List.inj_on_of_nodup_map hwf.2 hy hx hid]
  have hupdate : ∀ r1 : Repository, (r1 = r ∨ ∃ e t, e ∈ r.entries ∧ t.ID = e.ID
      ∧ (t.TotalPaused = e.TotalPaused
        ∨ (e.Status = StatusPaused ∧ t.TotalPaused = wrapInt64 (e.TotalPaused
            + float64ToInt64 (Duration.Seconds (now.Sub e.PausedAt)))))
      ∧ r1 = r.withEntry t) →
      ∀ x ∈ r.entries, (∃ y ∈ r1.entries, y.ID = x.ID)
        ∧ ∀ y ∈ r1.entries, y.ID = x.ID → x.TotalPaused ≤ y.TotalPaused := by
    intro r1 h
    rcases h with h | ⟨e, t, hmem, hid, htp, h⟩
    · rw [h]; exact hsame
    · rw [h]
      intro x hx
      refine ⟨exists_withEntry r t x hx, fun y hy hyx => ?_⟩
      rcases mem_withEntry_cases r t x y hwf hx hy hyx with ⟨hxt, hyt⟩ | ⟨_, hyx2⟩
      · have hxe : x = e := List.inj_on_of_nodup_map hwf.2 hx hmem (by rw [hxt, hid])
        rw [hyt, hxe]
        rcases htp with h1 | ⟨hs, h1⟩
        · rw [h1]
        · obtain ⟨hp1, hp2, hp3⟩ := hpaused e hmem hs
          have hnn := pause_seconds_nonneg now e.PausedAt hp1
          rw [h1, wrapInt64_of_range (by omega) hp3]
          omega
      · rw [hyx2]
  intro r1 hr1
  simp only [List.mem_cons, List.mem_singleton, List.not_mem_nil, or_false] at hr1
  rcases hr1 with h | h | h | h
  · rw [h]
    rcases startWork_store r now u with hs | ⟨_, e, _, hs⟩
    · rw [hs]; exact hsame
    · rw [hs]
      intro x hx
      unfold Repository.CreateTimeEntry
      simp only [List.mem_append, List.mem_singleton]
      refine ⟨⟨x, Or.inl hx, rfl⟩, fun y hy hid => ?_⟩
      rcases hy with hy | hy
      · rw [List.inj_on_of_nodup_map hwf.2 hy hx hid]
      · exfalso
        rw [hy] at hid
        have := hwf.1 x hx
        simp only at hid
        omega
  · rw [h]; exact hupdate _ (pauseWork_store_paused r now u)
  · rw [h]; exact hupdate _ (resumeWork_store_paused r now u)
  · rw [h]; exact hupdate _ (stopWork_store_paused r now u)

/-- C20 for `ResumeWork` at second 15 on an entry paused at second 10 with 30 seconds of
pause: the entry is still stored and its `TotalPaused` has not decreased. -/
theorem C20_totalPaused_does_not_decrease_witness :
    (∃ y ∈ (ResumeWork
          { entries := [{ TimeEntry.zero with
              ID := 1, UserID := 7, StartTime := ⟨1000000000⟩, PausedAt := ⟨10000000000⟩,
              TotalPaused := 30, Status := StatusPaused }],
            categories := [], nextID := 2 } ⟨15000000000⟩ 7).2.entries, y.ID = 1)
    ∧ ∀ y ∈ (ResumeWork
          { entries := [{ TimeEntry.zero with
              ID := 1, UserID := 7, StartTime := ⟨1000000000⟩, PausedAt := ⟨10000000000⟩,
              TotalPaused := 30, Status := StatusPaused }],
            categories := [], nextID := 2 } ⟨15000000000⟩ 7).2.entries,
        y.ID = 1 → 30 ≤ y.TotalPaused :=
  C20_totalPaused_does_not_decrease
    { entries := [{ TimeEntry.zero with
        ID := 1, UserID := 7, StartTime := ⟨1000000000⟩, PausedAt := ⟨10000000000⟩,
        TotalPaused := 30, Status := StatusPaused }],
      categories := [], nextID := 2 }
    ⟨15000000000⟩ 7 (by decide)
    (fun x hx _ => by
      rw [List.mem_singleton] at hx
      subst hx
      refine ⟨by decide, by decide, ?_⟩
      rw [seconds_sub_trunc (by decide) (by decide)]
      decide)
    _ (by simp)
    { TimeEntry.zero with
      ID := 1, UserID := 7, StartTime := ⟨1000000000⟩, PausedAt := ⟨10000000000⟩,
      TotalPaused := 30, Status := StatusPaused }
    (List.mem_singleton.mpr rfl)

/-- C20 (as stated) fails: after `StartWork` at second 1 and `PauseWork` at second 10,
a `ResumeWork` whose clock reading is second 5 lowers the entry's `TotalPaused` from 0
to -5. -/
theorem C20_clock_before_pause_counterexample :
    ∃ p a r1,
      GetActiveTimeEntry
          (PauseWork (StartWork (Repository.empty []) ⟨1000000000⟩ 7).2 ⟨10000000000⟩ 7).2 7
        = some p
      ∧ ResumeWork
          (PauseWork (StartWork (Repository.empty []) ⟨1000000000⟩ 7).2 ⟨10000000000⟩ 7).2
          ⟨5000000000⟩ 7 = (.ok a, r1)
      ∧ a ∈ r1.entries ∧ a.ID = p.ID ∧ p.TotalPaused = 0 ∧ a.TotalPaused = -5 := by
  have hg : GetActiveTimeEntry
      (PauseWork (StartWork (Repository.empty []) ⟨1000000000⟩ 7).2 ⟨10000000000⟩ 7).2 7
      = some { TimeEntry.zero with
          ID := 1, UserID := 7, StartTime := ⟨1000000000⟩, PausedAt := ⟨10000000000⟩,
          Status := StatusPaused } := by decide
  have hre := resumeWork_ok _ ⟨5000000000⟩ 7 _ hg rfl
  refine ⟨_, _, _, hg, hre, mem_withEntry _ _ _ (mem_of_getActive hg).1 rfl, rfl, rfl, ?_⟩
  show wrapInt64 (0 + float64ToInt64 (Duration.Seconds
    ((⟨5000000000⟩ : Time).Sub ⟨10000000000⟩))) = -5
  rw [seconds_sub_trunc (by decide) (by decide)]
  decide

/-- C21: in every repository reached from one without time entries by `StartWork`,
`StartWorkWithCategory`, `PauseWork`, `ResumeWork`, `StopWork` and `DeleteTimeEntry`
calls whose clock readings are not the zero time, every stored entry has `EndTime` set
if and only if its status is completed. -/
theorem C21_endTime_set_iff_completed (categories : List Category) (calls : List Call)
    (hclock : ∀ c ∈ calls, c.clock ≠ some Time.zero) :
    ∀ e ∈ (execAll (Repository.empty categories) calls).2.entries,
      (e.EndTime.IsZero = false ↔ e.Status = StatusCompleted) :=
  execAll_entries (fun e => e.EndTime.IsZero = false ↔ e.Status = StatusCompleted) calls
    (fun r c hc h => exec_endTime r c (hclock c hc) h) (Repository.empty categories)
    (fun e he => absurd he (List.not_mem_nil e))

/-- C21 for user 7 after `StartWork`, `PauseWork`, `StopWork` and a second `StartWork`:
the completed first entry has `EndTime` set, the active second entry has not. -/
theorem C21_endTime_set_iff_completed_witness :
    (∀ c ∈ [Call.startWork 7 ⟨1000000000⟩, Call.pauseWork 7 ⟨2000000000⟩,
        Call.stopWork 7 ⟨3000000000⟩, Call.startWork 7 ⟨4000000000⟩],
      c.clock ≠ some Time.zero)
    ∧ ((execAll (Repository.empty [])
          [Call.startWork 7 ⟨1000000000⟩, Call.pauseWork 7 ⟨2000000000⟩,
            Call.stopWork 7 ⟨3000000000⟩, Call.startWork 7 ⟨4000000000⟩]).2.entries.map
        (fun e => (e.ID, e.Status, e.EndTime.IsZero))
      = [(1, StatusCompleted, false), (2, StatusActive, true)])
    ∧ (({ TimeEntry.zero with
          ID := 2, UserID := 7, StartTime := ⟨4000000000⟩,
          Status := StatusActive } : TimeEntry).EndTime.IsZero = false
        ↔ ({ TimeEntry.zero with
          ID := 2, UserID := 7, StartTime := ⟨4000000000⟩,
          Status := StatusActive } : TimeEntry).Status = StatusCompleted) :=
  ⟨by decide, by decide,
    C21_endTime_set_iff_completed []
      [Call.startWork 7 ⟨1000000000⟩, Call.pauseWork 7 ⟨2000000000⟩,
        Call.stopWork 7 ⟨3000000000⟩, Call.startWork 7 ⟨4000000000⟩]
      (by decide)
      { TimeEntry.zero with
        ID := 2, UserID := 7, StartTime := ⟨4000000000⟩, Status := StatusActive }
      (by decide)⟩

/-- C22: in every repository reached from one without time entries by `StartWork`,
`StartWorkWithCategory`, `PauseWork`, `ResumeWork`, `StopWork` and `DeleteTimeEntry`
calls whose clock readings are not the zero time, every stored entry has `PausedAt` set
if and only if its status is paused. -/
theorem C22_pausedAt_set_iff_paused (categories : List Category) (calls : List Call)
    (hclock : ∀ c ∈ calls, c.clock ≠ some Time.zero) :
    ∀ e ∈ (execAll (Repository.empty categories) calls).2.entries,
      (e.PausedAt.IsZero = false ↔ e.Status = StatusPaused) :=
  execAll_entries (fun e => e.PausedAt.IsZero = false ↔ e.Status = StatusPaused) calls
    (fun r c hc h => exec_pausedAt r c (hclock c hc) h) (Repository.empty categories)
    (fun e he => absurd he (List.not_mem_nil e))

/-- C22 for user 7 after `StartWork`, `PauseWork`, `StopWork`, `StartWork` and
`PauseWork`: the completed first entry has `PausedAt` cleared, the paused second entry
has it set. -/
theorem C22_pausedAt_set_iff_paused_witness :
    (∀ c ∈ [Call.startWork 7 ⟨1000000000⟩, Call.pauseWork 7 ⟨2000000000⟩,
        Call.stopWork 7 ⟨3000000000⟩, Call.startWork 7 ⟨4000000000⟩,
        Call.pauseWork 7 ⟨5000000000⟩],
      c.clock ≠ some Time.zero)
    ∧ ((execAll (Repository.empty [])
          [Call.startWork 7 ⟨1000000000⟩, Call.pauseWork 7 ⟨2000000000⟩,
            Call.stopWork 7 ⟨3000000000⟩, Call.startWork 7 ⟨4000000000⟩,
            Call.pauseWork 7 ⟨5000000000⟩]).2.entries.map
        (fun e => (e.ID, e.Status, e.PausedAt.IsZero))
      = [(1, StatusCompleted, true), (2, StatusPaused, false)])
    ∧ (({ TimeEntry.zero with
          ID := 2, UserID := 7, StartTime := ⟨4000000000⟩, PausedAt := ⟨5000000000⟩,
          Status := StatusPaused } : TimeEntry).PausedAt.IsZero = false
        ↔ ({ TimeEntry.zero with
          ID := 2, UserID := 7, StartTime := ⟨4000000000⟩, PausedAt := ⟨5000000000⟩,
          Status := StatusPaused } : TimeEntry).Status = StatusPaused) :=
  ⟨by decide, by decide,
    C22_pausedAt_set_iff_paused []
      [Call.startWork 7 ⟨1000000000⟩, Call.pauseWork 7 ⟨2000000000⟩,
        Call.stopWork 7 ⟨3000000000⟩, Call.startWork 7 ⟨4000000000⟩,
        Call.pauseWork 7 ⟨5000000000⟩]
      (by decide)
      { TimeEntry.zero with
        ID := 2, UserID := 7, StartTime := ⟨4000000000⟩, PausedAt := ⟨5000000000⟩,
        Status := StatusPaused }
      (by decide)⟩

/-- C23: in a well-formed repository where user `u` has at most one open entry, a
successful `PauseWork`, `ResumeWork` or `StopWork` for `u` replaces exactly one stored
entry, the open entry of `u`, by the returned entry, which differs from it and keeps its
`ID`, `UserID`, `StartTime` and `CategoryID`; every other stored entry, the categories
and the next identifier are unchanged. -/
theorem C23_update_changes_only_open_entry (r r1 : Repository) (now : Time) (u : Nat)
    (a : TimeEntry) (hwf : r.WF) (hc : r.openCount u ≤ 1)
    (hok : PauseWork r now u = (.ok a, r1) ∨ ResumeWork r now u = (.ok a, r1)
      ∨ StopWork r now u = (.ok a, r1)) :
    ∃ e pre post, GetActiveTimeEntry r u = some e
      ∧ r.entries = pre ++ e :: post ∧ r1.entries = pre ++ a :: post ∧ a ≠ e
      ∧ a.ID = e.ID ∧ a.UserID = e.UserID ∧ a.StartTime = e.StartTime
      ∧ a.CategoryID = e.CategoryID
      ∧ r1.categories = r.categories ∧ r1.nextID = r.nextID := by
  have key : ∀ e t : TimeEntry,
      (Except.ok t, r.withEntry t) = ((Except.ok a : Except Error TimeEntry), r1) →
      e ∈ r.entries → e.UserID = u → e.Status ≠ StatusCompleted →
      t.ID = e.ID → t.UserID = e.UserID → t.StartTime = e.StartTime →
      t.CategoryID = e.CategoryID → t.Status ≠ e.Status →
      ∃ e pre post, GetActiveTimeEntry r u = some e
        ∧ r.entries = pre ++ e :: post ∧ r1.entries = pre ++ a :: post ∧ a ≠ e
        ∧ a.ID = e.ID ∧ a.UserID = e.UserID ∧ a.StartTime = e.StartTime
        ∧ a.CategoryID = e.CategoryID
        ∧ r1.categories = r.categories ∧ r1.nextID = r.nextID := by
    intro e t heq hmem hu hnc hid huid hst hcat hstatus
    simp only [Prod.mk.injEq, Except.ok.injEq] at heq
    obtain ⟨hta, hr1⟩ := heq
    subst hta
    subst hr1
    obtain ⟨pre, post, h1, h2, h3, h4, h5, h6⟩ := update_frame r u e t hwf hc hmem hu hnc hid
      (fun h => hstatus (by rw [h]))
    exact ⟨e, pre, post, h1, h2, h3, h4, hid, huid, hst, hcat, h5, h6⟩
  rcases hok with h | h | h
  · rcases pauseWork_cases r now u with hs | ⟨e, hmem, hu, hst, hs⟩
    · rw [hs] at h
      simp at h
    · rw [hs] at h
      exact key e _ h hmem hu (by rw [hst]; exact active_ne_completed) rfl rfl rfl rfl
        (by rw [hst]; exact fun h0 => active_ne_paused h0.symm)
  · rcases resumeWork_cases r now u with hs | ⟨e, hmem, hu, hst, hs⟩
    · rw [hs] at h
      simp at h
    · rw [hs] at h
      exact key e _ h hmem hu (by rw [hst]; exact paused_ne_completed) rfl rfl rfl rfl
        (by rw [hst]; exact active_ne_paused)
  · rcases stopWork_cases r now u with hs | ⟨e, hmem, hu, hst, hs⟩ | ⟨e, hmem, hu, _, hnc, hs⟩
    · rw [hs] at h
      simp at h
    · rw [hs] at h
      exact key e _ h hmem hu (by rw [hst]; exact paused_ne_completed) rfl rfl rfl rfl
        (by rw [hst]; exact fun h0 => paused_ne_completed h0.symm)
    · rw [hs] at h
      exact key e _ h hmem hu hnc rfl rfl rfl rfl (fun h0 => hnc h0.symm)

/-- C23 for `PauseWork` of user 7 at second 5 in a repository that holds a completed
entry of user 7, an active entry of user 8 and the active entry of user 7: only the last
one is replaced. -/
theorem C23_update_changes_only_open_entry_witness :
    ∃ e pre post,
      GetActiveTimeEntry
          { entries :=
              [{ TimeEntry.zero with
                  ID := 1, UserID := 7, StartTime := ⟨1000000000⟩, EndTime := ⟨2000000000⟩,
                  Status := StatusCompleted },
               { TimeEntry.zero with
                  ID := 2, UserID := 8, StartTime := ⟨3000000000⟩, Status := StatusActive },
               { TimeEntry.zero with
                  ID := 3, UserID := 7, StartTime := ⟨4000000000⟩, Status := StatusActive }],
            categories := [], nextID := 4 } 7 = some e
      ∧ [{ TimeEntry.zero with
            ID := 1, UserID := 7, StartTime := ⟨1000000000⟩, EndTime := ⟨2000000000⟩,
            Status := StatusCompleted },
         { TimeEntry.zero with
            ID := 2, UserID := 8, StartTime := ⟨3000000000⟩, Status := StatusActive },
         { TimeEntry.zero with
            ID := 3, UserID := 7, StartTime := ⟨4000000000⟩, Status := StatusActive }]
        = pre ++ e :: post
      ∧ [{ TimeEntry.zero with
            ID := 1, UserID := 7, StartTime := ⟨1000000000⟩, EndTime := ⟨2000000000⟩,
            Status := StatusCompleted },
         { TimeEntry.zero with
            ID := 2, UserID := 8, StartTime := ⟨3000000000⟩, Status := StatusActive },
         { TimeEntry.zero with
            ID := 3, UserID := 7, StartTime := ⟨4000000000⟩, PausedAt := ⟨5000000000⟩,
            Status := StatusPaused }]
        = pre ++ ({ TimeEntry.zero with
            ID := 3, UserID := 7, StartTime := ⟨4000000000⟩, PausedAt := ⟨5000000000⟩,
            Status := StatusPaused } : TimeEntry) :: post :=
  match C23_update_changes_only_open_entry
      { entries :=
          [{ TimeEntry.zero with
              ID := 1, UserID := 7, StartTime := ⟨1000000000⟩, EndTime := ⟨2000000000⟩,
              Status := StatusCompleted },
           { TimeEntry.zero with
              ID := 2, UserID := 8, StartTime := ⟨3000000000⟩, Status := StatusActive },
           { TimeEntry.zero with
              ID := 3, UserID := 7, StartTime := ⟨4000000000⟩, Status := StatusActive }],
        categories := [], nextID := 4 }
      { entries :=
          [{ TimeEntry.zero with
              ID := 1, UserID := 7, StartTime := ⟨1000000000⟩, EndTime := ⟨2000000000⟩,
              Status := StatusCompleted },
           { TimeEntry.zero with
              ID := 2, UserID := 8, StartTime := ⟨3000000000⟩, Status := StatusActive },
           { TimeEntry.zero with
              ID := 3, UserID := 7, StartTime := ⟨4000000000⟩, PausedAt := ⟨5000000000⟩,
              Status := StatusPaused }],
        categories := [], nextID := 4 }
      ⟨5000000000⟩ 7
      { TimeEntry.zero with
        ID := 3, UserID := 7, StartTime := ⟨4000000000⟩, PausedAt := ⟨5000000000⟩,
        Status := StatusPaused }
      (by decide) (by decide) (Or.inl rfl) with
  | ⟨e, pre, post, h1, h2, h3, _⟩ => ⟨e, pre, post, h1, h2, h3⟩

/-- C24: for a user without open entry and a stored category owned by another user,
`StartWorkWithCategory` fails with the category-not-owned error and returns the
repository unchanged; for a user with an open entry it fails with
`ErrActiveEntryExists`, again with the repository unchanged. -/
theorem C24_startWorkWithCategory_refusals (r : Repository) (now : Time) (u c : Nat) :
    (GetActiveTimeEntry r u = none →
      ∀ category, r.GetCategoryByID c = .ok category → category.UserID ≠ u →
        StartWorkWithCategory r now u c
          = (.error (.other "категория не принадлежит пользователю"), r))
    ∧ (∀ e, GetActiveTimeEntry r u = some e →
        StartWorkWithCategory r now u c = (.error .ErrActiveEntryExists, r)) := by
  constructor
  · intro hnone category hcat hne
    unfold StartWorkWithCategory
    rw [hnone, hcat]
    have hb : (category.UserID != u) = true := by simpa using hne
    simp only [hb, if_true]
  · intro e hsome
    unfold StartWorkWithCategory
    rw [hsome]

/-- C24 for user 7 and category 5 of user 1, first without and then with an open entry
of user 7. -/
theorem C24_startWorkWithCategory_refusals_witness :
    StartWorkWithCategory
        { entries := [],
          categories := [{ ID := 5, UserID := 1, Name := "work", Color := "#4a6bff",
                           CreatedAt := Time.zero, UpdatedAt := Time.zero }],
          nextID := 1 } ⟨1000000000⟩ 7 5
      = (.error (.other "категория не принадлежит пользователю"),
          { entries := [],
            categories := [{ ID := 5, UserID := 1, Name := "work", Color := "#4a6bff",
                             CreatedAt := Time.zero, UpdatedAt := Time.zero }],
            nextID := 1 })
    ∧ StartWorkWithCategory
        (StartWork
          { entries := [],
            categories := [{ ID := 5, UserID := 1, Name := "work", Color := "#4a6bff",
                             CreatedAt := Time.zero, UpdatedAt := Time.zero }],
            nextID := 1 } ⟨1000000000⟩ 7).2 ⟨2000000000⟩ 7 5
      = (.error .ErrActiveEntryExists,
          (StartWork
            { entries := [],
              categories := [{ ID := 5, UserID := 1, Name := "work", Color := "#4a6bff",
                               CreatedAt := Time.zero, UpdatedAt := Time.zero }],
              nextID := 1 } ⟨1000000000⟩ 7).2) :=
  ⟨(C24_startWorkWithCategory_refusals
      { entries := [],
        categories := [{ ID := 5, UserID := 1, Name := "work", Color := "#4a6bff",
                         CreatedAt := Time.zero, UpdatedAt := Time.zero }],
        nextID := 1 } ⟨1000000000⟩ 7 5).1 rfl
      { ID := 5, UserID := 1, Name := "work", Color := "#4a6bff",
        CreatedAt := Time.zero, UpdatedAt := Time.zero } rfl (by decide),
    (C24_startWorkWithCategory_refusals
      (StartWork
        { entries := [],
          categories := [{ ID := 5, UserID := 1, Name := "work", Color := "#4a6bff",
                           CreatedAt := Time.zero, UpdatedAt := Time.zero }],
          nextID := 1 } ⟨1000000000⟩ 7).2 ⟨2000000000⟩ 7 5).2
      { TimeEntry.zero with
        ID := 1, UserID := 7, StartTime := ⟨1000000000⟩, Status := StatusActive } rfl⟩

/-- C25 (code evaluated at the failing input): `FormatDuration(90000)` is `"01:00:00"`,
the clock time 25 hours after midnight, where the specified text `HH:MM:SS` with
`HH = s / 3600` is `"25:00:00"`; below 24 hours, as for 3661 and 86399 seconds, the two
agree. -/
theorem C25_formatDuration_wraps_at_24_hours :
    FormatDuration 90000 = "01:00:00" ∧ specFormatDuration 90000 = "25:00:00"
    ∧ FormatDuration 3661 = "01:01:01" ∧ specFormatDuration 3661 = "01:01:01"
    ∧ FormatDuration 86399 = "23:59:59" ∧ specFormatDuration 86399 = "23:59:59"
    ∧ FormatDuration 86400 = "00:00:00" ∧ specFormatDuration 86400 = "24:00:00" := by
  refine ⟨by decide, by decide, by decide, by decide, by decide, by decide, by decide,
    by decide⟩

/-- C26: after a successful `StartWork` followed by a successful `PauseWork` of the same
user, a further `PauseWork` fails with `ErrNoActiveEntry` and returns the repository
unchanged; the paused entry is stored in it as the second call returned it. -/
theorem C26_second_pauseWork_is_refused (r r1 r2 : Repository) (t1 t2 t3 : Time) (u : Nat)
    (e p : TimeEntry) (h1 : StartWork r t1 u = (.ok e, r1))
    (h2 : PauseWork r1 t2 u = (.ok p, r2)) :
    PauseWork r2 t3 u = (.error .ErrNoActiveEntry, r2)
      ∧ p ∈ r2.entries ∧ p.Status = StatusPaused ∧ p.PausedAt = t2 ∧ p.ID = e.ID := by
  rcases startWork_cases r t1 u with hs | ⟨hnone, hs⟩
  · rw [hs] at h1
    simp at h1
  rw [hs] at h1
  simp only [Prod.mk.injEq, Except.ok.injEq] at h1
  obtain ⟨he, hr1⟩ := h1
  have hcompleted : ∀ x ∈ r.entries, x.UserID = u → x.Status = StatusCompleted := by
    intro x hx hxu
    rw [getActive_eq_find, List.find?_eq_none] at hnone
    have := hnone x hx
    simpa [hxu] using this
  have hg1 : GetActiveTimeEntry r1 u = some e := by
    rw [← hr1, ← he]
    exact getActive_append r u (r.nextID + 1) _ hnone rfl active_ne_completed
  have hst : e.Status = StatusActive := by rw [← he]
  rw [pauseWork_ok r1 t2 u e hg1 hst] at h2
  simp only [Prod.mk.injEq, Except.ok.injEq] at h2
  obtain ⟨hp, hr2⟩ := h2
  have hmem : p ∈ r2.entries := by
    rw [← hr2, ← hp]
    exact mem_withEntry r1 e _ (mem_of_getActive hg1).1 rfl
  refine ⟨?_, hmem, by rw [← hp], by rw [← hp], by rw [← hp]⟩
  apply pauseWork_none
  rw [List.find?_eq_none]
  intro x hx
  unfold Repository.GetTimeEntriesByUserID at hx
  rw [List.mem_filter] at hx
  obtain ⟨hxm, hxu⟩ := hx
  have hxu2 : x.UserID = u := by simpa using hxu
  rw [← hr2] at hxm
  have hnotactive : x.Status ≠ StatusActive := by
    unfold Repository.withEntry at hxm
    simp only [List.mem_map] at hxm
    obtain ⟨y, hy, hyx⟩ := hxm
    split_ifs at hyx with hid
    · rw [← hyx]
      exact fun h0 => active_ne_paused h0.symm
    · rw [← hyx] at hxu2 ⊢
      rw [← hr1] at hy
      simp only [List.mem_append, List.mem_singleton] at hy
      rcases hy with hy | hy
      · rw [hcompleted y hy hxu2]
        exact fun h0 => active_ne_completed h0.symm
      · exfalso
        apply hid
        rw [hy, ← he]
        simp
  simpa using hnotactive

/-- C26 for user 7 with one completed entry: `StartWork` at second 3, `PauseWork` at
second 4, then `PauseWork` at second 5 is refused and the repository stays as it was. -/
theorem C26_second_pauseWork_is_refused_witness :
    PauseWork
        { entries :=
            [{ TimeEntry.zero with
                ID := 1, UserID := 7, StartTime := ⟨1000000000⟩, EndTime := ⟨2000000000⟩,
                Status := StatusCompleted },
             { TimeEntry.zero with
                ID := 2, UserID := 7, StartTime := ⟨3000000000⟩, PausedAt := ⟨4000000000⟩,
                Status := StatusPaused }],
          categories := [], nextID := 3 } ⟨5000000000⟩ 7
      = (.error .ErrNoActiveEntry,
          { entries :=
              [{ TimeEntry.zero with
                  ID := 1, UserID := 7, StartTime := ⟨1000000000⟩, EndTime := ⟨2000000000⟩,
                  Status := StatusCompleted },
               { TimeEntry.zero with
                  ID := 2, UserID := 7, StartTime := ⟨3000000000⟩, PausedAt := ⟨4000000000⟩,
                  Status := StatusPaused }],
            categories := [], nextID := 3 }) :=
  (C26_second_pauseWork_is_refused
    { entries :=
        [{ TimeEntry.zero with
            ID := 1, UserID := 7, StartTime := ⟨1000000000⟩, EndTime := ⟨2000000000⟩,
            Status := StatusCompleted }],
      categories := [], nextID := 2 }
    { entries :=
        [{ TimeEntry.zero with
            ID := 1, UserID := 7, StartTime := ⟨1000000000⟩, EndTime := ⟨2000000000⟩,
            Status := StatusCompleted },
         { TimeEntry.zero with
            ID := 2, UserID := 7, StartTime := ⟨3000000000⟩, Status := StatusActive }],
      categories := [], nextID := 3 }
    { entries :=
        [{ TimeEntry.zero with
            ID := 1, UserID := 7, StartTime := ⟨1000000000⟩, EndTime := ⟨2000000000⟩,
            Status := StatusCompleted },
         { TimeEntry.zero with
            ID := 2, UserID := 7, StartTime := ⟨3000000000⟩, PausedAt := ⟨4000000000⟩,
            Status := StatusPaused }],
      categories := [], nextID := 3 }
    ⟨3000000000⟩ ⟨4000000000⟩ ⟨5000000000⟩ 7
    { TimeEntry.zero with
      ID := 2, UserID := 7, StartTime := ⟨3000000000⟩, Status := StatusActive }
    { TimeEntry.zero with
      ID := 2, UserID := 7, StartTime := ⟨3000000000⟩, PausedAt := ⟨4000000000⟩,
      Status := StatusPaused }
    rfl rfl).1

/-- C27 (amended): for a user without open entry, `N ≥ 1` `StartWork` calls that run one
after the other (both store calls of a call before the next call begins) create exactly
one entry, that of the first call, and the `N - 1` other calls fail with
`ErrActiveEntryExists`. -/
theorem C27_sequential_starts_create_one_entry (r : Repository) (u : Nat) (now : Time)
    (rest : List Time) (h : GetActiveTimeEntry r u = none) :
    runSchedule r ((now :: rest).map (StartCall.pending u))
        (sequentialSchedule 0 (now :: rest).length)
      = (StartCall.returned (.ok { TimeEntry.zero with
            ID := r.nextID, UserID := u, StartTime := now, Status := StatusActive })
          :: rest.map (fun _ => StartCall.returned (.error .ErrActiveEntryExists)),
         { r with
            entries := r.entries ++ [{ TimeEntry.zero with
              ID := r.nextID, UserID := u, StartTime := now, Status := StatusActive }],
            nextID := r.nextID + 1 }) := by
  simp only [List.map_cons, List.length_cons, sequentialSchedule]
  have hcall := runSchedule_call r [] (rest.map (StartCall.pending u)) u now
    (sequentialSchedule (0 + 1) rest.length)
  simp only [List.length_nil, List.nil_append] at hcall
  rw [hcall, startWork_ok r now u h]
  have hg := getActive_append r u (r.nextID + 1)
    { TimeEntry.zero with
      ID := r.nextID, UserID := u, StartTime := now, Status := StatusActive }
    h rfl active_ne_completed
  have href := runSchedule_refused u _ rest _
    [StartCall.returned (.ok { TimeEntry.zero with
      ID := r.nextID, UserID := u, StartTime := now, Status := StatusActive })] hg
  simp only [List.length_singleton, List.singleton_append] at href
  exact href

/-- C27 for three `StartWork` calls of user 7 that run one after the other on the empty
repository: one entry is created, two calls are refused. -/
theorem C27_sequential_starts_create_one_entry_witness :
    runSchedule (Repository.empty [])
        [StartCall.pending 7 ⟨1000000000⟩, StartCall.pending 7 ⟨2000000000⟩,
          StartCall.pending 7 ⟨3000000000⟩]
        [0, 0, 1, 1, 2, 2]
      = ([StartCall.returned (.ok { TimeEntry.zero with
            ID := 1, UserID := 7, StartTime := ⟨1000000000⟩, Status := StatusActive }),
          StartCall.returned (.error .ErrActiveEntryExists),
          StartCall.returned (.error .ErrActiveEntryExists)],
         { entries := [{ TimeEntry.zero with
             ID := 1, UserID := 7, StartTime := ⟨1000000000⟩, Status := StatusActive }],
           categories := [], nextID := 2 }) :=
  C27_sequential_starts_create_one_entry (Repository.empty []) 7 ⟨1000000000⟩
    [⟨2000000000⟩, ⟨3000000000⟩] rfl

/-- C27 (as stated) fails: when two `StartWork` calls of user 7 both read the store
before either writes (schedule read, read, write, write), both calls succeed and two
open entries are created; no call fails with `ErrActiveEntryExists`. -/
theorem C27_check_then_act_counterexample :
    runSchedule (Repository.empty [])
        [StartCall.pending 7 ⟨1000000000⟩, StartCall.pending 7 ⟨2000000000⟩] [0, 1, 0, 1]
      = ([StartCall.returned (.ok { TimeEntry.zero with
            ID := 1, UserID := 7, StartTime := ⟨1000000000⟩, Status := StatusActive }),
          StartCall.returned (.ok { TimeEntry.zero with
            ID := 2, UserID := 7, StartTime := ⟨2000000000⟩, Status := StatusActive })],
         { entries :=
             [{ TimeEntry.zero with
                 ID := 1, UserID := 7, StartTime := ⟨1000000000⟩, Status := StatusActive },
              { TimeEntry.zero with
                 ID := 2, UserID := 7, StartTime := ⟨2000000000⟩, Status := StatusActive }],
           categories := [], nextID := 3 })
    ∧ (runSchedule (Repository.empty [])
        [StartCall.pending 7 ⟨1000000000⟩, StartCall.pending 7 ⟨2000000000⟩]
        [0, 1, 0, 1]).2.openCount 7 = 2 :=
  ⟨rfl, by decide⟩

/-- C28 (amended): for every list of entries the period query returns, the sum of all
values of `DailyStats`, taken in `int64` arithmetic, equals `TotalDuration`; and the sum
equals `TotalDuration` as integers when the absolute values of the durations sum to at
most the largest `int64`. -/
theorem C28_daily_values_sum_to_total (formatDate : Time → String) (clock : Nat → Time)
    (repo : StatsRepository) (userID : Nat) (startDate endDate : String) :
    wrapInt64 (((Statistics.GetUserStats formatDate clock repo userID startDate
          endDate).DailyStats.map Prod.snd).sum)
        = (Statistics.GetUserStats formatDate clock repo userID startDate endDate).TotalDuration
    ∧ (((Statistics.observations formatDate clock
          (repo.GetUserStatsByPeriod userID startDate endDate) 0).map
          (fun p => |p.2|)).sum ≤ maxInt64 →
        ((Statistics.GetUserStats formatDate clock repo userID startDate
          endDate).DailyStats.map Prod.snd).sum
          = (Statistics.GetUserStats formatDate clock repo userID startDate
              endDate).TotalDuration) :=
  getUserStats_sums formatDate clock repo userID startDate endDate

/-- C28 on the three entries of `TestGetUserStats_CustomPeriod`: the daily values 7200,
14400 and 25200 sum to the total. -/
theorem C28_daily_values_sum_to_total_witness :
    ((Statistics.observations customPeriodDay (fun _ => ⟨0⟩) customPeriodEntries 0).map
        (fun p => |p.2|)).sum ≤ maxInt64
    ∧ ((Statistics.GetUserStats customPeriodDay (fun _ => ⟨0⟩)
          (MockRepository customPeriodEntries none) 1 "2025-01-01"
          "2025-03-31").DailyStats.map Prod.snd).sum
        = (Statistics.GetUserStats customPeriodDay (fun _ => ⟨0⟩)
            (MockRepository customPeriodEntries none) 1 "2025-01-01"
            "2025-03-31").TotalDuration :=
  have hfit : ((Statistics.observations customPeriodDay (fun _ => ⟨0⟩) customPeriodEntries
      0).map (fun p => |p.2|)).sum ≤ maxInt64 := by
    rw [customPeriod_observations]
    decide
  ⟨hfit,
    (C28_daily_values_sum_to_total customPeriodDay (fun _ => ⟨0⟩)
      (MockRepository customPeriodEntries none) 1 "2025-01-01" "2025-03-31").2 hfit⟩

/-- C28 (as stated) fails: for two completed entries of duration `2 ^ 62` seconds on two
different days the values of `DailyStats` sum to `2 ^ 63`, and `TotalDuration` is the
wrapped `int64` value `-2 ^ 63`. -/
theorem C28_int64_overflow_counterexample :
    (Statistics.GetUserStats customPeriodDay (fun _ => ⟨0⟩)
        (MockRepository
          [{ TimeEntry.zero with
              ID := 1, UserID := 1, StartTime := ⟨63872532000000000000⟩,
              EndTime := ⟨63872532000000000000⟩, Status := "completed",
              TotalPaused := -4611686018427387904 },
           { TimeEntry.zero with
              ID := 2, UserID := 1, StartTime := ⟨63874792800000000000⟩,
              EndTime := ⟨63874792800000000000⟩, Status := "completed",
              TotalPaused := -4611686018427387904 }] none)
        1 "2025-01-01" "2025-03-31").DailyStats
      = [("2025-01-15", 4611686018427387904), ("2025-02-10", 4611686018427387904)]
    ∧ (Statistics.GetUserStats customPeriodDay (fun _ => ⟨0⟩)
        (MockRepository
          [{ TimeEntry.zero with
              ID := 1, UserID := 1, StartTime := ⟨63872532000000000000⟩,
              EndTime := ⟨63872532000000000000⟩, Status := "completed",
              TotalPaused := -4611686018427387904 },
           { TimeEntry.zero with
              ID := 2, UserID := 1, StartTime := ⟨63874792800000000000⟩,
              EndTime := ⟨63874792800000000000⟩, Status := "completed",
              TotalPaused := -4611686018427387904 }] none)
        1 "2025-01-01" "2025-03-31").TotalDuration
      = -9223372036854775808
    ∧ ((Statistics.GetUserStats customPeriodDay (fun _ => ⟨0⟩)
        (MockRepository
          [{ TimeEntry.zero with
              ID := 1, UserID := 1, StartTime := ⟨63872532000000000000⟩,
              EndTime := ⟨63872532000000000000⟩, Status := "completed",
              TotalPaused := -4611686018427387904 },
           { TimeEntry.zero with
              ID := 2, UserID := 1, StartTime := ⟨63874792800000000000⟩,
              EndTime := ⟨63874792800000000000⟩, Status := "completed",
              TotalPaused := -4611686018427387904 }] none)
        1 "2025-01-01" "2025-03-31").DailyStats.map Prod.snd).sum
      = 9223372036854775808 := by
  have h1 : ∀ now, TimeEntry.CalculateDuration { TimeEntry.zero with
      ID := 1, UserID := 1, StartTime := ⟨63872532000000000000⟩,
      EndTime := ⟨63872532000000000000⟩, Status := "completed",
      TotalPaused := -4611686018427387904 } now = 4611686018427387904 := by
    intro now
    rw [calculateDuration_ended_trunc _ now (by decide) (by decide) (by decide)]
    decide
  have h2 : ∀ now, TimeEntry.CalculateDuration { TimeEntry.zero with
      ID := 2, UserID := 1, StartTime := ⟨63874792800000000000⟩,
      EndTime := ⟨63874792800000000000⟩, Status := "completed",
      TotalPaused := -4611686018427387904 } now = 4611686018427387904 := by
    intro now
    rw [calculateDuration_ended_trunc _ now (by decide) (by decide) (by decide)]
    decide
  obtain ⟨f1, f2, _⟩ := getUserStats_fields customPeriodDay (fun _ => ⟨0⟩)
    (MockRepository
      [{ TimeEntry.zero with
          ID := 1, UserID := 1, StartTime := ⟨63872532000000000000⟩,
          EndTime := ⟨63872532000000000000⟩, Status := "completed",
          TotalPaused := -4611686018427387904 },
       { TimeEntry.zero with
          ID := 2, UserID := 1, StartTime := ⟨63874792800000000000⟩,
          EndTime := ⟨63874792800000000000⟩, Status := "completed",
          TotalPaused := -4611686018427387904 }] none)
    1 "2025-01-01" "2025-03-31" _ rfl (List.cons_ne_nil _ _)
  rw [f1, f2]
  simp only [Statistics.processEntries, addEntry_eq, h1, h2]
  refine ⟨by decide, by decide, by decide⟩

/-- C29 (amended): for the user's paused open entry without `EndTime`, with
`StartTime ≤ PausedAt ≤ now`, `now - StartTime` below `2 ^ 24` seconds and `TotalPaused`
at least `2 ^ 24` away from the `int64` limits, the duration `CalculateDuration` reports
at clock reading `now` right after `ResumeWork` at `now` is the frozen duration reported
while paused, or one second more; it is the frozen duration when `StartTime`, `PausedAt`
and `now` are whole seconds. -/
theorem C29_resume_continues_frozen_duration (r : Repository) (now clock : Time) (u : Nat)
    (p : TimeEntry) (hget : GetActiveTimeEntry r u = some p) (hs : p.Status = StatusPaused)
    (hend : p.EndTime = Time.zero) (h1 : p.StartTime.ns ≤ p.PausedAt.ns)
    (h2 : p.PausedAt.ns ≤ now.ns) (h3 : now.ns - p.StartTime.ns < 16777216000000000)
    (hlo : minInt64 + 16777216 ≤ p.TotalPaused) (hhi : p.TotalPaused ≤ maxInt64 - 16777216) :
    ∃ a r1, ResumeWork r now u = (.ok a, r1)
      ∧ (a.CalculateDuration now = p.CalculateDuration clock
        ∨ a.CalculateDuration now = p.CalculateDuration clock + 1)
      ∧ (p.StartTime.ns % 1000000000 = 0 → p.PausedAt.ns % 1000000000 = 0 →
          now.ns % 1000000000 = 0 → a.CalculateDuration now = p.CalculateDuration clock) := by
  refine ⟨_, _, resumeWork_ok r now u p hget hs, ?_⟩
  have hfrozen := calculateDuration_trunc p clock p.PausedAt
    (by rw [if_neg (not_not.mpr hend), if_pos hs]) (by omega) (by omega)
  have hafter := calculateDuration_trunc
    { p with
      TotalPaused := wrapInt64 (p.TotalPaused
        + float64ToInt64 (Duration.Seconds (now.Sub p.PausedAt))),
      ResumedAt := now, PausedAt := Time.zero, Status := StatusActive }
    now now
    (by
      have hne : ¬ (StatusActive = StatusPaused) := active_ne_paused
      simp only [hend, ne_eq, not_true_eq_false, if_false, hne])
    (by simp only; omega) (by simp only; omega)
  simp only at hafter
  rw [hfrozen, hafter, seconds_sub_trunc (by omega) (by omega)]
  have ea : Int.tdiv (p.PausedAt.ns - p.StartTime.ns) 1000000000
      = (p.PausedAt.ns - p.StartTime.ns) / 1000000000 :=
    Int.tdiv_eq_ediv (by omega) (by norm_num)
  have eb : Int.tdiv (now.ns - p.PausedAt.ns) 1000000000
      = (now.ns - p.PausedAt.ns) / 1000000000 :=
    Int.tdiv_eq_ediv (by omega) (by norm_num)
  have ec : Int.tdiv (now.ns - p.StartTime.ns) 1000000000
      = (now.ns - p.StartTime.ns) / 1000000000 :=
    Int.tdiv_eq_ediv (by omega) (by norm_num)
  rw [ea, eb, ec]
  unfold minInt64 at hlo
  unfold maxInt64 at hhi
  rw [wrapInt64_of_range (x := p.TotalPaused + (now.ns - p.PausedAt.ns) / 1000000000)
    (by unfold minInt64; omega) (by unfold maxInt64; omega)]
  rw [wrapInt64_of_range (by unfold minInt64; omega) (by unfold maxInt64; omega)]
  rw [wrapInt64_of_range (by unfold minInt64; omega) (by unfold maxInt64; omega)]
  constructor
  · omega
  · intro w1 w2 w3
    omega

/-- C29 for an entry of user 7 started at 1.5 s, paused at 10.2 s and resumed at 15.9 s,
with the frozen duration read at 12 s. -/
theorem C29_resume_continues_frozen_duration_witness :
    ∃ a r1,
      ResumeWork
          { entries := [{ TimeEntry.zero with
              ID := 1, UserID := 7, StartTime := ⟨1500000000⟩, PausedAt := ⟨10200000000⟩,
              Status := StatusPaused }],
            categories := [], nextID := 2 } ⟨15900000000⟩ 7 = (.ok a, r1)
      ∧ (a.CalculateDuration ⟨15900000000⟩
          = ({ TimeEntry.zero with
              ID := 1, UserID := 7, StartTime := ⟨1500000000⟩, PausedAt := ⟨10200000000⟩,
              Status := StatusPaused } : TimeEntry).CalculateDuration ⟨12000000000⟩
        ∨ a.CalculateDuration ⟨15900000000⟩
          = ({ TimeEntry.zero with
              ID := 1, UserID := 7, StartTime := ⟨1500000000⟩, PausedAt := ⟨10200000000⟩,
              Status := StatusPaused } : TimeEntry).CalculateDuration ⟨12000000000⟩ + 1) :=
  match C29_resume_continues_frozen_duration
      { entries := [{ TimeEntry.zero with
          ID := 1, UserID := 7, StartTime := ⟨1500000000⟩, PausedAt := ⟨10200000000⟩,
          Status := StatusPaused }],
        categories := [], nextID := 2 }
      ⟨15900000000⟩ ⟨12000000000⟩ 7
      { TimeEntry.zero with
        ID := 1, UserID := 7, StartTime := ⟨1500000000⟩, PausedAt := ⟨10200000000⟩,
        Status := StatusPaused }
      rfl rfl rfl (by decide) (by decide) (by decide) (by decide) (by decide) with
  | ⟨a, r1, h1, h2, _⟩ => ⟨a, r1, h1, h2⟩

/-- C29 (as stated) fails: an entry of user 7 started at second 1, paused 5000000000
seconds later and resumed another 5000000000 seconds later, all at whole seconds, reports
5000000000 seconds while paused and at most 4223372037 seconds right after the resume,
because `now.Sub(StartTime)` saturates at the largest `Duration`. -/
theorem C29_saturation_counterexample :
    ∃ a r1,
      ResumeWork
          { entries := [{ TimeEntry.zero with
              ID := 1, UserID := 7, StartTime := ⟨1 * 1000000000⟩,
              PausedAt := ⟨5000000001 * 1000000000⟩, Status := StatusPaused }],
            categories := [], nextID := 2 } ⟨10000000001 * 1000000000⟩ 7 = (.ok a, r1)
      ∧ (∀ clock, ({ TimeEntry.zero with
              ID := 1, UserID := 7, StartTime := ⟨1 * 1000000000⟩,
              PausedAt := ⟨5000000001 * 1000000000⟩,
              Status := StatusPaused } : TimeEntry).CalculateDuration clock = 5000000000)
      ∧ a.CalculateDuration ⟨10000000001 * 1000000000⟩ ≤ 4223372037 := by
  refine ⟨_, _, resumeWork_ok _ ⟨10000000001 * 1000000000⟩ 7
    { TimeEntry.zero with
      ID := 1, UserID := 7, StartTime := ⟨1 * 1000000000⟩,
      PausedAt := ⟨5000000001 * 1000000000⟩, Status := StatusPaused } rfl rfl, ?_, ?_⟩
  · intro clock
    show wrapInt64 (float64ToInt64 (Duration.Seconds
      ((⟨5000000001 * 1000000000⟩ : Time).Sub ⟨1 * 1000000000⟩)) - 0) = 5000000000
    rw [seconds_sub_whole 5000000001 1 (by decide) (by decide)]
    decide
  · have hpause : wrapInt64 (0 + float64ToInt64 (Duration.Seconds
        ((⟨10000000001 * 1000000000⟩ : Time).Sub ⟨5000000001 * 1000000000⟩))) = 5000000000 := by
      rw [seconds_sub_whole 10000000001 5000000001 (by decide) (by decide)]
      decide
    have hsub : ((⟨10000000001 * 1000000000⟩ : Time).Sub ⟨1 * 1000000000⟩)
        = 9223372036854775807 := by decide
    have hb := seconds_bounds (d := 9223372036854775807) (by decide) (by decide)
    have hdiv : Int.tdiv 9223372036854775807 1000000000 = 9223372036 := by decide
    rw [hdiv] at hb
    show wrapInt64 (float64ToInt64 (Duration.Seconds
      ((⟨10000000001 * 1000000000⟩ : Time).Sub ⟨1 * 1000000000⟩))
      - wrapInt64 (0 + float64ToInt64 (Duration.Seconds
        ((⟨10000000001 * 1000000000⟩ : Time).Sub ⟨5000000001 * 1000000000⟩)))) ≤ 4223372037
    rw [hpause, hsub, wrapInt64_of_range (by unfold minInt64; omega) (by unfold maxInt64; omega)]
    omega

/-- C30 (code evaluated at the failing input): for the header `Bearer abc`, whose token
has 3 bytes and no space, `Authenticate` reaches the slice expression
`tokenString[:20]`, which is out of range; the same happens for the 19-byte token and
for the empty token, while a token of 20 bytes reaches the token validation. -/
theorem C30_short_token_slice_out_of_range (validateToken : String → Except String Nat) :
    Authenticate validateToken "Bearer abc" = .sliceOutOfRange
    ∧ Authenticate validateToken "Bearer 0123456789012345678" = .sliceOutOfRange
    ∧ Authenticate validateToken "Bearer " = .sliceOutOfRange
    ∧ Authenticate validateToken "Bearer 01234567890123456789"
      = (match validateToken "01234567890123456789" with
        | .error err => .unauthorized ("Недействительный токен: " ++ err)
        | .ok userID => .next userID) :=
  ⟨rfl, rfl, rfl, rfl⟩

end TimeTracker
